import Mathlib

/-!
# Ethernet frame decoder of libscopeprotocols

A shallow embedding of `EthernetProtocolDecoder::BytesToFrames` and
`EthernetWaveform::GetText` (src/lib/scopeprotocols/EthernetProtocolDecoder.cpp),
followed by theorems about the decoder.  Later sections embed the input validation of
the flow graph nodes and triggers, `GateFilter::Refresh`, the cycle loop of
`RMSMeasurement::Refresh`, and the configuration functions of `BERT`.

Conventions of the embedding.
* A `uint8_t` is a `Nat`; theorems that depend on the range assume `< 256`.
* `size_t`, `uint64_t` and `int64_t` values are `Nat`s standing for the 64-bit two's
  complement bit pattern.  All arithmetic the decoder does on them is unsigned 64-bit
  arithmetic (an `int64_t` operand is converted to `uint64_t` first), so subtraction is
  `sub64` and division is division of the bit patterns.
* `std::vector` is `List`, `push_back` appends at the end.
* `std::map<std::string, std::string>` is an association list kept sorted by key
  (`mapSet` is `operator[]` followed by assignment).
* The `for` loop over `i` is `loop`, which runs exactly `len` iterations unless an
  iteration executes `return`.
-/

namespace ScopeHal

/-! ## Data model -/

/-- Values of `EthernetFrameSegment::m_type` named by the decoder. -/
inductive SegmentType where
  | TYPE_INVALID
  | TYPE_TX_ERROR
  | TYPE_PREAMBLE
  | TYPE_SFD
  | TYPE_DST_MAC
  | TYPE_SRC_MAC
  | TYPE_ETHERTYPE
  | TYPE_VLAN_TAG
  | TYPE_PAYLOAD
  | TYPE_FCS_GOOD
  | TYPE_FCS_BAD
  | TYPE_NO_CARRIER
  | TYPE_INBAND_STATUS
  | TYPE_REMOTE_FAULT
  | TYPE_LOCAL_FAULT
  | TYPE_LINK_INTERRUPTION
  deriving DecidableEq, Repr

/-- One decoded symbol: `EthernetFrameSegment` (`m_type`, `m_data`). -/
structure EthernetFrameSegment where
  m_type : SegmentType
  m_data : List Nat
  deriving DecidableEq, Repr

/-- The sparse output waveform `EthernetWaveform`: the three parallel vectors and the
timescale. -/
structure EthernetWaveform where
  m_timescale : Nat
  m_offsets : List Nat
  m_durations : List Nat
  m_samples : List EthernetFrameSegment
  deriving DecidableEq, Repr

/-- A reassembled `Packet`. -/
structure Packet where
  m_offset : Nat
  m_len : Nat
  m_headers : List (String × String)
  m_data : List Nat
  m_displayBackgroundColor : String
  m_displayForegroundColor : String
  deriving DecidableEq, Repr

/-- What `BytesToFrames` uses but `EthernetProtocolDecoder.cpp` does not define: the
checksum function `CRC32(bytes, start, end)`, the table entry
`m_backgroundColors[PROTO_COLOR_ERROR]`, and the scalar members of a freshly constructed
`Packet` (its map and vector members start empty). -/
structure Externals where
  CRC32 : List Nat → Nat → Nat → Nat
  errorColor : String
  newOffset : Nat
  newLen : Nat
  newBackground : String
  newForeground : String

/-- Unsigned 64-bit subtraction. -/
def sub64 (a b : Nat) : Nat := (a + 2 ^ 64 - b) % 2 ^ 64

/-- The statement `m[k] = v` on a `std::map<std::string, std::string>`.  Keys are ordered
as `std::string` orders them, character by character. -/
def mapSet : List (String × String) → String → String → List (String × String)
  | [], k, v => [(k, v)]
  | (k1, v1) :: rest, k, v =>
    if k = k1 then (k, v) :: rest
    else if k.data < k1.data then (k, v) :: (k1, v1) :: rest
    else (k1, v1) :: mapSet rest k v

/-- Lookup of a key in a header map. -/
def mapFind (m : List (String × String)) (k : String) : Option String :=
  (m.find? (fun kv => kv.1 == k)).map Prod.snd

/-- The conversion `%02x` of `snprintf`: lowercase hexadecimal, zero padded to two
digits. -/
def fmt02x (b : Nat) : String :=
  let ds := Nat.toDigits 16 b
  String.mk (List.replicate (2 - ds.length) '0' ++ ds)

/-- The conversion `%d` of `snprintf` on a non-negative value. -/
def fmtd (n : Nat) : String := String.mk (Nat.toDigits 10 n)

/-- The format `"%02x:%02x:%02x:%02x:%02x:%02x"` applied to `m_data[0..5]`. -/
def formatMAC (d : List Nat) : String :=
  fmt02x (d.getD 0 0) ++ ":" ++ fmt02x (d.getD 1 0) ++ ":" ++ fmt02x (d.getD 2 0) ++ ":" ++
  fmt02x (d.getD 3 0) ++ ":" ++ fmt02x (d.getD 4 0) ++ ":" ++ fmt02x (d.getD 5 0)

/-- The expression `(m_data[0] << 8) | m_data[1]` stored in a `uint16_t`. -/
def word16 (d : List Nat) : Nat := ((d.getD 0 0 <<< 8) ||| d.getD 1 0) % 2 ^ 16

/-! ## The decoder loop -/

/-- Local variables of `BytesToFrames` together with the objects it writes to. -/
structure LoopState where
  segment : EthernetFrameSegment
  start : Nat
  crcstart : Nat
  crc_expected : Nat
  crc_actual : Nat
  pack : Packet
  cap : EthernetWaveform
  m_packets : List Packet

/-- How one iteration of the loop ends: `break` out of the switch (go on with the next
byte) or `return`. -/
inductive Flow where
  | next (s : LoopState)
  | ret (s : LoopState)

/-- The statement `cap->m_offsets.push_back(v)`. -/
def pushOffset (cap : EthernetWaveform) (v : Nat) : EthernetWaveform :=
  { cap with m_offsets := cap.m_offsets ++ [v] }

/-- The statement `cap->m_durations.push_back(v)`. -/
def pushDuration (cap : EthernetWaveform) (v : Nat) : EthernetWaveform :=
  { cap with m_durations := cap.m_durations ++ [v] }

/-- The statement `cap->m_samples.push_back(seg)`. -/
def pushSample (cap : EthernetWaveform) (seg : EthernetFrameSegment) : EthernetWaveform :=
  { cap with m_samples := cap.m_samples ++ [seg] }

/-- The block `if(segment.m_data.empty()) { start = starts[i]; push offset }` that opens
every multi-byte field. -/
def openField (starts : List Nat) (i : Nat) (s : LoopState) : LoopState :=
  if s.segment.m_data.isEmpty then
    { s with
      start := starts.getD i 0
      cap := pushOffset s.cap (starts.getD i 0 / s.cap.m_timescale) }
  else s

/-- The statement `segment.m_data.push_back(bytes[i])`. -/
def addByte (bytes : List Nat) (i : Nat) (s : LoopState) : LoopState :=
  { s with segment := { s.segment with m_data := s.segment.m_data ++ [bytes.getD i 0] } }

/-- The two statements that close a field: push the duration `(ends[i] - start) /
timescale` and the segment. -/
def closeField (ends : List Nat) (i : Nat) (s : LoopState) : LoopState :=
  { s with
    cap := pushSample (pushDuration s.cap (sub64 (ends.getD i 0) s.start / s.cap.m_timescale))
      s.segment }

/-- Assignment to `pack->m_headers[k]`. -/
def setHeader (k v : String) (s : LoopState) : LoopState :=
  { s with pack := { s.pack with m_headers := mapSet s.pack.m_headers k v } }

/-- Assignment to both display colours of the packet. -/
def setColors (bg fg : String) (s : LoopState) : LoopState :=
  { s with pack := { s.pack with m_displayBackgroundColor := bg, m_displayForegroundColor := fg } }

/-- Reset `segment` to an empty segment of the given type. -/
def resetSegment (t : SegmentType) (s : LoopState) : LoopState :=
  { s with segment := ⟨t, []⟩ }

/-- Iteration body, `case TYPE_INVALID`. -/
def caseInvalid (bytes starts : List Nat) (i : Nat) (s : LoopState) : LoopState :=
  if bytes.getD i 0 ≠ 0x55 then s
  else
    { s with
      start := starts.getD i 0
      segment := ⟨SegmentType.TYPE_PREAMBLE, [0x55]⟩
      pack := { s.pack with m_offset := starts.getD i 0 } }

/-- Iteration body, `case TYPE_PREAMBLE`. -/
def casePreamble (bytes starts ends : List Nat) (i : Nat) (s : LoopState) : LoopState :=
  if bytes.getD i 0 = 0xd5 then
    let ts := s.cap.m_timescale
    let cap1 := pushSample (pushDuration (pushOffset s.cap (s.start / ts))
      (sub64 (starts.getD i 0) s.start / ts)) s.segment
    let start1 := starts.getD i 0
    let cap2 := pushSample (pushDuration (pushOffset cap1 (start1 / ts))
      (sub64 (ends.getD i 0) (starts.getD i 0) / ts)) ⟨SegmentType.TYPE_SFD, [0xd5]⟩
    { s with
      cap := cap2
      start := start1
      segment := ⟨SegmentType.TYPE_DST_MAC, []⟩
      crcstart := i + 1 }
  else if bytes.getD i 0 = 0x55 then
    { s with segment := { s.segment with m_data := s.segment.m_data ++ [0x55] } }
  else s

/-- Iteration body, `case TYPE_DST_MAC`. -/
def caseDstMac (bytes starts ends : List Nat) (i : Nat) (s : LoopState) : LoopState :=
  let s1 := addByte bytes i (openField starts i s)
  if s1.segment.m_data.length = 6 then
    resetSegment SegmentType.TYPE_SRC_MAC
      (setHeader "Dest MAC" (formatMAC s1.segment.m_data) (closeField ends i s1))
  else s1

/-- Iteration body, `case TYPE_SRC_MAC`. -/
def caseSrcMac (bytes starts ends : List Nat) (i : Nat) (s : LoopState) : LoopState :=
  let s1 := addByte bytes i (openField starts i s)
  if s1.segment.m_data.length = 6 then
    resetSegment SegmentType.TYPE_ETHERTYPE
      (setHeader "Src MAC" (formatMAC s1.segment.m_data) (closeField ends i s1))
  else s1

/-- The classification of the type/length field inside `case TYPE_ETHERTYPE`: the
Ethertype header and the two colours. -/
def classify (bytes : List Nat) (i : Nat) (d : List Nat) (s : LoopState) : LoopState :=
  let ethertype := word16 d
  if ethertype < 1500 then
    let s1 := setColors "#33a02c" "#000000" (setHeader "Ethertype" "LLC" s)
    if i + 1 < bytes.length then
      if bytes.getD (i + 1) 0 = 0x42 then
        setColors "#fdbf6f" "#000000" (setHeader "Ethertype" "STP" s1)
      else s1
    else s1
  else if ethertype = 0x0800 then
    setColors "#a6cee3" "#000000" (setHeader "Ethertype" "IPv4" s)
  else if ethertype = 0x0806 then
    setColors "#ffff99" "#000000" (setHeader "Ethertype" "ARP" s)
  else if ethertype = 0x8100 then
    setColors "#b2df8a" "#000000" (setHeader "Ethertype" "802.1q" s)
  else if ethertype = 0x86DD then
    setColors "#1f78b4" "#ffffff" (setHeader "Ethertype" "IPv6" s)
  else if ethertype = 0x88cc then
    setColors "#5e4fa2" "#ffffff" (setHeader "Ethertype" "LLDP" s)
  else
    setColors "#fb9a99" "#000000"
      (setHeader "Ethertype" (fmt02x (d.getD 0 0) ++ fmt02x (d.getD 1 0)) s)

/-- Iteration body, `case TYPE_ETHERTYPE`. -/
def caseEthertype (bytes starts ends : List Nat) (i : Nat) (s : LoopState) : LoopState :=
  let s1 := addByte bytes i (openField starts i s)
  if s1.segment.m_data.length = 2 then
    let d := s1.segment.m_data
    let s2 := classify bytes i d (closeField ends i s1)
    if word16 d = 0x8100 then resetSegment SegmentType.TYPE_VLAN_TAG s2
    else resetSegment SegmentType.TYPE_PAYLOAD s2
  else s1

/-- Iteration body, `case TYPE_VLAN_TAG`. -/
def caseVlanTag (bytes starts ends : List Nat) (i : Nat) (s : LoopState) : LoopState :=
  let s1 := addByte bytes i (openField starts i s)
  if s1.segment.m_data.length = 2 then
    let tag := word16 s1.segment.m_data
    setHeader "VLAN" (fmtd (tag &&& 0xfff))
      (resetSegment SegmentType.TYPE_ETHERTYPE (closeField ends i s1))
  else s1

/-- Iteration body, `case TYPE_PAYLOAD`.  The comparison `i == bytes.size() - 5` is
unsigned: for fewer than five bytes the right-hand side wraps around. -/
def casePayload (suppressedPreambleAndFCS : Bool) (bytes starts ends : List Nat) (i : Nat)
    (s : LoopState) : Flow :=
  let start1 := starts.getD i 0
  let ts := s.cap.m_timescale
  let seg : EthernetFrameSegment := ⟨SegmentType.TYPE_PAYLOAD, [bytes.getD i 0]⟩
  let cap1 := pushSample (pushDuration (pushOffset s.cap (start1 / ts))
    (sub64 (ends.getD i 0) start1 / ts)) seg
  let s1 : LoopState :=
    { s with
      start := start1
      cap := cap1
      segment := seg
      pack := { s.pack with m_data := s.pack.m_data ++ [bytes.getD i 0] } }
  if suppressedPreambleAndFCS then
    if i = sub64 bytes.length 1 then
      Flow.ret
        { s1 with
          pack := { s1.pack with m_len := sub64 (ends.getD i 0) s1.pack.m_offset }
          m_packets := s1.m_packets ++
            [{ s1.pack with m_len := sub64 (ends.getD i 0) s1.pack.m_offset }] }
    else Flow.next s1
  else if i = sub64 bytes.length 5 then
    Flow.next (resetSegment SegmentType.TYPE_FCS_GOOD s1)
  else Flow.next s1

/-- Iteration body, `case TYPE_FCS_GOOD`. -/
def caseFcs (ext : Externals) (bytes starts ends : List Nat) (i : Nat) (s : LoopState) : Flow :=
  let s0 :=
    if s.segment.m_data.isEmpty then
      { s with
        crc_expected := ext.CRC32 bytes s.crcstart (sub64 i 1)
        start := starts.getD i 0
        cap := pushOffset s.cap (starts.getD i 0 / s.cap.m_timescale) }
    else s
  let s1 := addByte bytes i s0
  let s2 := { s1 with crc_actual := ((s1.crc_actual <<< 8) % 2 ^ 32) ||| bytes.getD i 0 }
  if s2.segment.m_data.length = 4 then
    let s3 :=
      if s2.crc_actual ≠ s2.crc_expected then
        setColors ext.errorColor "#ffffff"
          { s2 with segment := { s2.segment with m_type := SegmentType.TYPE_FCS_BAD } }
      else s2
    let s4 := closeField ends i s3
    let p := { s4.pack with m_len := sub64 (ends.getD i 0) s4.pack.m_offset }
    Flow.ret { s4 with pack := p, m_packets := s4.m_packets ++ [p] }
  else Flow.next s2

/-- One iteration of the loop: the `switch(segment.m_type)`. -/
def step (ext : Externals) (suppressedPreambleAndFCS : Bool) (bytes starts ends : List Nat)
    (i : Nat) (s : LoopState) : Flow :=
  match s.segment.m_type with
  | SegmentType.TYPE_INVALID => Flow.next (caseInvalid bytes starts i s)
  | SegmentType.TYPE_PREAMBLE => Flow.next (casePreamble bytes starts ends i s)
  | SegmentType.TYPE_DST_MAC => Flow.next (caseDstMac bytes starts ends i s)
  | SegmentType.TYPE_SRC_MAC => Flow.next (caseSrcMac bytes starts ends i s)
  | SegmentType.TYPE_ETHERTYPE => Flow.next (caseEthertype bytes starts ends i s)
  | SegmentType.TYPE_VLAN_TAG => Flow.next (caseVlanTag bytes starts ends i s)
  | SegmentType.TYPE_PAYLOAD => casePayload suppressedPreambleAndFCS bytes starts ends i s
  | SegmentType.TYPE_FCS_GOOD => caseFcs ext bytes starts ends i s
  | _ => Flow.next s

/-- The loop `for(size_t i=...; i<len; i++)`: `loop n i s` runs the `n` iterations
`i, i+1, ..., i+n-1` from state `s`, stopping early at a `return`. -/
def loop (ext : Externals) (suppressedPreambleAndFCS : Bool) (bytes starts ends : List Nat) :
    Nat → Nat → LoopState → Flow
  | 0, _, s => Flow.next s
  | n + 1, i, s =>
    match step ext suppressedPreambleAndFCS bytes starts ends i s with
    | Flow.next s1 => loop ext suppressedPreambleAndFCS bytes starts ends n (i + 1) s1
    | Flow.ret s1 => Flow.ret s1

/-- The state before the loop. -/
def initState (ext : Externals) (m_packets : List Packet) (cap : EthernetWaveform)
    (suppressedPreambleAndFCS : Bool) : LoopState :=
  { segment :=
      ⟨if suppressedPreambleAndFCS then SegmentType.TYPE_DST_MAC else SegmentType.TYPE_INVALID,
        []⟩
    start := 0
    crcstart := 0
    crc_expected := 0
    crc_actual := 0
    pack := ⟨ext.newOffset, ext.newLen, [], [], ext.newBackground, ext.newForeground⟩
    cap := cap
    m_packets := m_packets }

/-- What a call leaves behind: the output waveform and the packet list of the decoder. -/
structure Decoded where
  cap : EthernetWaveform
  m_packets : List Packet
  deriving DecidableEq, Repr

/-- The state a flow ends in. -/
def Flow.state : Flow → LoopState
  | Flow.next s => s
  | Flow.ret s => s

/-- The function `EthernetProtocolDecoder::BytesToFrames`.  When the loop runs to the end
without `return`, the packet under construction is deleted and only the waveform keeps what
was pushed. -/
def BytesToFrames (ext : Externals) (m_packets : List Packet) (bytes starts ends : List Nat)
    (cap : EthernetWaveform) (suppressedPreambleAndFCS : Bool) : Decoded :=
  let f := loop ext suppressedPreambleAndFCS bytes starts ends bytes.length 0
    (initState ext m_packets cap suppressedPreambleAndFCS)
  ⟨f.state.cap, f.state.m_packets⟩

/-! ## Segment text -/

/-- The function `EthernetWaveform::GetText`, on the sample list of the waveform. -/
def GetText (m_samples : List EthernetFrameSegment) (i : Nat) : String :=
  let sample := m_samples.getD i ⟨SegmentType.TYPE_INVALID, []⟩
  let d := sample.m_data
  match sample.m_type with
  | SegmentType.TYPE_TX_ERROR => "ERROR"
  | SegmentType.TYPE_PREAMBLE => "PREAMBLE"
  | SegmentType.TYPE_SFD => "SFD"
  | SegmentType.TYPE_NO_CARRIER => "NO CARRIER"
  | SegmentType.TYPE_DST_MAC =>
    if d.length ≠ 6 then "[invalid dest MAC length]" else "To " ++ formatMAC d
  | SegmentType.TYPE_SRC_MAC =>
    if d.length ≠ 6 then "[invalid src MAC length]" else "From " ++ formatMAC d
  | SegmentType.TYPE_VLAN_TAG =>
    let tag := word16 d
    let sret := "VLAN " ++ fmtd (tag &&& 0xfff) ++ ", PCP " ++ fmtd (tag >>> 13)
    if tag &&& 0x1000 ≠ 0 then sret ++ ", DE" else sret
  | SegmentType.TYPE_ETHERTYPE =>
    if d.length ≠ 2 then "[invalid Ethertype length]"
    else
      let ethertype := word16 d
      if ethertype < 1500 then
        if i + 1 < m_samples.length then
          if ((m_samples.getD (i + 1) ⟨SegmentType.TYPE_INVALID, []⟩).m_data.getD 0 0) = 0x42 then
            "Type: " ++ "STP"
          else "Type: " ++ "LLC"
        else "Type: " ++ "LLC"
      else if ethertype = 0x0800 then "Type: " ++ "IPv4"
      else if ethertype = 0x0806 then "Type: " ++ "ARP"
      else if ethertype = 0x8100 then "Type: " ++ "802.1q"
      else if ethertype = 0x86dd then "Type: " ++ "IPv6"
      else if ethertype = 0x88cc then "Type: " ++ "LLDP"
      else if ethertype = 0x88f7 then "Type: " ++ "PTP"
      else
        let ds := Nat.toDigits 16 ethertype
        "Type: " ++ ("0x" ++ String.mk (List.replicate (4 - ds.length) '0' ++ ds))
  | SegmentType.TYPE_PAYLOAD =>
    d.foldl (fun ret b => ret ++ (fmt02x b ++ " ")) ""
  | SegmentType.TYPE_INBAND_STATUS =>
    let status := d.getD 0 0
    let up := status &&& 1
    let rawspeed := (status >>> 1) &&& 3
    let duplex := (status >>> 3) &&& 1
    let speed := if rawspeed = 1 then 100 else if rawspeed = 2 then 1000 else 10
    (if up ≠ 0 then "up" else "down") ++ ", " ++ (if duplex ≠ 0 then "full" else "half") ++
      " duplex, " ++ fmtd speed ++ " Mbps"
  | SegmentType.TYPE_FCS_GOOD | SegmentType.TYPE_FCS_BAD =>
    if d.length ≠ 4 then "[invalid FCS length]"
    else "CRC: " ++ fmt02x (d.getD 0 0) ++ fmt02x (d.getD 1 0) ++ fmt02x (d.getD 2 0) ++
      fmt02x (d.getD 3 0)
  | SegmentType.TYPE_LOCAL_FAULT => "Local Fault"
  | SegmentType.TYPE_REMOTE_FAULT => "Remote Fault"
  | SegmentType.TYPE_LINK_INTERRUPTION => "Link Interruption"
  | _ => ""

/-! ## The checksum function -/

/-- One bit of the checksum update: `b = (crc ^ (d >> i)) & 1; crc >>= 1; if(b) crc ^= poly`. -/
def crcBit (crc d i : Nat) : Nat :=
  if (crc ^^^ (d >>> i)) &&& 1 = 1 then (crc >>> 1) ^^^ 0xedb88320 else crc >>> 1

/-- The eight bit steps for one data byte, least significant bit first. -/
def crcByte (crc d : Nat) : Nat :=
  (List.range 8).foldl (fun c i => crcBit c d i) crc

/-- The final byte swap and complement of the 32-bit register. -/
def crcFinish (crc : Nat) : Nat :=
  0xffffffff ^^^
    ((((crc &&& 0x000000ff) <<< 24) ||| ((crc &&& 0x0000ff00) <<< 8) |||
      ((crc &&& 0x00ff0000) >>> 8) ||| (crc >>> 24)) % 2 ^ 32)

/-- Modelled from the spec: the function `CRC32(bytes, start, end)` is called by the decoder
but defined elsewhere in the library.  This is the IEEE 802.3 CRC-32 of the trailer: the
reflected algorithm with polynomial `0xEDB88320`, initial value `0xFFFFFFFF`, over the
bytes with index `start` to `end` inclusive, complemented and byte-swapped so that it
compares equal to the four trailer bytes read big-endian. -/
def CRC32 (bytes : List Nat) (start end_ : Nat) : Nat :=
  crcFinish ((List.range (end_ + 1 - start)).foldl
    (fun c n => crcByte c (bytes.getD (start + n) 0)) 0xffffffff)

/-- The externals with the standard checksum, a red error colour and zeroed packets. -/
def stdExt : Externals :=
  { CRC32 := CRC32
    errorColor := "#ff0000"
    newOffset := 0
    newLen := 0
    newBackground := "#000000"
    newForeground := "#ffffff" }

/-! ## States reached after whole fields -/

/-- The state after a preamble of seven `0x55` bytes and the start-frame delimiter. -/
def afterPreamble (starts ends : List Nat) (i : Nat) (s : LoopState) : LoopState :=
  let ts := s.cap.m_timescale
  { s with
    start := starts.getD (i + 7) 0
    crcstart := i + 8
    segment := ⟨SegmentType.TYPE_DST_MAC, []⟩
    pack := { s.pack with m_offset := starts.getD i 0 }
    cap :=
      pushSample (pushDuration (pushOffset
        (pushSample (pushDuration (pushOffset s.cap (starts.getD i 0 / ts))
          (sub64 (starts.getD (i + 7) 0) (starts.getD i 0) / ts))
          ⟨SegmentType.TYPE_PREAMBLE, [0x55, 0x55, 0x55, 0x55, 0x55, 0x55, 0x55]⟩)
        (starts.getD (i + 7) 0 / ts))
        (sub64 (ends.getD (i + 7) 0) (starts.getD (i + 7) 0) / ts))
        ⟨SegmentType.TYPE_SFD, [0xd5]⟩ }

/-- The six bytes `bytes[i..i+5]`. -/
def six (bytes : List Nat) (i : Nat) : List Nat :=
  [bytes.getD i 0, bytes.getD (i + 1) 0, bytes.getD (i + 2) 0, bytes.getD (i + 3) 0,
    bytes.getD (i + 4) 0, bytes.getD (i + 5) 0]

/-- The state after the six iterations of an address field that started empty; `t` is
the segment type of the field, `k` the header it fills and `t1` the next field. -/
def afterMac (t t1 : SegmentType) (k : String) (bytes starts ends : List Nat) (i : Nat)
    (s : LoopState) : LoopState :=
  let ts := s.cap.m_timescale
  { s with
    start := starts.getD i 0
    segment := ⟨t1, []⟩
    cap := pushSample (pushDuration (pushOffset s.cap (starts.getD i 0 / ts))
      (sub64 (ends.getD (i + 5) 0) (starts.getD i 0) / ts)) ⟨t, six bytes i⟩
    pack := { s.pack with m_headers := mapSet s.pack.m_headers k (formatMAC (six bytes i)) } }

/-- The state after the two iterations of a type/length field that started empty. -/
def afterEthertype (bytes starts ends : List Nat) (i : Nat) (s : LoopState) : LoopState :=
  let ts := s.cap.m_timescale
  let d := [bytes.getD i 0, bytes.getD (i + 1) 0]
  let s1 : LoopState :=
    { s with
      start := starts.getD i 0
      segment := ⟨SegmentType.TYPE_ETHERTYPE, d⟩
      cap := pushSample (pushDuration (pushOffset s.cap (starts.getD i 0 / ts))
        (sub64 (ends.getD (i + 1) 0) (starts.getD i 0) / ts)) ⟨SegmentType.TYPE_ETHERTYPE, d⟩ }
  resetSegment
    (if word16 d = 0x8100 then SegmentType.TYPE_VLAN_TAG else SegmentType.TYPE_PAYLOAD)
    (classify bytes (i + 1) d s1)

/-- The state after the two iterations of a tag field that started empty. -/
def afterVlanTag (bytes starts ends : List Nat) (i : Nat) (s : LoopState) : LoopState :=
  let ts := s.cap.m_timescale
  let d := [bytes.getD i 0, bytes.getD (i + 1) 0]
  { s with
    start := starts.getD i 0
    segment := ⟨SegmentType.TYPE_ETHERTYPE, []⟩
    cap := pushSample (pushDuration (pushOffset s.cap (starts.getD i 0 / ts))
      (sub64 (ends.getD (i + 1) 0) (starts.getD i 0) / ts)) ⟨SegmentType.TYPE_VLAN_TAG, d⟩
    pack := { s.pack with m_headers := mapSet s.pack.m_headers "VLAN" (fmtd (word16 d &&& 0xfff)) } }

/-- The state after `m + 1` payload iterations starting at index `i`, none of which is the
fifth byte from the end. -/
def afterPayload (bytes starts ends : List Nat) (i m : Nat) (s : LoopState) : LoopState :=
  let ts := s.cap.m_timescale
  { s with
    start := starts.getD (i + m) 0
    segment := ⟨SegmentType.TYPE_PAYLOAD, [bytes.getD (i + m) 0]⟩
    cap :=
      { s.cap with
        m_offsets := s.cap.m_offsets ++
          (List.range (m + 1)).map (fun j => starts.getD (i + j) 0 / ts)
        m_durations := s.cap.m_durations ++
          (List.range (m + 1)).map
            (fun j => sub64 (ends.getD (i + j) 0) (starts.getD (i + j) 0) / ts)
        m_samples := s.cap.m_samples ++
          (List.range (m + 1)).map
            (fun j => (⟨SegmentType.TYPE_PAYLOAD, [bytes.getD (i + j) 0]⟩ : EthernetFrameSegment)) }
    pack :=
      { s.pack with
        m_data := s.pack.m_data ++ (List.range (m + 1)).map (fun j => bytes.getD (i + j) 0) } }

/-- The accumulation `crc_actual = (crc_actual << 8) | b` in a `uint32_t`, over the bytes
of a list. -/
def shiftIn (acc : Nat) (d : List Nat) : Nat :=
  d.foldl (fun a b => ((a <<< 8) % 2 ^ 32) ||| b) acc

/-- The four bytes `bytes[i..i+3]`. -/
def four (bytes : List Nat) (i : Nat) : List Nat :=
  [bytes.getD i 0, bytes.getD (i + 1) 0, bytes.getD (i + 2) 0, bytes.getD (i + 3) 0]

/-- The state in which the loop returns after the four checksum iterations
`i, ..., i+3`, entered with an empty segment. -/
def afterFcs (ext : Externals) (bytes starts ends : List Nat) (i : Nat) (s : LoopState) :
    LoopState :=
  let ts := s.cap.m_timescale
  let d := four bytes i
  let expected := ext.CRC32 bytes s.crcstart (sub64 i 1)
  let actual := shiftIn s.crc_actual d
  let seg : EthernetFrameSegment :=
    ⟨if actual ≠ expected then SegmentType.TYPE_FCS_BAD else SegmentType.TYPE_FCS_GOOD, d⟩
  let pack0 : Packet :=
    if actual ≠ expected then
      { s.pack with
        m_displayBackgroundColor := ext.errorColor
        m_displayForegroundColor := "#ffffff" }
    else s.pack
  let p : Packet := { pack0 with m_len := sub64 (ends.getD (i + 3) 0) pack0.m_offset }
  { s with
    crc_expected := expected
    crc_actual := actual
    start := starts.getD i 0
    segment := seg
    cap := pushSample (pushDuration (pushOffset s.cap (starts.getD i 0 / ts))
      (sub64 (ends.getD (i + 3) 0) (starts.getD i 0) / ts)) seg
    pack := p
    m_packets := s.m_packets ++ [p] }

/-- The state in which the loop returns on an untagged frame with `m + 1` payload bytes:
the composition of the field runs. -/
def untaggedFinal (ext : Externals) (m_packets : List Packet) (bytes starts ends : List Nat)
    (cap : EthernetWaveform) (m : Nat) : LoopState :=
  afterFcs ext bytes starts ends (23 + m)
    (resetSegment SegmentType.TYPE_FCS_GOOD
      (afterPayload bytes starts ends 22 m
        (afterEthertype bytes starts ends 20
          (afterMac SegmentType.TYPE_SRC_MAC SegmentType.TYPE_ETHERTYPE "Src MAC" bytes starts ends 14
            (afterMac SegmentType.TYPE_DST_MAC SegmentType.TYPE_SRC_MAC "Dest MAC" bytes starts ends 8
              (afterPreamble starts ends 0 (initState ext m_packets cap false)))))))

/-! ## Vocabulary of the specification -/

/-- The frame layout of the spec: seven preamble bytes `0x55`, the start-frame delimiter
`0xd5`, destination, source, the type field (with tag, when there is one), payload,
trailer. -/
def frame (dst src ety payload trailer : List Nat) : List Nat :=
  List.replicate 7 0x55 ++ [0xd5] ++ dst ++ src ++ ety ++ payload ++ trailer

/-- One lowercase hexadecimal digit. -/
def hexDigit (n : Nat) : Char := "0123456789abcdef".data.getD n '0'

/-- A byte as two lowercase hexadecimal digits, high nibble first. -/
def hexPair (b : Nat) : String := String.mk [hexDigit (b / 16), hexDigit (b % 16)]

/-- Bytes as two-digit hexadecimal numbers joined by colons. -/
def colonHex (l : List Nat) : String := ":".intercalate (l.map hexPair)

/-- The big-endian value of a byte string. -/
def be32 (l : List Nat) : Nat := l.foldl (fun a b => a * 256 + b) 0

/-- A destination address used in the examples. -/
def exDst : List Nat := [0x01, 0x02, 0x03, 0x04, 0x05, 0x06]

/-- A source address used in the examples. -/
def exSrc : List Nat := [0x07, 0x08, 0x09, 0x0a, 0x0b, 0x0c]

/-- An empty output waveform with timescale one. -/
def emptyCap : EthernetWaveform := ⟨1, [], [], []⟩

/-- A two-byte payload used in the examples. -/
def exPayload : List Nat := [0xaa, 0xbb]

/-- The checksum of `exDst`, `exSrc`, the IPv4 type and `exPayload`, as trailer bytes. -/
def exTrailer : List Nat := [5, 111, 120, 166]

/-- Start times of `n` bytes, eight time units per byte. -/
def exStarts (n : Nat) : List Nat := (List.range n).map (fun i => 8 * i)

/-- End times of `n` bytes, eight time units per byte. -/
def exEnds (n : Nat) : List Nat := (List.range n).map (fun i => 8 * i + 8)

/-- The state `s` seen from a call whose output waveform and packet list already held
`po`, `pd`, `ps` and `pp` before the call. -/
def shift (po pd : List Nat) (ps : List EthernetFrameSegment) (pp : List Packet)
    (s : LoopState) : LoopState :=
  { s with
    cap :=
      { s.cap with
        m_offsets := po ++ s.cap.m_offsets
        m_durations := pd ++ s.cap.m_durations
        m_samples := ps ++ s.cap.m_samples }
    m_packets := pp ++ s.m_packets }

/-- The function `shift` on both ways an iteration can end. -/
def Flow.shift (po pd : List Nat) (ps : List EthernetFrameSegment) (pp : List Packet) :
    Flow → Flow
  | Flow.next s => Flow.next (ScopeHal.shift po pd ps pp s)
  | Flow.ret s => Flow.ret (ScopeHal.shift po pd ps pp s)

/-- The least number of input bytes the decoder still has to consume, in state `s`, before
it can take a byte as payload. -/
def need (s : LoopState) : Nat :=
  match s.segment.m_type with
  | SegmentType.TYPE_INVALID => 16
  | SegmentType.TYPE_PREAMBLE => 15
  | SegmentType.TYPE_DST_MAC => 14 - s.segment.m_data.length
  | SegmentType.TYPE_SRC_MAC => 8 - s.segment.m_data.length
  | SegmentType.TYPE_ETHERTYPE => 2 - s.segment.m_data.length
  | SegmentType.TYPE_VLAN_TAG => 4 - s.segment.m_data.length
  | _ => 0

/-- The states of the decoder before the checksum: idle, preamble, an unfinished address,
type or tag field, or payload. -/
def beforeFcs (s : LoopState) : Prop :=
  match s.segment.m_type with
  | SegmentType.TYPE_INVALID => True
  | SegmentType.TYPE_PREAMBLE => True
  | SegmentType.TYPE_DST_MAC => s.segment.m_data.length < 6
  | SegmentType.TYPE_SRC_MAC => s.segment.m_data.length < 6
  | SegmentType.TYPE_ETHERTYPE => s.segment.m_data.length < 2
  | SegmentType.TYPE_VLAN_TAG => s.segment.m_data.length < 2
  | SegmentType.TYPE_PAYLOAD => True
  | _ => False

/-- The state in which the loop returns on a frame with one 802.1q tag and `m + 1`
payload bytes: the composition of the field runs. -/
def taggedFinal (ext : Externals) (m_packets : List Packet) (bytes starts ends : List Nat)
    (cap : EthernetWaveform) (m : Nat) : LoopState :=
  afterFcs ext bytes starts ends (27 + m)
    (resetSegment SegmentType.TYPE_FCS_GOOD
      (afterPayload bytes starts ends 26 m
        (afterEthertype bytes starts ends 24
          (afterVlanTag bytes starts ends 22
            (afterEthertype bytes starts ends 20
              (afterMac SegmentType.TYPE_SRC_MAC SegmentType.TYPE_ETHERTYPE "Src MAC" bytes
                starts ends 14
                (afterMac SegmentType.TYPE_DST_MAC SegmentType.TYPE_SRC_MAC "Dest MAC" bytes
                  starts ends 8
                  (afterPreamble starts ends 0 (initState ext m_packets cap false)))))))))

/-- One past the index of the start-frame delimiter that ends the preamble: the decoder
leaves the idle state at the first byte `0x55`, and the delimiter is the first byte `0xd5`
after it. -/
def sfdEnd (bytes : List Nat) : Nat :=
  let p := bytes.findIdx (fun b => b == 0x55)
  p + 1 + (bytes.drop (p + 1)).findIdx (fun b => b == 0xd5) + 1

/-- What is known of the decoder state before iteration `i` as long as it has not reached
the checksum: nothing is published, `crc_actual` is untouched, and once the delimiter has
been seen `crcstart` is the index after it. -/
def beforeChecksum (pk : List Packet) (bytes : List Nat) (i : Nat) (s : LoopState) : Prop :=
  s.m_packets = pk ∧ s.crc_actual = 0 ∧
  match s.segment.m_type with
  | SegmentType.TYPE_INVALID => ∀ j, j < i → bytes.getD j 0 ≠ 0x55
  | SegmentType.TYPE_PREAMBLE =>
    ∃ p, p < i ∧ bytes.getD p 0 = 0x55 ∧ (∀ j, j < p → bytes.getD j 0 ≠ 0x55) ∧
      ∀ j, p < j → j < i → bytes.getD j 0 ≠ 0xd5
  | SegmentType.TYPE_DST_MAC => s.crcstart = sfdEnd bytes
  | SegmentType.TYPE_SRC_MAC => s.crcstart = sfdEnd bytes
  | SegmentType.TYPE_ETHERTYPE => s.crcstart = sfdEnd bytes
  | SegmentType.TYPE_VLAN_TAG => s.crcstart = sfdEnd bytes
  | SegmentType.TYPE_PAYLOAD => s.crcstart = sfdEnd bytes
  | _ => False

/-- The checksum register after the bytes of a list, starting from `c`. -/
def crcRun (c : Nat) (l : List Nat) : Nat := l.foldl crcByte c

/-! ## Suppressed preamble and checksum -/

/-- The input layout when the preamble and the checksum were stripped upstream:
destination, source, type field, payload. -/
def bareFrame (dst src ety payload : List Nat) : List Nat := dst ++ src ++ ety ++ payload

/-- The statements `pack->m_len = ends[i] - pack->m_offset; m_packets.push_back(pack);` -/
def publish (ends : List Nat) (i : Nat) (s : LoopState) : LoopState :=
  { s with
    pack := { s.pack with m_len := sub64 (ends.getD i 0) s.pack.m_offset }
    m_packets := s.m_packets ++ [{ s.pack with m_len := sub64 (ends.getD i 0) s.pack.m_offset }] }

/-- The state in which the loop returns on a suppressed frame with an untagged type field
and `m + 1` payload bytes: the composition of the field runs. -/
def suppressedFinal (ext : Externals) (m_packets : List Packet) (bytes starts ends : List Nat)
    (cap : EthernetWaveform) (m : Nat) : LoopState :=
  publish ends (14 + m)
    (afterPayload bytes starts ends 14 m
      (afterEthertype bytes starts ends 12
        (afterMac SegmentType.TYPE_SRC_MAC SegmentType.TYPE_ETHERTYPE "Src MAC" bytes starts ends 6
          (afterMac SegmentType.TYPE_DST_MAC SegmentType.TYPE_SRC_MAC "Dest MAC" bytes starts ends 0
            (initState ext m_packets cap true)))))

/-- Start times of `n` bytes that begin at time 100, eight time units per byte. -/
def lateStarts (n : Nat) : List Nat := (List.range n).map (fun i => 100 + 8 * i)

/-- End times of `n` bytes that begin at time 100, eight time units per byte. -/
def lateEnds (n : Nat) : List Nat := (List.range n).map (fun i => 108 + 8 * i)

/-- The checksum of `exDst`, `exSrc` and the IPv4 type alone, as trailer bytes. -/
def exTrailerEmpty : List Nat := [60, 196, 203, 60]

/-! ## Facts kept along the loop -/

/-- What is known of `pack->m_offset` before iteration `i`: while the decoder is idle no
byte `0x55` has been seen, and afterwards the offset is the start time of the first
`0x55`. -/
def offsetSet (bytes starts : List Nat) (i : Nat) (s : LoopState) : Prop :=
  match s.segment.m_type with
  | SegmentType.TYPE_INVALID => ∀ j, j < i → bytes.getD j 0 ≠ 0x55
  | _ => s.pack.m_offset = starts.getD (bytes.findIdx (fun b => b == 0x55)) 0

/-- The data of the last type/length segment among the emitted samples. -/
def lastTypeField (samples : List EthernetFrameSegment) : Option (List Nat) :=
  ((samples.filter (fun x => decide (x.m_type = SegmentType.TYPE_ETHERTYPE))).getLast?).map
    EthernetFrameSegment.m_data

/-- The name of the type/length value `v` as the specification gives it, `next` being the
input byte after the field when there is one: below 1500 a length ("STP" when the next
byte is `0x42`, else "LLC"), otherwise the known Ethertypes by name and every other value
as four lowercase hexadecimal digits. -/
def ethertypeName (v : Nat) (next : Option Nat) : String :=
  if v < 1500 then (if next = some 0x42 then "STP" else "LLC")
  else if v = 0x0800 then "IPv4"
  else if v = 0x0806 then "ARP"
  else if v = 0x86DD then "IPv6"
  else if v = 0x88CC then "LLDP"
  else hexPair (v / 256) ++ hexPair (v % 256)

/-- The type field at index `j` of the input is the last one emitted, is not the 802.1q
tag type, and names the Ethertype header of packet `p`; the byte after it is the first
payload byte of `p`. -/
def typeNamed (bytes : List Nat) (samples : List EthernetFrameSegment) (p : Packet) (j : Nat) :
    Prop :=
  j + 2 < bytes.length ∧
  lastTypeField samples = some [bytes.getD j 0, bytes.getD (j + 1) 0] ∧
  bytes.getD j 0 * 256 + bytes.getD (j + 1) 0 ≠ 0x8100 ∧
  mapFind p.m_headers "Ethertype" =
    some (ethertypeName (bytes.getD j 0 * 256 + bytes.getD (j + 1) 0)
      (some (bytes.getD (j + 2) 0))) ∧
  p.m_data.head? = some (bytes.getD (j + 2) 0)

/-- What is known of the Ethertype header before iteration `i`, as long as no packet is
published. -/
def typeKnown (pk : List Packet) (bytes : List Nat) (i : Nat) (s : LoopState) : Prop :=
  s.m_packets = pk ∧
  match s.segment.m_type with
  | SegmentType.TYPE_ETHERTYPE =>
    s.pack.m_data = [] ∧
      (s.segment.m_data = [] ∨ (1 ≤ i ∧ s.segment.m_data = [bytes.getD (i - 1) 0]))
  | SegmentType.TYPE_PAYLOAD =>
    ∃ j, j + 2 ≤ i ∧
      lastTypeField s.cap.m_samples = some [bytes.getD j 0, bytes.getD (j + 1) 0] ∧
      bytes.getD j 0 * 256 + bytes.getD (j + 1) 0 ≠ 0x8100 ∧
      mapFind s.pack.m_headers "Ethertype" =
        some (ethertypeName (bytes.getD j 0 * 256 + bytes.getD (j + 1) 0)
          (if j + 2 < bytes.length then some (bytes.getD (j + 2) 0) else none)) ∧
      ((s.pack.m_data = [] ∧ i = j + 2) ∨ s.pack.m_data.head? = some (bytes.getD (j + 2) 0))
  | SegmentType.TYPE_FCS_GOOD => ∃ j, typeNamed bytes s.cap.m_samples s.pack j
  | _ => s.pack.m_data = []

/-! ## Flow graph nodes: inputs and their validation

Pointers are optional values (`none` is the null pointer); instruments and waveforms are
identified by a number. -/

/-- Modelled from the spec: the enumeration `Stream::StreamType` is declared outside the
sources at hand.  The sources name `STREAM_TYPE_ANALOG`, `STREAM_TYPE_ANALOG_SCALAR` and
`STREAM_TYPE_TRIGGER`; the other values stand for the digital and remaining kinds of
stream the specification speaks of. -/
inductive StreamType
  | STREAM_TYPE_ANALOG
  | STREAM_TYPE_DIGITAL
  | STREAM_TYPE_DIGITAL_BUS
  | STREAM_TYPE_TRIGGER
  | STREAM_TYPE_PROTOCOL
  | STREAM_TYPE_UNDEFINED
  | STREAM_TYPE_ANALOG_SCALAR
  deriving DecidableEq, Repr

/-- What the code at hand observes of a channel object (`InstrumentChannel` and its
subclasses, declared outside the sources): whether `dynamic_cast` to
`OscilloscopeChannel*`, `DigitalInputChannel*` and `DigitalIOChannel*` succeeds, and the
results of `GetInstrument()`, `OscilloscopeChannel::GetScope()`, `GetType(stream)` and
`GetData(stream)`. -/
structure Channel where
  isOscilloscopeChannel : Bool
  isDigitalInputChannel : Bool
  isDigitalIOChannel : Bool
  GetInstrument : Option Nat
  GetScope : Option Nat
  GetType : Nat → StreamType
  GetData : Nat → Option Nat

/-- The class `StreamDescriptor`: a channel pointer and a stream index. -/
structure StreamDescriptor where
  m_channel : Option Channel
  m_stream : Nat

/-- The function `StreamDescriptor::GetType`. -/
def StreamDescriptor.GetType (stream : StreamDescriptor) : StreamType :=
  match stream.m_channel with
  | none => StreamType.STREAM_TYPE_ANALOG
  | some c => c.GetType stream.m_stream

/-- The members of `FlowGraphNode` that hold its inputs. -/
structure FlowGraphNode where
  m_signalNames : List String
  m_inputs : List StreamDescriptor

/-- The function `FlowGraphNode::GetInputWaveform`.  The outer `none` is a fault: an index
outside `m_inputs`, or a call through a null channel pointer; `some none` is the returned
null pointer. -/
def FlowGraphNode.GetInputWaveform (node : FlowGraphNode) (i : Nat) : Option (Option Nat) :=
  match node.m_inputs[i]? with
  | none => none
  | some d =>
    let chan := d.m_channel
    if chan.isNone then some none
    else
      match chan with
      | none => none
      | some c => some (c.GetData d.m_stream)

/-- Modelled from the spec: the constructor `FlowGraphNode::FlowGraphNode` is defined
outside the sources; a new node has no input slots. -/
def FlowGraphNode.ctor : FlowGraphNode := ⟨[], []⟩

/-- Modelled from the spec: `FlowGraphNode::CreateInput(name)` is declared in
`FlowGraphNode.h` and defined outside the sources; it declares one more named input slot,
which is unbound (a null descriptor). -/
def FlowGraphNode.CreateInput (name : String) (node : FlowGraphNode) : FlowGraphNode :=
  { m_signalNames := node.m_signalNames ++ [name]
    m_inputs := node.m_inputs ++ [⟨none, 0⟩] }

/-- The inputs declared by the constructor `EdgeTrigger::EdgeTrigger`. -/
def EdgeTrigger.ctor : FlowGraphNode :=
  FlowGraphNode.CreateInput "din" FlowGraphNode.ctor

/-- The inputs declared by the constructor `WindowTrigger::WindowTrigger`. -/
def WindowTrigger.ctor : FlowGraphNode :=
  FlowGraphNode.CreateInput "din" FlowGraphNode.ctor

/-- The inputs declared by the constructor `NthEdgeBurstTrigger::NthEdgeBurstTrigger`. -/
def NthEdgeBurstTrigger.ctor : FlowGraphNode :=
  FlowGraphNode.CreateInput "din" FlowGraphNode.ctor

/-- The expression `dynamic_cast<OscilloscopeChannel*>(p)`. -/
def asOscilloscopeChannel (p : Option Channel) : Option Channel :=
  p.filter (fun c => c.isOscilloscopeChannel)

/-- The expression `dynamic_cast<DigitalInputChannel*>(p)`. -/
def asDigitalInputChannel (p : Option Channel) : Option Channel :=
  p.filter (fun c => c.isDigitalInputChannel)

/-- The expression `dynamic_cast<DigitalIOChannel*>(p)`. -/
def asDigitalIOChannel (p : Option Channel) : Option Channel :=
  p.filter (fun c => c.isDigitalIOChannel)

/-- The function `EdgeTrigger::ValidateChannel`, `m_scope` being the scope of the trigger. -/
def EdgeTrigger.ValidateChannel (m_scope : Option Nat) (i : Nat) (stream : StreamDescriptor) :
    Bool :=
  if i > 0 then false
  else
    match stream.m_channel with
    | none => false
    | some c =>
      let schan := asOscilloscopeChannel stream.m_channel
      let di := asDigitalInputChannel stream.m_channel
      let dio := asDigitalIOChannel stream.m_channel
      if schan.isNone && di.isNone && dio.isNone then false
      else if c.GetInstrument ≠ m_scope then false
      else true

/-- The function `WindowTrigger::ValidateChannel`. -/
def WindowTrigger.ValidateChannel (m_scope : Option Nat) (i : Nat) (stream : StreamDescriptor) :
    Bool :=
  if i > 0 then false
  else
    match asOscilloscopeChannel stream.m_channel with
    | none => false
    | some schan =>
      if schan.GetScope ≠ m_scope then false
      else if stream.GetType ≠ StreamType.STREAM_TYPE_ANALOG ∧
          stream.GetType ≠ StreamType.STREAM_TYPE_TRIGGER then false
      else true

/-- The function `NthEdgeBurstTrigger::ValidateChannel`. -/
def NthEdgeBurstTrigger.ValidateChannel (m_scope : Option Nat) (i : Nat)
    (stream : StreamDescriptor) : Bool :=
  if i > 0 then false
  else
    match asOscilloscopeChannel stream.m_channel with
    | none => false
    | some schan =>
      if schan.GetScope ≠ m_scope then false
      else true

/-- The function `RMSMeasurement::ValidateChannel`. -/
def RMSMeasurement.ValidateChannel (i : Nat) (stream : StreamDescriptor) : Bool :=
  if stream.m_channel.isNone then false
  else if i > 0 then false
  else if stream.GetType = StreamType.STREAM_TYPE_ANALOG then true
  else false

/-- The function `EthernetProtocolDecoder::ValidateChannel`. -/
def EthernetProtocolDecoder.ValidateChannel (i : Nat) (stream : StreamDescriptor) : Bool :=
  if stream.m_channel.isNone then false
  else if i = 0 ∧ stream.GetType = StreamType.STREAM_TYPE_ANALOG then true
  else false

/-- An analog oscilloscope channel of instrument 1, holding waveform 7 on stream 0. -/
def exScopeChannel : Channel :=
  { isOscilloscopeChannel := true
    isDigitalInputChannel := false
    isDigitalIOChannel := false
    GetInstrument := some 1
    GetScope := some 1
    GetType := fun _ => StreamType.STREAM_TYPE_ANALOG
    GetData := fun s => if s = 0 then some 7 else none }

/-- A channel of instrument 1 that is derived from `InstrumentChannel` only, as
`RFSignalGeneratorChannel` is: none of the three casts succeeds. -/
def exGeneratorChannel : Channel :=
  { isOscilloscopeChannel := false
    isDigitalInputChannel := false
    isDigitalIOChannel := false
    GetInstrument := some 1
    GetScope := none
    GetType := fun _ => StreamType.STREAM_TYPE_ANALOG
    GetData := fun _ => none }

/-! ## The bit error rate tester base class (src/lib/scopehal/BERT.cpp)

A `float` is a rational number here; the instrument is seen through the results of its
getters, and the calls of its setters are collected in a list. -/

/-- Modelled from the spec: the enumeration `BERT::Pattern` is declared in `BERT.h`, outside
the sources at hand.  Its ten enumerators are the ones `BERT.cpp` names; `outOfRange` stands
for a value of the enumeration type that is none of them. -/
inductive Pattern
  | PATTERN_PRBS7
  | PATTERN_PRBS9
  | PATTERN_PRBS11
  | PATTERN_PRBS15
  | PATTERN_PRBS23
  | PATTERN_PRBS31
  | PATTERN_CUSTOM
  | PATTERN_CLOCK_DIV2
  | PATTERN_CLOCK_DIV32
  | PATTERN_AUTO
  | outOfRange (v : Nat)
  deriving DecidableEq, Repr

/-- The function `BERT::GetPatternName`. -/
def BERT.GetPatternName (pat : Pattern) : String :=
  match pat with
  | Pattern.PATTERN_PRBS7 => "PRBS7"
  | Pattern.PATTERN_PRBS9 => "PRBS9"
  | Pattern.PATTERN_PRBS11 => "PRBS11"
  | Pattern.PATTERN_PRBS15 => "PRBS15"
  | Pattern.PATTERN_PRBS23 => "PRBS23"
  | Pattern.PATTERN_PRBS31 => "PRBS31"
  | Pattern.PATTERN_CUSTOM => "Custom"
  | Pattern.PATTERN_CLOCK_DIV2 => "2 UI clock"
  | Pattern.PATTERN_CLOCK_DIV32 => "32 UI clock"
  | Pattern.PATTERN_AUTO => "Auto"
  | Pattern.outOfRange _ => "invalid"

/-- The function `BERT::GetPatternOfName`. -/
def BERT.GetPatternOfName (name : String) : Pattern :=
  if name = "PRBS7" then Pattern.PATTERN_PRBS7
  else if name = "PRBS9" then Pattern.PATTERN_PRBS9
  else if name = "PRBS11" then Pattern.PATTERN_PRBS11
  else if name = "PRBS15" then Pattern.PATTERN_PRBS15
  else if name = "PRBS23" then Pattern.PATTERN_PRBS23
  else if name = "PRBS31" then Pattern.PATTERN_PRBS31
  else if name = "Custom" then Pattern.PATTERN_CUSTOM
  else if name = "2 UI clock" then Pattern.PATTERN_CLOCK_DIV2
  else if name = "32 UI clock" then Pattern.PATTERN_CLOCK_DIV32
  else if name = "Auto" then Pattern.PATTERN_AUTO
  else Pattern.PATTERN_PRBS7

/-- The ten patterns the claim speaks of, in the order of the enumeration. -/
def tenPatterns : List Pattern :=
  [Pattern.PATTERN_PRBS7, Pattern.PATTERN_PRBS9, Pattern.PATTERN_PRBS11,
    Pattern.PATTERN_PRBS15, Pattern.PATTERN_PRBS23, Pattern.PATTERN_PRBS31,
    Pattern.PATTERN_CUSTOM, Pattern.PATTERN_CLOCK_DIV2, Pattern.PATTERN_CLOCK_DIV32,
    Pattern.PATTERN_AUTO]

/-- Modelled from the spec: `YAML::Node` belongs to the yaml-cpp library, outside the
sources at hand.  A node is undefined, a scalar, a sequence or a map with its keys in
insertion order.  Scalars are kept as typed values, so that `as<T>()` gives back the value
that was assigned when it is in the range of `T`. -/
inductive Yaml
  | undefined
  | int (v : Int)
  | bool (b : Bool)
  | float (q : Rat)
  | str (s : String)
  | seq (l : List Yaml)
  | map (l : List (String × Yaml))

/-- Modelled from the spec: `YAML::Node::IsDefined`, which is also the conversion to `bool`
used by `if(!node)`. -/
def Yaml.IsDefined : Yaml → Bool
  | Yaml.undefined => false
  | _ => true

/-- Modelled from the spec: reading `node[key]`; a key that is absent gives an undefined
node. -/
def Yaml.get : Yaml → String → Yaml
  | Yaml.map l, k => ((l.find? (fun kv => kv.1 == k)).map Prod.snd).getD Yaml.undefined
  | _, _ => Yaml.undefined

/-- Replace the value of key `k` in a list of entries, or add the entry at the end. -/
def Yaml.setEntry : List (String × Yaml) → String → Yaml → List (String × Yaml)
  | [], k, v => [(k, v)]
  | (k1, v1) :: rest, k, v =>
    if k1 == k then (k, v) :: rest else (k1, v1) :: Yaml.setEntry rest k v

/-- Modelled from the spec: the assignment `node[key] = value`; a node that is not a map
becomes one. -/
def Yaml.set : Yaml → String → Yaml → Yaml
  | Yaml.map l, k, v => Yaml.map (Yaml.setEntry l k v)
  | _, k, v => Yaml.map [(k, v)]

/-- Modelled from the spec: `as<T>()` for the signed 64-bit integer types (`int64_t`,
`intptr_t`); `none` is the exception yaml-cpp throws on a node that holds no such value. -/
def Yaml.asInt : Yaml → Option Int
  | Yaml.int v => if -(2 ^ 63) ≤ v ∧ v < 2 ^ 63 then some v else none
  | _ => none

/-- Modelled from the spec: `as<int>()`, a 32-bit integer. -/
def Yaml.asInt32 : Yaml → Option Int
  | Yaml.int v => if -(2 ^ 31) ≤ v ∧ v < 2 ^ 31 then some v else none
  | _ => none

/-- Modelled from the spec: `as<T>()` for the unsigned 64-bit integer types (`uint64_t`,
`size_t`). -/
def Yaml.asNat : Yaml → Option Nat
  | Yaml.int v => if 0 ≤ v ∧ v < 2 ^ 64 then some v.toNat else none
  | _ => none

/-- Modelled from the spec: `as<bool>()`. -/
def Yaml.asBool : Yaml → Option Bool
  | Yaml.bool b => some b
  | _ => none

/-- Modelled from the spec: `as<float>()`; an integer scalar converts as well. -/
def Yaml.asFloat : Yaml → Option Rat
  | Yaml.float q => some q
  | Yaml.int v => some (v : Rat)
  | _ => none

/-- Modelled from the spec: `as<string>()`. -/
def Yaml.asString : Yaml → Option String
  | Yaml.str s => some s
  | _ => none

/-- What `BERT.cpp` observes of channel `i` of the instrument: whether
`GetInstrumentTypesForChannel(i) & INST_BERT` is non-zero, whether the casts of
`GetChannel(i)` to `BERTInputChannel*` and `BERTOutputChannel*` succeed, the identifier
`IDTable::emplace` gives the channel object, and the results of the per-channel getters. -/
structure BERTChannel where
  isBertChannel : Bool
  isInput : Bool
  isOutput : Bool
  GetDisplayName : String
  bertid : Int
  GetRxInvert : Bool
  GetRxCdrLockState : Bool
  GetRxCTLEGainStep : Nat
  GetRxPattern : Pattern
  GetAvailableRxPatterns : List Pattern
  samplingDx : Int
  samplingDy : Rat
  ber : Rat
  GetScanDepth : Int
  GetTxPattern : Pattern
  GetAvailableTxPatterns : List Pattern
  GetTxInvert : Bool
  GetTxDriveStrength : Rat
  GetAvailableTxDriveStrengths : List Rat
  GetTxEnable : Bool
  GetTxPreCursor : Rat
  GetTxPostCursor : Rat

/-- What `BERT.cpp` observes of the instrument: whether `GetInstrumentTypes() & INST_BERT`
is non-zero, the results of the global getters, and the channels. -/
structure BERT where
  isBert : Bool
  IsCustomPatternPerChannel : Bool
  GetCustomPatternLength : Nat
  GetGlobalCustomPattern : Nat
  HasRxCTLE : Bool
  GetRxCTLEGainSteps : List Rat
  GetBERIntegrationLength : Int
  GetRefclkOutMux : Nat
  GetRefclkOutFrequency : Int
  GetRefclkOutMuxNames : List String
  GetRefclkInFrequency : Int
  IsDataRatePerChannel : Bool
  GetDataRate0 : Int
  GetAvailableDataRates : List Int
  GetUseExternalRefclk : Bool
  HasConfigurableScanDepth : Bool
  channels : List BERTChannel

/-- A call of a setter of the instrument, or of `idmap.emplace`. -/
inductive Call
  | SetGlobalCustomPattern (pattern : Nat)
  | SetBERIntegrationLength (uis : Int)
  | SetRefclkOutMux (i : Nat)
  | SetUseExternalRefclk (external : Bool)
  | SetDataRate (i : Nat) (rate : Int)
  | idmapEmplace (id : Int) (i : Nat)
  | SetRxInvert (i : Nat) (invert : Bool)
  | SetRxCTLEGainStep (i : Nat) (step : Nat)
  | SetRxPattern (i : Nat) (pattern : Pattern)
  | SetBERSamplingPoint (i : Nat) (dx : Int) (dy : Rat)
  | SetScanDepth (i : Nat) (depth : Int)
  | SetTxPattern (i : Nat) (pattern : Pattern)
  | SetTxInvert (i : Nat) (invert : Bool)
  | SetTxDriveStrength (i : Nat) (drive : Rat)
  | SetTxEnable (i : Nat) (enable : Bool)
  | SetTxPreCursor (i : Nat) (v : Rat)
  | SetTxPostCursor (i : Nat) (v : Rat)
  deriving DecidableEq

/-- The body of the channel loop of `BERT::DoSerializeConfiguration` for channel `i`. -/
def BERT.serializeChannel (b : BERT) (i : Nat) (c : BERTChannel) (node : Yaml) : Yaml :=
  if !c.isBertChannel then node
  else
    let key := "ch" ++ fmtd i
    let channelNode := (node.get "channels").get key
    let channelNode :=
      if c.isInput then
        let n := channelNode.set "bertid" (Yaml.int c.bertid)
        let n := n.set "direction" (Yaml.str "in")
        let n := n.set "invert" (Yaml.bool c.GetRxInvert)
        let n := n.set "cdrlock" (Yaml.bool c.GetRxCdrLockState)
        let n := n.set "ctleStep" (Yaml.int c.GetRxCTLEGainStep)
        let n := n.set "pattern" (Yaml.str (BERT.GetPatternName c.GetRxPattern))
        let n := n.set "availablePatterns"
          (Yaml.seq (c.GetAvailableRxPatterns.map (fun p => Yaml.str (BERT.GetPatternName p))))
        let sampler := Yaml.undefined.set "dx" (Yaml.int c.samplingDx)
        let sampler := sampler.set "dy" (Yaml.float c.samplingDy)
        let sampler := sampler.set "ber" (Yaml.float c.ber)
        let n := n.set "sampler" sampler
        if b.HasConfigurableScanDepth then n.set "scanDepth" (Yaml.int c.GetScanDepth) else n
      else
        let n := channelNode.set "bertid" (Yaml.int c.bertid)
        let n := n.set "direction" (Yaml.str "out")
        let n := n.set "pattern" (Yaml.str (BERT.GetPatternName c.GetTxPattern))
        let n := n.set "availablePatterns"
          (Yaml.seq (c.GetAvailableTxPatterns.map (fun p => Yaml.str (BERT.GetPatternName p))))
        let n := n.set "invert" (Yaml.bool c.GetTxInvert)
        let n := n.set "drive" (Yaml.float c.GetTxDriveStrength)
        let n := n.set "availableDrives"
          (Yaml.seq (c.GetAvailableTxDriveStrengths.map Yaml.float))
        let n := n.set "enabled" (Yaml.bool c.GetTxEnable)
        let n := n.set "preCursor" (Yaml.float c.GetTxPreCursor)
        n.set "postCursor" (Yaml.float c.GetTxPostCursor)
    node.set "channels" ((node.get "channels").set key channelNode)

/-- The channel loop of `BERT::DoSerializeConfiguration` from index `i` on. -/
def BERT.serializeChannels (b : BERT) : Nat → List BERTChannel → Yaml → Yaml
  | _, [], node => node
  | i, c :: cs, node => BERT.serializeChannels b (i + 1) cs (b.serializeChannel i c node)

/-- The function `BERT::DoSerializeConfiguration`. -/
def BERT.DoSerializeConfiguration (b : BERT) (node : Yaml) : Yaml :=
  if !b.isBert then node
  else
    let customPattern := Yaml.undefined.set "isPerChannel" (Yaml.bool b.IsCustomPatternPerChannel)
    let customPattern := customPattern.set "length" (Yaml.int b.GetCustomPatternLength)
    let customPattern := customPattern.set "globalPattern" (Yaml.int b.GetGlobalCustomPattern)
    let node := node.set "customPattern" customPattern
    let rxCTLE := Yaml.undefined.set "present" (Yaml.bool b.HasRxCTLE)
    let rxCTLE := rxCTLE.set "steps" (Yaml.seq (b.GetRxCTLEGainSteps.map Yaml.float))
    let node := node.set "rxCTLE" rxCTLE
    let node := node.set "berIntegrationLength" (Yaml.int b.GetBERIntegrationLength)
    let refclkOut := Yaml.undefined.set "muxsel" (Yaml.int b.GetRefclkOutMux)
    let refclkOut := refclkOut.set "freq" (Yaml.int b.GetRefclkOutFrequency)
    let refclkOut := refclkOut.set "names" (Yaml.seq (b.GetRefclkOutMuxNames.map Yaml.str))
    let node := node.set "refclkOut" refclkOut
    let node := node.set "refclkInFreq" (Yaml.int b.GetRefclkInFrequency)
    let timebase :=
      if !b.IsDataRatePerChannel then Yaml.undefined.set "dataRate" (Yaml.int b.GetDataRate0)
      else Yaml.undefined
    let timebase := timebase.set "availableRates" (Yaml.seq (b.GetAvailableDataRates.map Yaml.int))
    let timebase := timebase.set "useExtRefclk" (Yaml.bool b.GetUseExternalRefclk)
    let node := node.set "timebase" timebase
    BERT.serializeChannels b 0 b.channels node

/-- The body of the channel loop of `BERT::DoLoadConfiguration` for channel `i`: the calls
it makes, or `none` when a conversion throws. -/
def BERT.loadChannel (node : Yaml) (i : Nat) (c : BERTChannel) : Option (List Call) :=
  if !c.isBertChannel then some []
  else
    let key := "ch" ++ fmtd i
    let channelNode := (node.get "channels").get key
    if !channelNode.IsDefined then some []
    else if c.isInput then do
      let id ← (channelNode.get "bertid").asInt
      let invert ← (channelNode.get "invert").asBool
      let step ← (channelNode.get "ctleStep").asNat
      let pattern ← (channelNode.get "pattern").asString
      let sampler := channelNode.get "sampler"
      let dx ← (sampler.get "dx").asInt
      let dy ← (sampler.get "dy").asFloat
      let depth ←
        if (channelNode.get "scanDepth").IsDefined then
          ((channelNode.get "scanDepth").asInt).map (fun d => [Call.SetScanDepth i d])
        else some []
      some ([Call.idmapEmplace id i, Call.SetRxInvert i invert, Call.SetRxCTLEGainStep i step,
        Call.SetRxPattern i (BERT.GetPatternOfName pattern), Call.SetBERSamplingPoint i dx dy] ++
        depth)
    else if c.isOutput then do
      let id ← (channelNode.get "bertid").asInt
      let pattern ← (channelNode.get "pattern").asString
      let invert ← (channelNode.get "invert").asBool
      let drive ← (channelNode.get "drive").asFloat
      let enabled ← (channelNode.get "enabled").asBool
      let pre ← (channelNode.get "preCursor").asFloat
      let post ← (channelNode.get "postCursor").asFloat
      some [Call.idmapEmplace id i, Call.SetTxPattern i (BERT.GetPatternOfName pattern),
        Call.SetTxInvert i invert, Call.SetTxDriveStrength i drive, Call.SetTxEnable i enabled,
        Call.SetTxPreCursor i pre, Call.SetTxPostCursor i post]
    else some []

/-- The channel loop of `BERT::DoLoadConfiguration` from index `i` on. -/
def BERT.loadChannels (node : Yaml) : Nat → List BERTChannel → Option (List Call)
  | _, [] => some []
  | i, c :: cs => do
    let a ← BERT.loadChannel node i c
    let r ← BERT.loadChannels node (i + 1) cs
    some (a ++ r)

/-- The function `BERT::DoLoadConfiguration`: the calls it makes in order when it returns,
or `none` when a conversion throws (the calls made before the exception are not reported).
An `int` passed for a `size_t` is converted modulo `2^64`. -/
def BERT.DoLoadConfiguration (b : BERT) (node : Yaml) : Option (List Call) := do
  let pattern ← ((node.get "customPattern").get "globalPattern").asNat
  let uis ← (node.get "berIntegrationLength").asInt32
  let mux ← (node.get "berIntegrationLength").asInt32
  let timebase := node.get "timebase"
  let external ← (timebase.get "useExtRefclk").asBool
  let rate ←
    if !b.IsDataRatePerChannel && (timebase.get "dataRate").IsDefined then
      ((timebase.get "dataRate").asInt).map (fun r => [Call.SetDataRate 0 r])
    else some []
  let globals := [Call.SetGlobalCustomPattern pattern, Call.SetBERIntegrationLength uis,
    Call.SetRefclkOutMux (mux % 2 ^ 64).toNat, Call.SetUseExternalRefclk external] ++ rate
  if !(node.get "channels").IsDefined then some globals
  else do
    let rest ← BERT.loadChannels node 0 b.channels
    some (globals ++ rest)

/-- An output channel driving 1 V, switched off. -/
def exTxChannel : BERTChannel :=
  { isBertChannel := true, isInput := false, isOutput := true, GetDisplayName := "TX0",
    bertid := 1, GetRxInvert := false, GetRxCdrLockState := false, GetRxCTLEGainStep := 0,
    GetRxPattern := Pattern.PATTERN_PRBS7, GetAvailableRxPatterns := [], samplingDx := 0,
    samplingDy := 0, ber := 0, GetScanDepth := 0, GetTxPattern := Pattern.PATTERN_PRBS31,
    GetAvailableTxPatterns := [Pattern.PATTERN_PRBS7, Pattern.PATTERN_PRBS31],
    GetTxInvert := false, GetTxDriveStrength := 1, GetAvailableTxDriveStrengths := [1, 2],
    GetTxEnable := false, GetTxPreCursor := 0, GetTxPostCursor := 0 }

/-- An input channel. -/
def exRxChannel : BERTChannel :=
  { exTxChannel with isInput := true, isOutput := false, GetDisplayName := "RX0", bertid := 2 }

/-- A tester with one output and one input channel, integrating over 1000000 unit
intervals and with reference clock output selector 2. -/
def exBert : BERT :=
  { isBert := true, IsCustomPatternPerChannel := false, GetCustomPatternLength := 16,
    GetGlobalCustomPattern := 0xff00, HasRxCTLE := false, GetRxCTLEGainSteps := [],
    GetBERIntegrationLength := 1000000, GetRefclkOutMux := 2, GetRefclkOutFrequency := 0,
    GetRefclkOutMuxNames := ["a", "b", "c"], GetRefclkInFrequency := 0,
    IsDataRatePerChannel := false, GetDataRate0 := 10000000000, GetAvailableDataRates := [],
    GetUseExternalRefclk := true, HasConfigurableScanDepth := false,
    channels := [exTxChannel, exRxChannel] }

/-- What the filter observes of a waveform object (the waveform classes are declared
outside the sources at hand): whether the cast to `UniformAnalogWaveform*` succeeds, and
the members it copies. -/
structure Waveform where
  isUniformAnalog : Bool
  m_timescale : Int
  m_startTimestamp : Int
  m_startFemtoseconds : Int
  m_triggerPhase : Int
  m_flags : Nat
  m_revision : Nat
  m_samples : List Rat
  deriving DecidableEq

/-- What the filter observes of a stream descriptor with a non-null channel: the results of
`GetData()` and `GetScalarValue()`. -/
structure BoundStream where
  GetData : Option Waveform
  GetScalarValue : Rat
  deriving DecidableEq

/-- Modelled from the spec: the two modes of the filter, declared in `GateFilter.h` outside
the sources at hand. -/
inductive GateMode
  | MODE_GATE
  | MODE_LATCH
  deriving DecidableEq, Repr

/-- The state of a gate filter: its input slots (`none` is a descriptor with a null
channel), the value of the mode parameter, and the data of its output stream 0. -/
structure GateFilter where
  m_signalNames : List String
  m_inputs : List (Option BoundStream)
  mode : GateMode
  out : Option Waveform
  deriving DecidableEq

/-- The constructor `GateFilter::GateFilter`: one output stream without data, the mode set
to `MODE_LATCH`, and the inputs "data" and "enable", both unbound. -/
def GateFilter.ctor : GateFilter :=
  { m_signalNames := ["data", "enable"]
    m_inputs := [none, none]
    mode := GateMode.MODE_LATCH
    out := none }

/-- Modelled from the spec: `FlowGraphNode::GetInput(i)` is defined outside the sources; it
"returns the bound descriptor or a null descriptor if unbound". -/
def GateFilter.GetInput (f : GateFilter) (i : Nat) : Option BoundStream :=
  f.m_inputs.getD i none

/-- Modelled from the spec: `SetData(waveform, 0)` is defined outside the sources; it makes
`waveform` the data of output stream 0. -/
def GateFilter.SetData (f : GateFilter) (w : Option Waveform) : GateFilter :=
  { f with out := w }

/-- The expression `dynamic_cast<UniformAnalogWaveform*>(p)`. -/
def asUniformAnalogWaveform (p : Option Waveform) : Option Waveform :=
  p.filter (fun w => w.isUniformAnalog)

/-- The function `GateFilter::Refresh`.  `setup` is
`SetupEmptyUniformAnalogOutputWaveform(udin, 0)`, defined outside the sources: from the
input waveform and the present data of stream 0 it gives the waveform object that is the
data of stream 0 afterwards.  The result `none` is a fault: a member access through a null
pointer. -/
def GateFilter.Refresh (setup : Waveform → Option Waveform → Waveform) (f : GateFilter) :
    Option GateFilter :=
  let din := f.GetInput 0
  let en := f.GetInput 1
  if din.isNone || en.isNone then some (f.SetData none)
  else
    let udin := asUniformAnalogWaveform (din.bind BoundStream.GetData)
    if udin.isNone then some (f.SetData none)
    else
      let mode := f.mode
      match en with
      | none => none
      | some e =>
        if e.GetScalarValue = 0 then
          if mode = GateMode.MODE_GATE then some (f.SetData none) else some f
        else
          match udin with
          | none => none
          | some u =>
            let cap := setup u f.out
            let cap :=
              { cap with
                m_timescale := u.m_timescale
                m_startTimestamp := u.m_startTimestamp
                m_startFemtoseconds := u.m_startFemtoseconds
                m_triggerPhase := u.m_triggerPhase
                m_flags := u.m_flags
                m_revision := cap.m_revision + 1
                m_samples := u.m_samples }
            some { f with out := some cap }

/-- A uniform analog waveform. -/
def exWaveform : Waveform :=
  { isUniformAnalog := true, m_timescale := 1000, m_startTimestamp := 5,
    m_startFemtoseconds := 6, m_triggerPhase := 7, m_flags := 0, m_revision := 3,
    m_samples := [1, 2, 3] }

/-- An implementation of the output set-up: the present output waveform if it is uniform
analog, else a new empty one. -/
def exSetup (_din : Waveform) (out : Option Waveform) : Waveform :=
  match asUniformAnalogWaveform out with
  | some cap => cap
  | none => ⟨true, 0, 0, 0, 0, 0, 0, []⟩

/-! ## The RMS measurement (src/lib/scopeprotocols/RMSMeasurement.cpp)

The cycle-by-cycle part of `RMSMeasurement::Refresh`.  The `float` arithmetic is taken in a
division ring `α` with a square root function, so that it can be read over the exact
reals; `int64_t` values are integers. -/

/-- The accumulator `temp` and the three vectors of the output waveform `cap`. -/
structure TrendState (α : Type) where
  temp : α
  m_offsets : List Int
  m_durations : List Int
  m_samples : List α

/-- The inner loop `for(j = start; (j <= end) && (j < length); j++) temp += s[j] * s[j]`
from the values of `j` and `temp` given, with at most `fuel` iterations: the final `temp`
and `j`. -/
def sumCycle {α : Type} [DivisionRing α] (samples : List α) (end_ : Int) :
    Nat → Int → α → α × Int
  | 0, j, temp => (temp, j)
  | fuel + 1, j, temp =>
    if j ≤ end_ ∧ j < (samples.length : Int) then
      sumCycle samples end_ fuel (j + 1)
        (temp + samples.getD j.toNat 0 * samples.getD j.toNat 0)
    else (temp, j)

/-- The body of the loop over the edges, for index `i`. -/
def cycleBody {α : Type} [DivisionRing α] (sqrt : α → α) (samples : List α) (timescale : Int)
    (edges : List Int) (i : Nat) (st : TrendState α) : TrendState α :=
  let start := Int.tdiv (edges.getD i 0) timescale
  let end_ := Int.tdiv (edges.getD (i + 2) 0) timescale
  let r := sumCycle samples end_ (samples.length + 1) start st.temp
  let temp := r.1
  let j := r.2
  let delta := j - start - 1
  if delta ≠ 0 then
    let temp := temp / (delta : α)
    let temp := sqrt temp
    { temp := temp
      m_offsets := st.m_offsets ++ [start]
      m_durations := st.m_durations ++ [delta]
      m_samples := st.m_samples ++ [temp] }
  else { st with temp := temp }

/-- The loop `for(size_t i = 0; i < (elen - 2); i += 2)` from index `i`, with at most `fuel`
iterations; `elen` is at least 2 where the loop is reached. -/
def cycleLoop {α : Type} [DivisionRing α] (sqrt : α → α) (samples : List α) (timescale : Int)
    (edges : List Int) : Nat → Nat → TrendState α → TrendState α
  | 0, _, st => st
  | fuel + 1, i, st =>
    if i < edges.length - 2 then
      cycleLoop sqrt samples timescale edges fuel (i + 2)
        (cycleBody sqrt samples timescale edges i st)
    else st

/-- Lines 113 to 174 of `RMSMeasurement::Refresh`: `temp = 0`, the cleared output
waveform, and the loop over the edges. -/
def RMSMeasurement.trend {α : Type} [DivisionRing α] (sqrt : α → α) (samples : List α)
    (timescale : Int) (edges : List Int) : TrendState α :=
  cycleLoop sqrt samples timescale edges edges.length 0 ⟨0, [], [], []⟩

/-- The samples of cycle `k` as the claim takes them: those with index from
`edges[2k] / timescale` through `min(edges[2k+2] / timescale, length - 1)`. -/
def cycleSamples {α : Type} (samples : List α) (timescale : Int) (edges : List Int) (k : Nat) :
    List α :=
  let start := (Int.tdiv (edges.getD (2 * k) 0) timescale).toNat
  let last := min (Int.tdiv (edges.getD (2 * k + 2) 0) timescale).toNat (samples.length - 1)
  (samples.take (last + 1)).drop start

/-- The RMS of cycle `k` as the claim states it: the square root of the sum of the squares
of the samples of the cycle divided by their number. -/
def cycleRMS {α : Type} [DivisionRing α] (sqrt : α → α) (samples : List α) (timescale : Int)
    (edges : List Int) (k : Nat) : α :=
  sqrt (((cycleSamples samples timescale edges k).map (fun x => x * x)).sum /
    ((cycleSamples samples timescale edges k).length : α))

/-! ## Shape of the decoder output -/

/-- A segment as the decoder emits it: one of nine types, with data of the length that
goes with the type. -/
def segmentOk (x : EthernetFrameSegment) : Prop :=
  match x.m_type with
  | SegmentType.TYPE_PREAMBLE => x.m_data ≠ [] ∧ ∀ b ∈ x.m_data, b = 0x55
  | SegmentType.TYPE_SFD => x.m_data = [0xd5]
  | SegmentType.TYPE_DST_MAC => x.m_data.length = 6
  | SegmentType.TYPE_SRC_MAC => x.m_data.length = 6
  | SegmentType.TYPE_ETHERTYPE => x.m_data.length = 2
  | SegmentType.TYPE_VLAN_TAG => x.m_data.length = 2
  | SegmentType.TYPE_PAYLOAD => x.m_data.length = 1
  | SegmentType.TYPE_FCS_GOOD => x.m_data.length = 4
  | SegmentType.TYPE_FCS_BAD => x.m_data.length = 4
  | _ => False

/-- A checksum segment, good or bad. -/
def isFcs (x : EthernetFrameSegment) : Bool :=
  decide (x.m_type = SegmentType.TYPE_FCS_GOOD) || decide (x.m_type = SegmentType.TYPE_FCS_BAD)

/-- What is known before iteration `i` of a call that started with packet list `pk` and
sample list `samples0`, as long as it has not returned: no packet is published, the samples
appended are well-shaped and none is a checksum segment, the segment under construction is
shorter than its field, and in the checksum state `i` is the index of the next of the last
four bytes. -/
def wellFormed (pk : List Packet) (samples0 : List EthernetFrameSegment) (len : Nat) (i : Nat)
    (s : LoopState) : Prop :=
  s.m_packets = pk ∧
  (∃ app, s.cap.m_samples = samples0 ++ app ∧ ∀ x ∈ app, segmentOk x ∧ isFcs x = false) ∧
  match s.segment.m_type with
  | SegmentType.TYPE_PREAMBLE => s.segment.m_data ≠ [] ∧ ∀ b ∈ s.segment.m_data, b = 0x55
  | SegmentType.TYPE_DST_MAC => s.segment.m_data.length < 6
  | SegmentType.TYPE_SRC_MAC => s.segment.m_data.length < 6
  | SegmentType.TYPE_ETHERTYPE => s.segment.m_data.length < 2
  | SegmentType.TYPE_VLAN_TAG => s.segment.m_data.length < 2
  | SegmentType.TYPE_FCS_GOOD => s.segment.m_data.length < 4 ∧ i + 4 = len + s.segment.m_data.length
  | _ => True

/-- What is known when the call returns in iteration `j`: `j` is the last index, the
packet under construction has been added to the packet list, and the samples appended are
well-shaped with at most one checksum segment among them. -/
def publishedAt (pk : List Packet) (samples0 : List EthernetFrameSegment) (len : Nat) (j : Nat)
    (s : LoopState) : Prop :=
  j + 1 = len ∧ s.m_packets = pk ++ [s.pack] ∧
  ∃ app, s.cap.m_samples = samples0 ++ app ∧ (∀ x ∈ app, segmentOk x) ∧
    (app.filter isFcs).length ≤ 1

/-- The outcome of `GetText` with its control flow made visible: the text of a normal
return, the text of one of the returns taken when the data length is wrong, or an access
outside a vector. -/
inductive TextResult
  | text (s : String)
  | invalidLength (s : String)
  | outOfBounds
  deriving DecidableEq, Repr

/-- The function `EthernetWaveform::GetText` once more, with every access to `m_samples`
and every access to `m_data` that is not covered by a length test checked against the
bounds. -/
def GetTextTraced (m_samples : List EthernetFrameSegment) (i : Nat) : TextResult :=
  match m_samples[i]? with
  | none => TextResult.outOfBounds
  | some sample =>
    let d := sample.m_data
    match sample.m_type with
    | SegmentType.TYPE_TX_ERROR => TextResult.text "ERROR"
    | SegmentType.TYPE_PREAMBLE => TextResult.text "PREAMBLE"
    | SegmentType.TYPE_SFD => TextResult.text "SFD"
    | SegmentType.TYPE_NO_CARRIER => TextResult.text "NO CARRIER"
    | SegmentType.TYPE_DST_MAC =>
      if d.length ≠ 6 then TextResult.invalidLength "[invalid dest MAC length]"
      else TextResult.text ("To " ++ formatMAC d)
    | SegmentType.TYPE_SRC_MAC =>
      if d.length ≠ 6 then TextResult.invalidLength "[invalid src MAC length]"
      else TextResult.text ("From " ++ formatMAC d)
    | SegmentType.TYPE_VLAN_TAG =>
      match d[0]?, d[1]? with
      | some _, some _ =>
        let tag := word16 d
        let sret := "VLAN " ++ fmtd (tag &&& 0xfff) ++ ", PCP " ++ fmtd (tag >>> 13)
        TextResult.text (if tag &&& 0x1000 ≠ 0 then sret ++ ", DE" else sret)
      | _, _ => TextResult.outOfBounds
    | SegmentType.TYPE_ETHERTYPE =>
      if d.length ≠ 2 then TextResult.invalidLength "[invalid Ethertype length]"
      else
        let ethertype := word16 d
        if ethertype < 1500 then
          if i + 1 < m_samples.length then
            match (m_samples.getD (i + 1) ⟨SegmentType.TYPE_INVALID, []⟩).m_data[0]? with
            | some b =>
              if b = 0x42 then TextResult.text ("Type: " ++ "STP")
              else TextResult.text ("Type: " ++ "LLC")
            | none => TextResult.outOfBounds
          else TextResult.text ("Type: " ++ "LLC")
        else if ethertype = 0x0800 then TextResult.text ("Type: " ++ "IPv4")
        else if ethertype = 0x0806 then TextResult.text ("Type: " ++ "ARP")
        else if ethertype = 0x8100 then TextResult.text ("Type: " ++ "802.1q")
        else if ethertype = 0x86dd then TextResult.text ("Type: " ++ "IPv6")
        else if ethertype = 0x88cc then TextResult.text ("Type: " ++ "LLDP")
        else if ethertype = 0x88f7 then TextResult.text ("Type: " ++ "PTP")
        else
          let ds := Nat.toDigits 16 ethertype
          TextResult.text
            ("Type: " ++ ("0x" ++ String.mk (List.replicate (4 - ds.length) '0' ++ ds)))
    | SegmentType.TYPE_PAYLOAD =>
      TextResult.text (d.foldl (fun ret b => ret ++ (fmt02x b ++ " ")) "")
    | SegmentType.TYPE_INBAND_STATUS =>
      match d[0]? with
      | some status =>
        let up := status &&& 1
        let rawspeed := (status >>> 1) &&& 3
        let duplex := (status >>> 3) &&& 1
        let speed := if rawspeed = 1 then 100 else if rawspeed = 2 then 1000 else 10
        TextResult.text ((if up ≠ 0 then "up" else "down") ++ ", " ++
          (if duplex ≠ 0 then "full" else "half") ++ " duplex, " ++ fmtd speed ++ " Mbps")
      | none => TextResult.outOfBounds
    | SegmentType.TYPE_FCS_GOOD | SegmentType.TYPE_FCS_BAD =>
      if d.length ≠ 4 then TextResult.invalidLength "[invalid FCS length]"
      else TextResult.text ("CRC: " ++ fmt02x (d.getD 0 0) ++ fmt02x (d.getD 1 0) ++
        fmt02x (d.getD 2 0) ++ fmt02x (d.getD 3 0))
    | SegmentType.TYPE_LOCAL_FAULT => TextResult.text "Local Fault"
    | SegmentType.TYPE_REMOTE_FAULT => TextResult.text "Remote Fault"
    | SegmentType.TYPE_LINK_INTERRUPTION => TextResult.text "Link Interruption"
    | _ => TextResult.text ""

/-! ## Bytes of the segments -/

/-- The data of a list of segments, concatenated in order. -/
def dataOf (l : List EthernetFrameSegment) : List Nat :=
  (l.map EthernetFrameSegment.m_data).flatten

/-- The data of the payload segments of a list of segments, concatenated in order. -/
def payloadOf (l : List EthernetFrameSegment) : List Nat :=
  dataOf (l.filter (fun x => decide (x.m_type = SegmentType.TYPE_PAYLOAD)))

/-- The bytes collected in the segment under construction that are not yet in a sample. -/
def pending (s : LoopState) : List Nat :=
  match s.segment.m_type with
  | SegmentType.TYPE_PREAMBLE => s.segment.m_data
  | SegmentType.TYPE_DST_MAC => s.segment.m_data
  | SegmentType.TYPE_SRC_MAC => s.segment.m_data
  | SegmentType.TYPE_ETHERTYPE => s.segment.m_data
  | SegmentType.TYPE_VLAN_TAG => s.segment.m_data
  | SegmentType.TYPE_FCS_GOOD => s.segment.m_data
  | _ => []

/-- What is known before iteration `i` on an input that, unless the preamble is suppressed,
starts with `k` bytes `0x55` followed by `0xd5`: the data of the samples appended, followed
by the bytes pending, are the first `i` input bytes, and the payload of the packet is the
data of the payload samples appended. -/
def lossless (supp : Bool) (samples0 : List EthernetFrameSegment) (bytes : List Nat) (k : Nat)
    (i : Nat) (s : LoopState) : Prop :=
  (∃ app, s.cap.m_samples = samples0 ++ app ∧ dataOf app ++ pending s = bytes.take i ∧
    s.pack.m_data = payloadOf app) ∧
  match s.segment.m_type with
  | SegmentType.TYPE_INVALID => supp = false ∧ i = 0
  | SegmentType.TYPE_PREAMBLE => supp = false ∧ i ≤ k
  | SegmentType.TYPE_DST_MAC => True
  | SegmentType.TYPE_SRC_MAC => True
  | SegmentType.TYPE_ETHERTYPE => True
  | SegmentType.TYPE_VLAN_TAG => True
  | SegmentType.TYPE_PAYLOAD => True
  | SegmentType.TYPE_FCS_GOOD => True
  | _ => False

/-- What is known when the call returns in iteration `j`: the data of the samples appended
are the first `j + 1` input bytes, and the payload of the packet is the data of the payload
samples appended. -/
def losslessAt (samples0 : List EthernetFrameSegment) (bytes : List Nat) (j : Nat)
    (s : LoopState) : Prop :=
  ∃ app, s.cap.m_samples = samples0 ++ app ∧ dataOf app = bytes.take (j + 1) ∧
    s.pack.m_data = payloadOf app

/-! ## Timing of the segments -/

theorem loop_succ (ext : Externals) (supp : Bool) (bytes starts ends : List Nat) (n i : Nat)
    (s : LoopState) :
    loop ext supp bytes starts ends (n + 1) i s =
      match step ext supp bytes starts ends i s with
      | Flow.next s1 => loop ext supp bytes starts ends n (i + 1) s1
      | Flow.ret s1 => Flow.ret s1 := rfl

theorem loop_preamble (ext : Externals) (supp : Bool) (bytes starts ends : List Nat) (n i : Nat)
    (s : LoopState) (hs : s.segment.m_type = SegmentType.TYPE_INVALID)
    (h0 : bytes.getD i 0 = 0x55) (h1 : bytes.getD (i + 1) 0 = 0x55)
    (h2 : bytes.getD (i + 2) 0 = 0x55) (h3 : bytes.getD (i + 3) 0 = 0x55)
    (h4 : bytes.getD (i + 4) 0 = 0x55) (h5 : bytes.getD (i + 5) 0 = 0x55)
    (h6 : bytes.getD (i + 6) 0 = 0x55) (h7 : bytes.getD (i + 7) 0 = 0xd5) :
    loop ext supp bytes starts ends (n + 8) i s =
      loop ext supp bytes starts ends n (i + 8) (afterPreamble starts ends i s) := by
  obtain ⟨⟨ty, d⟩, start, crcstart, ce, ca, pack, cap, pk⟩ := s
  simp only at hs
  subst hs
  simp [-List.getD_eq_getElem?_getD, loop, step, caseInvalid, casePreamble, afterPreamble, pushOffset, pushDuration,
    pushSample, h0, h1, h2, h3, h4, h5, h6, h7]

theorem loop_dstMac (ext : Externals) (supp : Bool) (bytes starts ends : List Nat) (n i : Nat)
    (s : LoopState) (hs : s.segment = ⟨SegmentType.TYPE_DST_MAC, []⟩) :
    loop ext supp bytes starts ends (n + 6) i s =
      loop ext supp bytes starts ends n (i + 6)
        (afterMac SegmentType.TYPE_DST_MAC SegmentType.TYPE_SRC_MAC "Dest MAC"
          bytes starts ends i s) := by
  obtain ⟨seg, start, crcstart, ce, ca, pack, cap, pk⟩ := s
  simp only at hs
  subst hs
  simp [-List.getD_eq_getElem?_getD, loop, step, caseDstMac, openField, addByte, closeField, setHeader, resetSegment,
    afterMac, six, pushOffset, pushDuration, pushSample]

theorem loop_srcMac (ext : Externals) (supp : Bool) (bytes starts ends : List Nat) (n i : Nat)
    (s : LoopState) (hs : s.segment = ⟨SegmentType.TYPE_SRC_MAC, []⟩) :
    loop ext supp bytes starts ends (n + 6) i s =
      loop ext supp bytes starts ends n (i + 6)
        (afterMac SegmentType.TYPE_SRC_MAC SegmentType.TYPE_ETHERTYPE "Src MAC"
          bytes starts ends i s) := by
  obtain ⟨seg, start, crcstart, ce, ca, pack, cap, pk⟩ := s
  simp only at hs
  subst hs
  simp [-List.getD_eq_getElem?_getD, loop, step, caseSrcMac, openField, addByte, closeField, setHeader, resetSegment,
    afterMac, six, pushOffset, pushDuration, pushSample]

theorem loop_ethertype (ext : Externals) (supp : Bool) (bytes starts ends : List Nat) (n i : Nat)
    (s : LoopState) (hs : s.segment = ⟨SegmentType.TYPE_ETHERTYPE, []⟩) :
    loop ext supp bytes starts ends (n + 2) i s =
      loop ext supp bytes starts ends n (i + 2) (afterEthertype bytes starts ends i s) := by
  obtain ⟨seg, start, crcstart, ce, ca, pack, cap, pk⟩ := s
  simp only at hs
  subst hs
  by_cases h : word16 [bytes.getD i 0, bytes.getD (i + 1) 0] = 0x8100 <;>
  simp [-List.getD_eq_getElem?_getD, loop, step, caseEthertype, openField, addByte, closeField, resetSegment,
    afterEthertype, pushOffset, pushDuration, pushSample, h]

theorem loop_vlanTag (ext : Externals) (supp : Bool) (bytes starts ends : List Nat) (n i : Nat)
    (s : LoopState) (hs : s.segment = ⟨SegmentType.TYPE_VLAN_TAG, []⟩) :
    loop ext supp bytes starts ends (n + 2) i s =
      loop ext supp bytes starts ends n (i + 2) (afterVlanTag bytes starts ends i s) := by
  obtain ⟨seg, start, crcstart, ce, ca, pack, cap, pk⟩ := s
  simp only at hs
  subst hs
  simp [-List.getD_eq_getElem?_getD, loop, step, caseVlanTag, openField, addByte, closeField, setHeader, resetSegment,
    afterVlanTag, pushOffset, pushDuration, pushSample]

theorem loop_fcs (ext : Externals) (supp : Bool) (bytes starts ends : List Nat) (n i : Nat)
    (s : LoopState) (hs : s.segment = ⟨SegmentType.TYPE_FCS_GOOD, []⟩) :
    loop ext supp bytes starts ends (n + 4) i s = Flow.ret (afterFcs ext bytes starts ends i s) := by
  obtain ⟨seg, start, crcstart, ce, ca, pack, cap, pk⟩ := s
  simp only at hs
  subst hs
  by_cases h : shiftIn ca (four bytes i) = ext.CRC32 bytes crcstart (sub64 i 1) <;>
  simp only [shiftIn, four, List.foldl, Nat.reducePow] at h <;>
  simp [-List.getD_eq_getElem?_getD, loop, step, caseFcs, addByte, closeField, setColors,
    afterFcs, shiftIn, four, pushOffset, pushDuration, pushSample, Nat.add_assoc, h]

theorem step_payload_ne (ext : Externals) (bytes starts ends : List Nat) (i : Nat) (s : LoopState)
    (hs : s.segment.m_type = SegmentType.TYPE_PAYLOAD) (hi : i ≠ sub64 bytes.length 5) :
    step ext false bytes starts ends i s = Flow.next (afterPayload bytes starts ends i 0 s) := by
  obtain ⟨⟨ty, d⟩, start, crcstart, ce, ca, pack, cap, pk⟩ := s
  simp only at hs
  subst hs
  simp [-List.getD_eq_getElem?_getD, step, casePayload, afterPayload, pushOffset, pushDuration,
    pushSample, hi, show List.range 1 = [0] from rfl]

theorem step_payload_eq (ext : Externals) (bytes starts ends : List Nat) (i : Nat) (s : LoopState)
    (hs : s.segment.m_type = SegmentType.TYPE_PAYLOAD) (hi : i = sub64 bytes.length 5) :
    step ext false bytes starts ends i s =
      Flow.next (resetSegment SegmentType.TYPE_FCS_GOOD (afterPayload bytes starts ends i 0 s)) := by
  obtain ⟨⟨ty, d⟩, start, crcstart, ce, ca, pack, cap, pk⟩ := s
  simp only at hs
  subst hs
  simp [-List.getD_eq_getElem?_getD, step, casePayload, afterPayload, pushOffset, pushDuration,
    pushSample, resetSegment, ← hi, show List.range 1 = [0] from rfl]

theorem afterPayload_type (bytes starts ends : List Nat) (i m : Nat) (s : LoopState) :
    (afterPayload bytes starts ends i m s).segment.m_type = SegmentType.TYPE_PAYLOAD := rfl

theorem afterPayload_succ (bytes starts ends : List Nat) (i m : Nat) (s : LoopState) :
    afterPayload bytes starts ends (i + 1) m (afterPayload bytes starts ends i 0 s) =
      afterPayload bytes starts ends i (m + 1) s := by
  have h : ∀ j, i + 1 + j = i + (j + 1) := fun j => by omega
  simp [-List.getD_eq_getElem?_getD, afterPayload, List.range_succ_eq_map 0,
    List.range_succ_eq_map (m + 1), List.map_map, Function.comp_def, h]

/-- Payload iterations `i, ..., i + m`, none of them the fifth byte from the end, stay in
the payload state. -/
theorem loop_payload (ext : Externals) (bytes starts ends : List Nat) (m : Nat) :
    ∀ (n i : Nat) (s : LoopState), s.segment.m_type = SegmentType.TYPE_PAYLOAD →
      (∀ j, j ≤ m → i + j ≠ sub64 bytes.length 5) →
      loop ext false bytes starts ends (n + (m + 1)) i s =
        loop ext false bytes starts ends n (i + (m + 1)) (afterPayload bytes starts ends i m s) := by
  induction m with
  | zero =>
    intro n i s hs h
    have h0 := h 0 (Nat.le_refl 0)
    rw [Nat.add_zero] at h0
    rw [loop_succ, step_payload_ne ext bytes starts ends i s hs h0]
  | succ m ih =>
    intro n i s hs h
    have h0 := h 0 (Nat.zero_le _)
    rw [Nat.add_zero] at h0
    have e : n + (m + 1 + 1) = (n + (m + 1)) + 1 := by omega
    rw [e, loop_succ, step_payload_ne ext bytes starts ends i s hs h0]
    simp only
    rw [ih n (i + 1) _ (afterPayload_type _ _ _ _ _ _), afterPayload_succ]
    · congr 1; omega
    · intro j hj
      have := h (j + 1) (by omega)
      rwa [show i + 1 + j = i + (j + 1) by omega]

/-- Payload iterations `i, ..., i + m` of which the last is the fifth byte from the end
leave the decoder at the start of the checksum. -/
theorem loop_payload_fcs (ext : Externals) (bytes starts ends : List Nat) (m : Nat) :
    ∀ (n i : Nat) (s : LoopState), s.segment.m_type = SegmentType.TYPE_PAYLOAD →
      (∀ j, j < m → i + j ≠ sub64 bytes.length 5) → i + m = sub64 bytes.length 5 →
      loop ext false bytes starts ends (n + (m + 1)) i s =
        loop ext false bytes starts ends n (i + (m + 1))
          (resetSegment SegmentType.TYPE_FCS_GOOD (afterPayload bytes starts ends i m s)) := by
  induction m with
  | zero =>
    intro n i s hs _ he
    rw [Nat.add_zero] at he
    rw [loop_succ, step_payload_eq ext bytes starts ends i s hs he]
  | succ m ih =>
    intro n i s hs h he
    have h0 := h 0 (Nat.zero_lt_succ _)
    rw [Nat.add_zero] at h0
    have e : n + (m + 1 + 1) = (n + (m + 1)) + 1 := by omega
    rw [e, loop_succ, step_payload_ne ext bytes starts ends i s hs h0]
    simp only
    rw [ih n (i + 1) _ (afterPayload_type _ _ _ _ _ _), afterPayload_succ]
    · congr 1; omega
    · intro j hj
      have := h (j + 1) (by omega)
      rwa [show i + 1 + j = i + (j + 1) by omega]
    · rw [← he]; omega

theorem sub64_of_le (a b : Nat) (hb : b ≤ a) (ha : a < 2 ^ 64) : sub64 a b = a - b := by
  unfold sub64
  have : a + 2 ^ 64 - b = (a - b) + 2 ^ 64 := by omega
  rw [this, Nat.add_mod_right, Nat.mod_eq_of_lt (by omega)]

theorem afterEthertype_segment (bytes starts ends : List Nat) (i : Nat) (s : LoopState) :
    (afterEthertype bytes starts ends i s).segment =
      ⟨if word16 [bytes.getD i 0, bytes.getD (i + 1) 0] = 0x8100 then SegmentType.TYPE_VLAN_TAG
        else SegmentType.TYPE_PAYLOAD, []⟩ := rfl

/-- An input that starts with seven `0x55` and `0xd5`, whose type field at index 20 is not
the 802.1q tag type, and that has `m + 1` bytes between the type field and the last four,
runs through the fields in order and returns at the last byte. -/
theorem loop_untagged (ext : Externals) (m_packets : List Packet) (bytes starts ends : List Nat)
    (cap : EthernetWaveform) (m : Nat) (hlen : bytes.length = 27 + m) (hlt : bytes.length < 2 ^ 64)
    (h0 : bytes.getD 0 0 = 0x55) (h1 : bytes.getD 1 0 = 0x55)
    (h2 : bytes.getD 2 0 = 0x55) (h3 : bytes.getD 3 0 = 0x55)
    (h4 : bytes.getD 4 0 = 0x55) (h5 : bytes.getD 5 0 = 0x55)
    (h6 : bytes.getD 6 0 = 0x55) (h7 : bytes.getD 7 0 = 0xd5)
    (hty : word16 [bytes.getD 20 0, bytes.getD 21 0] ≠ 0x8100) :
    loop ext false bytes starts ends bytes.length 0 (initState ext m_packets cap false) =
      Flow.ret (untaggedFinal ext m_packets bytes starts ends cap m) := by
  have e1 : bytes.length = (((((4 + (m + 1)) + 2) + 6) + 6) + 8) := by omega
  have hsub : sub64 bytes.length 5 = 22 + m := by
    rw [sub64_of_le _ _ (by omega) hlt]; omega
  rw [e1, loop_preamble ext false bytes starts ends _ 0 _ rfl h0 h1 h2 h3 h4 h5 h6 h7,
    loop_dstMac ext false bytes starts ends _ _ _ rfl,
    loop_srcMac ext false bytes starts ends _ _ _ rfl,
    loop_ethertype ext false bytes starts ends _ _ _ rfl,
    loop_payload_fcs ext bytes starts ends m 4 _ _
      (by rw [afterEthertype_segment, if_neg hty])
      (by intro j hj; rw [hsub]; omega) (by rw [hsub]),
    loop_fcs ext false bytes starts ends 0 _ _ rfl,
    show 0 + 8 + 6 + 6 + 2 + (m + 1) = 23 + m by omega]
  rfl

theorem classify_cap (bytes : List Nat) (i : Nat) (d : List Nat) (s : LoopState) :
    (classify bytes i d s).cap = s.cap := by
  unfold classify
  simp only [setColors, setHeader]
  split_ifs <;> rfl

theorem classify_m_packets (bytes : List Nat) (i : Nat) (d : List Nat) (s : LoopState) :
    (classify bytes i d s).m_packets = s.m_packets := by
  unfold classify
  simp only [setColors, setHeader]
  split_ifs <;> rfl

theorem classify_crc (bytes : List Nat) (i : Nat) (d : List Nat) (s : LoopState) :
    (classify bytes i d s).crcstart = s.crcstart ∧ (classify bytes i d s).crc_actual = s.crc_actual := by
  unfold classify
  simp only [setColors, setHeader]
  split_ifs <;> exact ⟨rfl, rfl⟩

theorem classify_pack (bytes : List Nat) (i : Nat) (d : List Nat) (s : LoopState) :
    (classify bytes i d s).pack.m_offset = s.pack.m_offset ∧
      (classify bytes i d s).pack.m_data = s.pack.m_data := by
  unfold classify
  simp only [setColors, setHeader]
  split_ifs <;> exact ⟨rfl, rfl⟩

theorem classify_ipv4 (bytes : List Nat) (i : Nat) (s : LoopState) :
    classify bytes i [0x08, 0x00] s =
      setColors "#a6cee3" "#000000" (setHeader "Ethertype" "IPv4" s) := by
  have h : word16 [0x08, 0x00] = 0x0800 := by decide
  unfold classify
  simp only [h]
  rfl

/-- The samples an untagged frame appends, whatever its type field. -/
theorem untaggedFinal_samples (ext : Externals) (m_packets : List Packet)
    (bytes starts ends : List Nat) (cap : EthernetWaveform) (m : Nat) (hlt : 23 + m < 2 ^ 64) :
    (untaggedFinal ext m_packets bytes starts ends cap m).cap.m_samples =
      cap.m_samples ++
        [⟨SegmentType.TYPE_PREAMBLE, [0x55, 0x55, 0x55, 0x55, 0x55, 0x55, 0x55]⟩,
          ⟨SegmentType.TYPE_SFD, [0xd5]⟩,
          ⟨SegmentType.TYPE_DST_MAC, six bytes 8⟩,
          ⟨SegmentType.TYPE_SRC_MAC, six bytes 14⟩,
          ⟨SegmentType.TYPE_ETHERTYPE, [bytes.getD 20 0, bytes.getD 21 0]⟩] ++
        (List.range (m + 1)).map
          (fun j => (⟨SegmentType.TYPE_PAYLOAD, [bytes.getD (22 + j) 0]⟩ : EthernetFrameSegment)) ++
        [⟨if shiftIn 0 (four bytes (23 + m)) ≠ ext.CRC32 bytes 8 (22 + m) then
            SegmentType.TYPE_FCS_BAD else SegmentType.TYPE_FCS_GOOD, four bytes (23 + m)⟩] := by
  have hsub : sub64 (23 + m) 1 = 22 + m := by
    rw [sub64_of_le _ _ (by omega) hlt]; omega
  simp [-List.getD_eq_getElem?_getD, untaggedFinal, afterFcs, afterPayload, afterEthertype,
    afterMac, afterPreamble, initState, resetSegment, pushSample, pushDuration, pushOffset,
    classify_cap, classify_crc, hsub]

/-- The packet an untagged IPv4 frame publishes. -/
theorem untaggedFinal_packets (ext : Externals) (m_packets : List Packet)
    (bytes starts ends : List Nat) (cap : EthernetWaveform) (m : Nat) (hlt : 23 + m < 2 ^ 64)
    (h20 : bytes.getD 20 0 = 0x08) (h21 : bytes.getD 21 0 = 0x00) :
    (untaggedFinal ext m_packets bytes starts ends cap m).m_packets =
      m_packets ++
        [{ m_offset := starts.getD 0 0
           m_len := sub64 (ends.getD (26 + m) 0) (starts.getD 0 0)
           m_headers := [("Dest MAC", formatMAC (six bytes 8)), ("Ethertype", "IPv4"),
             ("Src MAC", formatMAC (six bytes 14))]
           m_data := (List.range (m + 1)).map (fun j => bytes.getD (22 + j) 0)
           m_displayBackgroundColor :=
             if shiftIn 0 (four bytes (23 + m)) ≠ ext.CRC32 bytes 8 (22 + m) then ext.errorColor
             else "#a6cee3"
           m_displayForegroundColor :=
             if shiftIn 0 (four bytes (23 + m)) ≠ ext.CRC32 bytes 8 (22 + m) then "#ffffff"
             else "#000000" }] := by
  have hsub : sub64 (23 + m) 1 = 22 + m := by
    rw [sub64_of_le _ _ (by omega) hlt]; omega
  have hm : ∀ a b : String, mapSet (mapSet (mapSet [] "Dest MAC" a) "Src MAC" b) "Ethertype" "IPv4" =
      [("Dest MAC", a), ("Ethertype", "IPv4"), ("Src MAC", b)] := fun _ _ => rfl
  have e : 23 + m + 3 = 26 + m := by omega
  by_cases hc : shiftIn 0 (four bytes (23 + m)) = ext.CRC32 bytes 8 (22 + m) <;>
  simp [-List.getD_eq_getElem?_getD, untaggedFinal, afterFcs, afterPayload, afterEthertype,
    afterMac, afterPreamble, initState, resetSegment, pushSample, pushDuration, pushOffset,
    h20, h21, classify_ipv4, setColors, setHeader, hsub, hm, e, hc]


set_option maxRecDepth 100000 in
theorem fmt02x_eq_hexPair : ∀ b, b < 256 → fmt02x b = hexPair b := by decide

theorem formatMAC_eq_colonHex (a b c d e f : Nat) (h : ∀ x ∈ [a, b, c, d, e, f], x < 256) :
    formatMAC [a, b, c, d, e, f] = colonHex [a, b, c, d, e, f] := by
  simp only [List.mem_cons, List.mem_singleton, forall_eq_or_imp, forall_eq, List.not_mem_nil] at h
  obtain ⟨ha, hb, hc, hd, he, hf, _⟩ := h
  simp only [formatMAC, colonHex, List.getD_cons_zero, List.getD_cons_succ, List.map,
    fmt02x_eq_hexPair _ ha, fmt02x_eq_hexPair _ hb, fmt02x_eq_hexPair _ hc,
    fmt02x_eq_hexPair _ hd, fmt02x_eq_hexPair _ he, fmt02x_eq_hexPair _ hf]
  rfl

theorem shiftIn_step (a b : Nat) (ha : a < 2 ^ 24) (hb : b < 256) :
    ((a <<< 8) % 2 ^ 32) ||| b = a * 256 + b := by
  rw [Nat.shiftLeft_eq, Nat.mod_eq_of_lt (by omega), Nat.mul_comm a (2 ^ 8),
    ← Nat.mul_add_lt_is_or (by omega) a]

theorem shiftIn_eq_be32 (a b c d : Nat) (h : ∀ x ∈ [a, b, c, d], x < 256) :
    shiftIn 0 [a, b, c, d] = be32 [a, b, c, d] := by
  simp only [List.mem_cons, List.mem_singleton, forall_eq_or_imp, forall_eq, List.not_mem_nil] at h
  obtain ⟨ha, hb, hc, hd, _⟩ := h
  simp only [shiftIn, be32, List.foldl]
  rw [shiftIn_step 0 a (by omega) ha, shiftIn_step _ b (by omega) hb,
    shiftIn_step _ c (by omega) hc, shiftIn_step _ d (by omega) hd]

theorem length_eq_six {l : List Nat} (h : l.length = 6) :
    ∃ a b c d e f, l = [a, b, c, d, e, f] := by
  match l, h with
  | [a, b, c, d, e, f], _ => exact ⟨a, b, c, d, e, f, rfl⟩

theorem length_eq_four {l : List Nat} (h : l.length = 4) : ∃ a b c d, l = [a, b, c, d] := by
  match l, h with
  | [a, b, c, d], _ => exact ⟨a, b, c, d, rfl⟩

theorem length_eq_two {l : List Nat} (h : l.length = 2) : ∃ a b, l = [a, b] := by
  match l, h with
  | [a, b], _ => exact ⟨a, b, rfl⟩

theorem map_range_getD_append (l r : List Nat) (k : Nat) (hk : k = l.length) :
    (List.range k).map (fun j => (l ++ r).getD j 0) = l := by
  subst hk
  apply List.ext_getElem
  · simp
  · intro n h1 h2
    simp only [List.length_map, List.length_range] at h1
    simp [List.getD_eq_getElem?_getD, List.getElem?_append_left h1, List.getElem?_eq_getElem h1]


/-- Facts about the bytes of a frame with a two-byte type field. -/
theorem frame_facts (a b c d e f a1 b1 c1 d1 e1 f1 t0 t1 : Nat) (payload trailer : List Nat) :
    let bytes := frame [a, b, c, d, e, f] [a1, b1, c1, d1, e1, f1] [t0, t1] payload trailer
    bytes.length = 22 + payload.length + trailer.length ∧
    bytes.getD 0 0 = 0x55 ∧ bytes.getD 1 0 = 0x55 ∧ bytes.getD 2 0 = 0x55 ∧
    bytes.getD 3 0 = 0x55 ∧ bytes.getD 4 0 = 0x55 ∧ bytes.getD 5 0 = 0x55 ∧
    bytes.getD 6 0 = 0x55 ∧ bytes.getD 7 0 = 0xd5 ∧
    six bytes 8 = [a, b, c, d, e, f] ∧ six bytes 14 = [a1, b1, c1, d1, e1, f1] ∧
    bytes.getD 20 0 = t0 ∧ bytes.getD 21 0 = t1 ∧
    (∀ j, bytes.getD (22 + j) 0 = (payload ++ trailer).getD j 0) := by
  refine ⟨?_, ?_, ?_, ?_, ?_, ?_, ?_, ?_, ?_, ?_, ?_, ?_, ?_, ?_⟩ <;>
    try (simp [frame, six, List.replicate]; done)
  · simp [frame]; omega
  · intro j
    have : frame [a, b, c, d, e, f] [a1, b1, c1, d1, e1, f1] [t0, t1] payload trailer =
        [0x55, 0x55, 0x55, 0x55, 0x55, 0x55, 0x55, 0xd5, a, b, c, d, e, f, a1, b1, c1, d1, e1, f1,
          t0, t1] ++ (payload ++ trailer) := by
      simp [frame, List.replicate]
    rw [this, List.getD_append_right _ _ _ _ (by simp)]
    simp

theorem frame_payload (bytes payload trailer : List Nat) (m : Nat) (hm : payload.length = m + 1)
    (h : ∀ j, bytes.getD (22 + j) 0 = (payload ++ trailer).getD j 0) :
    (List.range (m + 1)).map (fun j => bytes.getD (22 + j) 0) = payload := by
  simp only [h]
  exact map_range_getD_append payload trailer (m + 1) hm.symm

theorem frame_trailer (bytes payload : List Nat) (x y z w : Nat) (m : Nat)
    (hm : payload.length = m + 1)
    (h : ∀ j, bytes.getD (22 + j) 0 = (payload ++ [x, y, z, w]).getD j 0) :
    four bytes (23 + m) = [x, y, z, w] := by
  have e0 : 23 + m = 22 + (m + 1) := by omega
  have e1 : 23 + m + 1 = 22 + (m + 1 + 1) := by omega
  have e2 : 23 + m + 2 = 22 + (m + 1 + 2) := by omega
  have e3 : 23 + m + 3 = 22 + (m + 1 + 3) := by omega
  simp only [four]
  rw [e3, e2, e1, e0, h, h, h, h]
  rw [List.getD_append_right _ _ _ _ (by omega), List.getD_append_right _ _ _ _ (by omega),
    List.getD_append_right _ _ _ _ (by omega), List.getD_append_right _ _ _ _ (by omega)]
  simp [hm]

/-- C1: a well-formed untagged IPv4 frame whose trailer is the checksum of destination to
payload is decoded into exactly one packet with the Ethertype, destination and source
headers (and no VLAN header), the payload bytes as packet data, and a final checksum-good
segment carrying the trailer. -/
theorem wellformed_frame_decodes (ext : Externals) (ts : Nat)
    (dst src payload trailer starts ends : List Nat)
    (hdst : dst.length = 6) (hsrc : src.length = 6) (hpay : 1 ≤ payload.length)
    (htr : trailer.length = 4) (hbyte : ∀ b ∈ dst ++ src ++ trailer, b < 256)
    (hlen : (frame dst src [0x08, 0x00] payload trailer).length < 2 ^ 64)
    (hcrc : be32 trailer =
      ext.CRC32 (frame dst src [0x08, 0x00] payload trailer) 8 (21 + payload.length)) :
    (BytesToFrames ext [] (frame dst src [0x08, 0x00] payload trailer) starts ends
        ⟨ts, [], [], []⟩ false).m_packets.map (fun p => (p.m_headers, p.m_data)) =
      [([("Dest MAC", colonHex dst), ("Ethertype", "IPv4"), ("Src MAC", colonHex src)], payload)] ∧
    (BytesToFrames ext [] (frame dst src [0x08, 0x00] payload trailer) starts ends
        ⟨ts, [], [], []⟩ false).m_packets.map (fun p => mapFind p.m_headers "VLAN") = [none] ∧
    (BytesToFrames ext [] (frame dst src [0x08, 0x00] payload trailer) starts ends
        ⟨ts, [], [], []⟩ false).cap.m_samples.getLast? =
      some ⟨SegmentType.TYPE_FCS_GOOD, trailer⟩ := by
  obtain ⟨a, b, c, d, e, f, rfl⟩ := length_eq_six hdst
  obtain ⟨a1, b1, c1, d1, e1, f1, rfl⟩ := length_eq_six hsrc
  obtain ⟨x, y, z, w, rfl⟩ := length_eq_four htr
  obtain ⟨m, hm⟩ : ∃ m, payload.length = m + 1 := ⟨payload.length - 1, by omega⟩
  obtain ⟨hl, h0, h1, h2, h3, h4, h5, h6, h7, hd, hs, h20, h21, hp⟩ :=
    frame_facts a b c d e f a1 b1 c1 d1 e1 f1 0x08 0x00 payload [x, y, z, w]
  generalize frame [a, b, c, d, e, f] [a1, b1, c1, d1, e1, f1] [0x08, 0x00] payload [x, y, z, w]
    = bytes at *
  have hl2 : bytes.length = 27 + m := by simp at hl; omega
  have hlt : 23 + m < 2 ^ 64 := by omega
  have hty : word16 [bytes.getD 20 0, bytes.getD 21 0] ≠ 0x8100 := by
    rw [h20, h21]; decide
  have hb1 : ∀ v ∈ [a, b, c, d, e, f], v < 256 :=
    fun v hv => hbyte v (List.mem_append_left _ (List.mem_append_left _ hv))
  have hb2 : ∀ v ∈ [a1, b1, c1, d1, e1, f1], v < 256 :=
    fun v hv => hbyte v (List.mem_append_left _ (List.mem_append_right _ hv))
  have hb3 : ∀ v ∈ [x, y, z, w], v < 256 := fun v hv => hbyte v (List.mem_append_right _ hv)
  have htl := frame_trailer bytes payload x y z w m hm hp
  have hgood : shiftIn 0 [x, y, z, w] = ext.CRC32 bytes 8 (22 + m) := by
    rw [shiftIn_eq_be32 x y z w hb3, hcrc, hm]
    congr 1; omega
  have hrun := loop_untagged ext [] bytes starts ends ⟨ts, [], [], []⟩ m hl2 hlen
    h0 h1 h2 h3 h4 h5 h6 h7 hty
  simp only [BytesToFrames, hrun, Flow.state]
  rw [untaggedFinal_packets ext [] bytes starts ends _ m hlt h20 h21,
    untaggedFinal_samples ext [] bytes starts ends _ m hlt, hd, hs,
    frame_payload bytes payload _ m hm hp, htl, List.getLast?_concat,
    formatMAC_eq_colonHex a b c d e f hb1, formatMAC_eq_colonHex a1 b1 c1 d1 e1 f1 hb2]
  refine ⟨?_, ?_, ?_⟩
  · simp
  · simp [mapFind]
  · simp [hgood]


set_option maxRecDepth 100000 in
/-- Witness for C1: the theorem applied to the example frame, whose trailer is the
checksum of its bytes 8 to 23. -/
theorem wellformed_frame_decodes_witness :
    be32 exTrailer = stdExt.CRC32 (frame exDst exSrc [0x08, 0x00] exPayload exTrailer) 8
      (21 + exPayload.length) ∧
    (BytesToFrames stdExt [] (frame exDst exSrc [0x08, 0x00] exPayload exTrailer) (exStarts 28)
        (exEnds 28) ⟨1, [], [], []⟩ false).m_packets.map (fun p => (p.m_headers, p.m_data)) =
      [([("Dest MAC", colonHex exDst), ("Ethertype", "IPv4"), ("Src MAC", colonHex exSrc)],
        exPayload)] ∧
    (BytesToFrames stdExt [] (frame exDst exSrc [0x08, 0x00] exPayload exTrailer) (exStarts 28)
        (exEnds 28) ⟨1, [], [], []⟩ false).cap.m_samples.getLast? =
      some ⟨SegmentType.TYPE_FCS_GOOD, exTrailer⟩ :=
  have h := wellformed_frame_decodes stdExt 1 exDst exSrc exPayload exTrailer (exStarts 28)
    (exEnds 28) (by decide) (by decide) (by decide) (by decide) (by decide) (by decide)
    (by decide)
  ⟨by decide, h.1, h.2.2⟩

/-! ## Untagged IPv4 frames -/

/-- The packets after decoding a frame with type field `08 00`, at least one payload byte
and four trailer bytes. -/
theorem frame_ipv4_packets (ext : Externals) (pk : List Packet) (cap : EthernetWaveform)
    (dst src payload trailer starts ends : List Nat)
    (hdst : dst.length = 6) (hsrc : src.length = 6) (hpay : 1 ≤ payload.length)
    (htr : trailer.length = 4)
    (hlen : (frame dst src [0x08, 0x00] payload trailer).length < 2 ^ 64) :
    (BytesToFrames ext pk (frame dst src [0x08, 0x00] payload trailer) starts ends cap
        false).m_packets =
      pk ++
        [{ m_offset := starts.getD 0 0
           m_len := sub64 (ends.getD (25 + payload.length) 0) (starts.getD 0 0)
           m_headers := [("Dest MAC", formatMAC dst), ("Ethertype", "IPv4"),
             ("Src MAC", formatMAC src)]
           m_data := payload
           m_displayBackgroundColor :=
             if shiftIn 0 trailer ≠
                 ext.CRC32 (frame dst src [0x08, 0x00] payload trailer) 8 (21 + payload.length)
             then ext.errorColor else "#a6cee3"
           m_displayForegroundColor :=
             if shiftIn 0 trailer ≠
                 ext.CRC32 (frame dst src [0x08, 0x00] payload trailer) 8 (21 + payload.length)
             then "#ffffff" else "#000000" }] := by
  obtain ⟨a, b, c, d, e, f, rfl⟩ := length_eq_six hdst
  obtain ⟨a1, b1, c1, d1, e1, f1, rfl⟩ := length_eq_six hsrc
  obtain ⟨x, y, z, w, rfl⟩ := length_eq_four htr
  obtain ⟨m, hm⟩ : ∃ m, payload.length = m + 1 := ⟨payload.length - 1, by omega⟩
  obtain ⟨hl, h0, h1, h2, h3, h4, h5, h6, h7, hd, hs, h20, h21, hp⟩ :=
    frame_facts a b c d e f a1 b1 c1 d1 e1 f1 0x08 0x00 payload [x, y, z, w]
  generalize frame [a, b, c, d, e, f] [a1, b1, c1, d1, e1, f1] [0x08, 0x00] payload [x, y, z, w]
    = bytes at *
  have hl2 : bytes.length = 27 + m := by simp at hl; omega
  have hlt : 23 + m < 2 ^ 64 := by omega
  have hty : word16 [bytes.getD 20 0, bytes.getD 21 0] ≠ 0x8100 := by
    rw [h20, h21]; decide
  have htl := frame_trailer bytes payload x y z w m hm hp
  have hrun := loop_untagged ext pk bytes starts ends cap m hl2 hlen
    h0 h1 h2 h3 h4 h5 h6 h7 hty
  simp only [BytesToFrames, hrun, Flow.state]
  rw [untaggedFinal_packets ext pk bytes starts ends _ m hlt h20 h21, hd, hs,
    frame_payload bytes payload _ m hm hp, htl, hm,
    show 26 + m = 25 + (m + 1) by omega, show 22 + m = 21 + (m + 1) by omega]

/-- The samples after decoding a frame with type field `08 00`, at least one payload byte
and four trailer bytes. -/
theorem frame_ipv4_samples (ext : Externals) (pk : List Packet) (cap : EthernetWaveform)
    (dst src payload trailer starts ends : List Nat)
    (hdst : dst.length = 6) (hsrc : src.length = 6) (hpay : 1 ≤ payload.length)
    (htr : trailer.length = 4)
    (hlen : (frame dst src [0x08, 0x00] payload trailer).length < 2 ^ 64) :
    (BytesToFrames ext pk (frame dst src [0x08, 0x00] payload trailer) starts ends cap
        false).cap.m_samples =
      cap.m_samples ++
        [⟨SegmentType.TYPE_PREAMBLE, [0x55, 0x55, 0x55, 0x55, 0x55, 0x55, 0x55]⟩,
          ⟨SegmentType.TYPE_SFD, [0xd5]⟩,
          ⟨SegmentType.TYPE_DST_MAC, dst⟩,
          ⟨SegmentType.TYPE_SRC_MAC, src⟩,
          ⟨SegmentType.TYPE_ETHERTYPE, [0x08, 0x00]⟩] ++
        payload.map (fun b => (⟨SegmentType.TYPE_PAYLOAD, [b]⟩ : EthernetFrameSegment)) ++
        [⟨if shiftIn 0 trailer ≠
              ext.CRC32 (frame dst src [0x08, 0x00] payload trailer) 8 (21 + payload.length)
            then SegmentType.TYPE_FCS_BAD else SegmentType.TYPE_FCS_GOOD, trailer⟩] := by
  obtain ⟨a, b, c, d, e, f, rfl⟩ := length_eq_six hdst
  obtain ⟨a1, b1, c1, d1, e1, f1, rfl⟩ := length_eq_six hsrc
  obtain ⟨x, y, z, w, rfl⟩ := length_eq_four htr
  obtain ⟨m, hm⟩ : ∃ m, payload.length = m + 1 := ⟨payload.length - 1, by omega⟩
  obtain ⟨hl, h0, h1, h2, h3, h4, h5, h6, h7, hd, hs, h20, h21, hp⟩ :=
    frame_facts a b c d e f a1 b1 c1 d1 e1 f1 0x08 0x00 payload [x, y, z, w]
  generalize frame [a, b, c, d, e, f] [a1, b1, c1, d1, e1, f1] [0x08, 0x00] payload [x, y, z, w]
    = bytes at *
  have hl2 : bytes.length = 27 + m := by simp at hl; omega
  have hlt : 23 + m < 2 ^ 64 := by omega
  have hty : word16 [bytes.getD 20 0, bytes.getD 21 0] ≠ 0x8100 := by
    rw [h20, h21]; decide
  have htl := frame_trailer bytes payload x y z w m hm hp
  have hrun := loop_untagged ext pk bytes starts ends cap m hl2 hlen
    h0 h1 h2 h3 h4 h5 h6 h7 hty
  have hpm : (List.range (m + 1)).map
      (fun j => (⟨SegmentType.TYPE_PAYLOAD, [bytes.getD (22 + j) 0]⟩ : EthernetFrameSegment)) =
      payload.map (fun b => (⟨SegmentType.TYPE_PAYLOAD, [b]⟩ : EthernetFrameSegment)) := by
    rw [← frame_payload bytes payload _ m hm hp, List.map_map]
    rfl
  simp only [BytesToFrames, hrun, Flow.state]
  rw [untaggedFinal_samples ext pk bytes starts ends _ m hlt, hd, hs, hpm, htl, hm, h20, h21,
    show 22 + m = 21 + (m + 1) by omega]

/-- C3: for untagged IPv4 frames, replacing the payload byte at any position `k` by any
byte `b` changes neither the number of published packets (one) nor the header map, whose
keys are exactly the destination, the Ethertype and the source. -/
theorem headers_independent_of_payload (ext : Externals) (ts : Nat)
    (dst src payload trailer starts ends : List Nat) (k b : Nat)
    (hdst : dst.length = 6) (hsrc : src.length = 6) (hpay : 1 ≤ payload.length)
    (htr : trailer.length = 4)
    (hlen : (frame dst src [0x08, 0x00] payload trailer).length < 2 ^ 64) :
    (BytesToFrames ext [] (frame dst src [0x08, 0x00] payload trailer) starts ends
        ⟨ts, [], [], []⟩ false).m_packets.length = 1 ∧
    (BytesToFrames ext [] (frame dst src [0x08, 0x00] (payload.set k b) trailer) starts ends
        ⟨ts, [], [], []⟩ false).m_packets.length = 1 ∧
    (BytesToFrames ext [] (frame dst src [0x08, 0x00] payload trailer) starts ends
        ⟨ts, [], [], []⟩ false).m_packets.map Packet.m_headers =
      (BytesToFrames ext [] (frame dst src [0x08, 0x00] (payload.set k b) trailer) starts ends
        ⟨ts, [], [], []⟩ false).m_packets.map Packet.m_headers ∧
    (BytesToFrames ext [] (frame dst src [0x08, 0x00] payload trailer) starts ends
        ⟨ts, [], [], []⟩ false).m_packets.map (fun p => p.m_headers.map Prod.fst) =
      [["Dest MAC", "Ethertype", "Src MAC"]] := by
  have hlen2 : (frame dst src [0x08, 0x00] (payload.set k b) trailer).length < 2 ^ 64 := by
    simpa [frame] using hlen
  rw [frame_ipv4_packets ext [] _ dst src payload trailer starts ends hdst hsrc hpay htr hlen,
    frame_ipv4_packets ext [] _ dst src (payload.set k b) trailer starts ends hdst hsrc
      (by simpa using hpay) htr hlen2]
  simp

/-- Witness for C3: the example frame and the same frame with its second payload byte
replaced by zero. -/
theorem headers_independent_of_payload_witness :
    (BytesToFrames stdExt [] (frame exDst exSrc [0x08, 0x00] exPayload exTrailer) (exStarts 28)
        (exEnds 28) ⟨1, [], [], []⟩ false).m_packets.map Packet.m_headers =
      (BytesToFrames stdExt [] (frame exDst exSrc [0x08, 0x00] (exPayload.set 1 0) exTrailer)
        (exStarts 28) (exEnds 28) ⟨1, [], [], []⟩ false).m_packets.map Packet.m_headers :=
  (headers_independent_of_payload stdExt 1 exDst exSrc exPayload exTrailer (exStarts 28)
    (exEnds 28) 1 0 (by decide) (by decide) (by decide) (by decide) (by decide)).2.2.1

/-! ## Inputs without a start-frame delimiter -/

theorem loop_idle (ext : Externals) (bytes starts ends : List Nat)
    (h : ∀ j, bytes.getD j 0 ≠ 0xd5) :
    ∀ (n i : Nat) (s : LoopState),
      s.segment.m_type = SegmentType.TYPE_INVALID ∨ s.segment.m_type = SegmentType.TYPE_PREAMBLE →
      ∃ s1, loop ext false bytes starts ends n i s = Flow.next s1 ∧ s1.cap = s.cap ∧
        s1.m_packets = s.m_packets := by
  intro n
  induction n with
  | zero => intro i s _; exact ⟨s, rfl, rfl, rfl⟩
  | succ n ih =>
    intro i s hs
    rw [loop_succ]
    rcases hs with hs | hs
    · by_cases hb : bytes.getD i 0 = 0x55
      · obtain ⟨s1, h1, h2, h3⟩ := ih (i + 1) (caseInvalid bytes starts i s)
          (by right; simp [-List.getD_eq_getElem?_getD, caseInvalid, hb])
        refine ⟨s1, ?_, ?_, ?_⟩
        · simp only [step, hs, h1]
        · rw [h2]; simp [-List.getD_eq_getElem?_getD, caseInvalid, hb]
        · rw [h3]; simp [-List.getD_eq_getElem?_getD, caseInvalid, hb]
      · obtain ⟨s1, h1, h2, h3⟩ := ih (i + 1) (caseInvalid bytes starts i s)
          (by left; simp [-List.getD_eq_getElem?_getD, caseInvalid, hb, hs])
        refine ⟨s1, ?_, ?_, ?_⟩
        · simp only [step, hs, h1]
        · rw [h2]; simp [-List.getD_eq_getElem?_getD, caseInvalid, hb]
        · rw [h3]; simp [-List.getD_eq_getElem?_getD, caseInvalid, hb]
    · have hd := h i
      by_cases hb : bytes.getD i 0 = 0x55
      · obtain ⟨s1, h1, h2, h3⟩ := ih (i + 1) (casePreamble bytes starts ends i s)
          (by right; simp [-List.getD_eq_getElem?_getD, casePreamble, hb, hd, hs])
        refine ⟨s1, ?_, ?_, ?_⟩
        · simp only [step, hs, h1]
        · rw [h2]; simp [-List.getD_eq_getElem?_getD, casePreamble, hb, hd]
        · rw [h3]; simp [-List.getD_eq_getElem?_getD, casePreamble, hb, hd]
      · obtain ⟨s1, h1, h2, h3⟩ := ih (i + 1) (casePreamble bytes starts ends i s)
          (by right; simp [-List.getD_eq_getElem?_getD, casePreamble, hb, hd, hs])
        refine ⟨s1, ?_, ?_, ?_⟩
        · simp only [step, hs, h1]
        · rw [h2]; simp [-List.getD_eq_getElem?_getD, casePreamble, hb, hd]
        · rw [h3]; simp [-List.getD_eq_getElem?_getD, casePreamble, hb, hd]

theorem getD_ne_of_forall (bytes : List Nat) (v : Nat) (hv : v ≠ 0)
    (h : ∀ b ∈ bytes, b ≠ v) (j : Nat) : bytes.getD j 0 ≠ v := by
  by_cases hj : j < bytes.length
  · rw [List.getD_eq_getElem _ _ hj]
    exact h _ (List.getElem_mem hj)
  · rw [List.getD_eq_default _ _ (by omega)]
    exact fun e => hv e.symm

/-- C6: an input without a start-frame delimiter byte `0xd5` (in particular one that
consists only of `0x55`) publishes no packet and appends nothing to the output waveform. -/
theorem no_sfd_no_output (ext : Externals) (pk : List Packet) (cap : EthernetWaveform)
    (bytes starts ends : List Nat) (h : ∀ b ∈ bytes, b ≠ 0xd5) :
    BytesToFrames ext pk bytes starts ends cap false = ⟨cap, pk⟩ := by
  obtain ⟨s1, h1, h2, h3⟩ := loop_idle ext bytes starts ends
    (getD_ne_of_forall bytes 0xd5 (by decide) h) bytes.length 0 (initState ext pk cap false)
    (Or.inl rfl)
  simp only [BytesToFrames, h1, Flow.state, h2, h3]
  rfl

/-- Witness for C6: nine preamble bytes and nothing else. -/
theorem no_sfd_no_output_witness :
    BytesToFrames stdExt [] (List.replicate 9 0x55) (exStarts 9) (exEnds 9) emptyCap false =
      ⟨emptyCap, []⟩ :=
  no_sfd_no_output stdExt [] emptyCap (List.replicate 9 0x55) (exStarts 9) (exEnds 9)
    (by decide)

/-! ## Truncated input and the parallel vectors -/

/-- C8 (the code at a failing input): a preamble byte, the delimiter and one address byte.
The three vectors of the empty waveform have equal lengths before the call; after it
`m_offsets` holds three entries, `m_durations` and `m_samples` two. -/
theorem truncated_field_breaks_lengths :
    (BytesToFrames stdExt [] [0x55, 0xd5, 0x01] [0, 8, 16] [8, 16, 24] emptyCap
        false).cap.m_offsets.length = 3 ∧
    (BytesToFrames stdExt [] [0x55, 0xd5, 0x01] [0, 8, 16] [8, 16, 24] emptyCap
        false).cap.m_durations.length = 2 ∧
    (BytesToFrames stdExt [] [0x55, 0xd5, 0x01] [0, 8, 16] [8, 16, 24] emptyCap
        false).cap.m_samples.length = 2 := by
  decide

/-! ## The call only appends -/

theorem classify_shift (po pd : List Nat) (ps : List EthernetFrameSegment) (pp : List Packet)
    (bytes : List Nat) (i : Nat) (d : List Nat) (s : LoopState) :
    classify bytes i d (shift po pd ps pp s) = shift po pd ps pp (classify bytes i d s) := by
  unfold classify
  simp only [setColors, setHeader, shift]
  split_ifs <;> rfl

theorem step_shift (ext : Externals) (supp : Bool) (bytes starts ends : List Nat)
    (po pd : List Nat) (ps : List EthernetFrameSegment) (pp : List Packet) (i : Nat)
    (s : LoopState) :
    step ext supp bytes starts ends i (shift po pd ps pp s) =
      (step ext supp bytes starts ends i s).shift po pd ps pp := by
  obtain ⟨⟨ty, d⟩, start, crcstart, ce, ca, pack, cap, pk⟩ := s
  cases ty
  case TYPE_INVALID =>
    simp only [step, shift, caseInvalid, Flow.shift]
    split_ifs <;> rfl
  case TYPE_PREAMBLE =>
    simp only [step, shift, casePreamble, Flow.shift, pushOffset, pushDuration, pushSample,
      List.append_assoc]
    split_ifs <;> rfl
  case TYPE_DST_MAC =>
    simp only [step, shift, caseDstMac, Flow.shift, openField, addByte, closeField, setHeader,
      resetSegment, pushOffset, pushDuration, pushSample]
    split_ifs <;> simp only [List.append_assoc]
  case TYPE_SRC_MAC =>
    simp only [step, shift, caseSrcMac, Flow.shift, openField, addByte, closeField, setHeader,
      resetSegment, pushOffset, pushDuration, pushSample]
    split_ifs <;> simp only [List.append_assoc]
  case TYPE_ETHERTYPE =>
    simp only [step, Flow.shift, caseEthertype]
    have h1 : ∀ t : LoopState, openField starts i (shift po pd ps pp t) =
        shift po pd ps pp (openField starts i t) := by
      intro t
      simp only [openField, shift, pushOffset]
      split_ifs <;> simp only [List.append_assoc]
    have h2 : ∀ t : LoopState, addByte bytes i (shift po pd ps pp t) =
        shift po pd ps pp (addByte bytes i t) := fun t => rfl
    have h3 : ∀ t : LoopState, closeField ends i (shift po pd ps pp t) =
        shift po pd ps pp (closeField ends i t) := by
      intro t
      simp only [closeField, shift, pushDuration, pushSample, List.append_assoc]
    have h4 : ∀ (k : SegmentType) (t : LoopState), resetSegment k (shift po pd ps pp t) =
        shift po pd ps pp (resetSegment k t) := fun k t => rfl
    have h5 : ∀ t : LoopState, (shift po pd ps pp t).segment = t.segment := fun t => rfl
    simp only [h1, h2, h3, h4, h5, classify_shift]
    split_ifs <;> rfl
  case TYPE_VLAN_TAG =>
    simp only [step, shift, caseVlanTag, Flow.shift, openField, addByte, closeField, setHeader,
      resetSegment, pushOffset, pushDuration, pushSample]
    split_ifs <;> simp only [List.append_assoc]
  case TYPE_PAYLOAD =>
    simp only [step, shift, casePayload, resetSegment, pushOffset, pushDuration,
      pushSample, List.append_assoc]
    split_ifs <;> simp only [Flow.shift, shift, List.append_assoc]
  case TYPE_FCS_GOOD =>
    simp only [step, shift, caseFcs, addByte, closeField, setColors, pushOffset,
      pushDuration, pushSample]
    split_ifs <;> simp only [Flow.shift, shift, List.append_assoc]
  all_goals rfl

theorem loop_shift (ext : Externals) (supp : Bool) (bytes starts ends : List Nat)
    (po pd : List Nat) (ps : List EthernetFrameSegment) (pp : List Packet) :
    ∀ (n i : Nat) (s : LoopState),
      loop ext supp bytes starts ends n i (shift po pd ps pp s) =
        (loop ext supp bytes starts ends n i s).shift po pd ps pp := by
  intro n
  induction n with
  | zero => intro i s; rfl
  | succ n ih =>
    intro i s
    rw [loop_succ, loop_succ, step_shift]
    cases step ext supp bytes starts ends i s with
    | next s1 => exact ih (i + 1) s1
    | ret s1 => rfl

theorem step_timescale (ext : Externals) (supp : Bool) (bytes starts ends : List Nat) (i : Nat)
    (s : LoopState) :
    (step ext supp bytes starts ends i s).state.cap.m_timescale = s.cap.m_timescale := by
  obtain ⟨⟨ty, d⟩, start, crcstart, ce, ca, pack, cap, pk⟩ := s
  cases ty
  case TYPE_ETHERTYPE =>
    simp only [step, Flow.state, caseEthertype, resetSegment]
    split_ifs <;>
      simp only [classify_cap, closeField, addByte, openField, pushOffset, pushDuration,
        pushSample] <;>
      split_ifs <;> rfl
  all_goals
    simp only [step, Flow.state, caseInvalid, casePreamble, caseDstMac, caseSrcMac,
      caseVlanTag, casePayload, caseFcs, openField, addByte, closeField, setHeader, setColors,
      resetSegment, pushOffset, pushDuration, pushSample]
    try (split_ifs <;> rfl)

theorem loop_timescale (ext : Externals) (supp : Bool) (bytes starts ends : List Nat) :
    ∀ (n i : Nat) (s : LoopState),
      (loop ext supp bytes starts ends n i s).state.cap.m_timescale = s.cap.m_timescale := by
  intro n
  induction n with
  | zero => intro i s; rfl
  | succ n ih =>
    intro i s
    rw [loop_succ]
    have h := step_timescale ext supp bytes starts ends i s
    cases hs : step ext supp bytes starts ends i s with
    | next s1 =>
      rw [hs] at h
      simp only [Flow.state] at h
      simp only [ih, h]
    | ret s1 =>
      rw [hs] at h
      exact h

/-- C9: a call leaves what the output waveform and the packet list held before as it was,
in front, and what it appends (offsets, durations, segments and packets) is what the same
call appends to an empty waveform with the same timescale and an empty packet list. -/
theorem call_only_appends (ext : Externals) (pk : List Packet) (cap : EthernetWaveform)
    (bytes starts ends : List Nat) (supp : Bool) :
    (BytesToFrames ext pk bytes starts ends cap supp).cap.m_timescale = cap.m_timescale ∧
    (BytesToFrames ext pk bytes starts ends cap supp).cap.m_offsets = cap.m_offsets ++
      (BytesToFrames ext [] bytes starts ends ⟨cap.m_timescale, [], [], []⟩ supp).cap.m_offsets ∧
    (BytesToFrames ext pk bytes starts ends cap supp).cap.m_durations = cap.m_durations ++
      (BytesToFrames ext [] bytes starts ends ⟨cap.m_timescale, [], [], []⟩ supp).cap.m_durations ∧
    (BytesToFrames ext pk bytes starts ends cap supp).cap.m_samples = cap.m_samples ++
      (BytesToFrames ext [] bytes starts ends ⟨cap.m_timescale, [], [], []⟩ supp).cap.m_samples ∧
    (BytesToFrames ext pk bytes starts ends cap supp).m_packets = pk ++
      (BytesToFrames ext [] bytes starts ends ⟨cap.m_timescale, [], [], []⟩ supp).m_packets := by
  have h0 : initState ext pk cap supp =
      shift cap.m_offsets cap.m_durations cap.m_samples pk
        (initState ext [] ⟨cap.m_timescale, [], [], []⟩ supp) := by
    simp [initState, shift]
  have hts := loop_timescale ext supp bytes starts ends
  simp only [BytesToFrames, h0, loop_shift]
  cases h : loop ext supp bytes starts ends bytes.length 0
      (initState ext [] ⟨cap.m_timescale, [], [], []⟩ supp) with
  | next s1 =>
    have := hts bytes.length 0 (initState ext [] ⟨cap.m_timescale, [], [], []⟩ supp)
    rw [h] at this
    exact ⟨this, rfl, rfl, rfl, rfl⟩
  | ret s1 =>
    have := hts bytes.length 0 (initState ext [] ⟨cap.m_timescale, [], [], []⟩ supp)
    rw [h] at this
    exact ⟨this, rfl, rfl, rfl, rfl⟩

/-! ## Inputs too short for a payload byte and a checksum -/

theorem classify_segment (bytes : List Nat) (i : Nat) (d : List Nat) (s : LoopState) :
    (classify bytes i d s).segment = s.segment := by
  unfold classify
  simp only [setColors, setHeader]
  split_ifs <;> rfl

/-- One iteration from a state before the checksum, at an index from which the fifth byte
from the end cannot be reached as payload: the iteration does not return, publishes
nothing, and the next state is again such a state. -/
theorem step_short (ext : Externals) (bytes starts ends : List Nat) (i : Nat) (s : LoopState)
    (hb : beforeFcs s) (hi : i < bytes.length) (hlt : bytes.length < 2 ^ 64)
    (hn : bytes.length < i + need s + 5) :
    ∃ s1, step ext false bytes starts ends i s = Flow.next s1 ∧ s1.m_packets = s.m_packets ∧
      beforeFcs s1 ∧ bytes.length < i + 1 + need s1 + 5 := by
  obtain ⟨⟨ty, d⟩, start, crcstart, ce, ca, pack, cap, pk⟩ := s
  cases ty <;> simp only [beforeFcs] at hb
  case TYPE_INVALID =>
    simp only [need] at hn
    refine ⟨_, rfl, ?_, ?_, ?_⟩ <;> simp only [caseInvalid] <;> split_ifs <;>
      simp only [need, beforeFcs] <;> omega
  case TYPE_PREAMBLE =>
    simp only [need] at hn
    refine ⟨_, rfl, ?_, ?_, ?_⟩ <;> simp only [casePreamble] <;> split_ifs <;>
      simp [need, beforeFcs] <;> omega
  case TYPE_DST_MAC =>
    simp only [need] at hn
    refine ⟨_, rfl, ?_, ?_, ?_⟩ <;>
      simp only [caseDstMac, openField, addByte, closeField, setHeader, resetSegment] <;>
      split_ifs <;> simp [need, beforeFcs] at * <;> omega
  case TYPE_SRC_MAC =>
    simp only [need] at hn
    refine ⟨_, rfl, ?_, ?_, ?_⟩ <;>
      simp only [caseSrcMac, openField, addByte, closeField, setHeader, resetSegment] <;>
      split_ifs <;> simp [need, beforeFcs] at * <;> omega
  case TYPE_ETHERTYPE =>
    simp only [need] at hn
    refine ⟨_, rfl, ?_, ?_, ?_⟩ <;>
      simp only [caseEthertype, openField, addByte, closeField, resetSegment] <;>
      split_ifs <;> simp [need, beforeFcs, classify_m_packets] at * <;> omega
  case TYPE_VLAN_TAG =>
    simp only [need] at hn
    refine ⟨_, rfl, ?_, ?_, ?_⟩ <;>
      simp only [caseVlanTag, openField, addByte, closeField, setHeader, resetSegment] <;>
      split_ifs <;> simp [need, beforeFcs] at * <;> omega
  case TYPE_PAYLOAD =>
    simp only [need] at hn
    have h5 : i ≠ sub64 bytes.length 5 := by
      unfold sub64
      by_cases h : 5 ≤ bytes.length
      · have : bytes.length + 2 ^ 64 - 5 = (bytes.length - 5) + 2 ^ 64 := by omega
        rw [this, Nat.add_mod_right, Nat.mod_eq_of_lt (by omega)]
        omega
      · rw [Nat.mod_eq_of_lt (by omega)]
        omega
    rw [step_payload_ne ext bytes starts ends i _ rfl h5]
    exact ⟨_, rfl, rfl, trivial, by simp only [need, afterPayload]; omega⟩

theorem loop_short (ext : Externals) (bytes starts ends : List Nat) (hlt : bytes.length < 2 ^ 64) :
    ∀ (n i : Nat) (s : LoopState), beforeFcs s → i + n = bytes.length →
      bytes.length < i + need s + 5 →
      ∃ s1, loop ext false bytes starts ends n i s = Flow.next s1 ∧
        s1.m_packets = s.m_packets := by
  intro n
  induction n with
  | zero => intro i s _ _ _; exact ⟨s, rfl, rfl⟩
  | succ n ih =>
    intro i s hb hi hn
    obtain ⟨s1, h1, h2, h3, h4⟩ := step_short ext bytes starts ends i s hb (by omega) hlt hn
    obtain ⟨s2, h5, h6⟩ := ih (i + 1) s1 h3 (by omega) h4
    exact ⟨s2, by rw [loop_succ, h1]; exact h5, by rw [h6, h2]⟩

theorem frame_take_getD (dst src ety payload trailer : List Nat) (k j : Nat) (hj : j < 8)
    (hk : 8 ≤ k) :
    ((frame dst src ety payload trailer).take k).getD j 0 = if j < 7 then 0x55 else 0xd5 := by
  have e : frame dst src ety payload trailer =
      [0x55, 0x55, 0x55, 0x55, 0x55, 0x55, 0x55, 0xd5] ++
        (dst ++ src ++ ety ++ payload ++ trailer) := by
    simp [frame, List.replicate]
  rw [e, List.getD_eq_getElem?_getD, List.getElem?_take_of_lt (by omega),
    List.getElem?_append_left (by simpa using hj)]
  interval_cases j <;> rfl

/-- C7 (amended): the first `k` bytes of a frame, for `k` less than the length of the frame
and at most 26, never yield a packet: after the eight bytes of preamble and delimiter and
the fourteen of addresses and type, fewer than five bytes are left, so the decoder cannot
see a payload byte followed by a checksum. -/
theorem truncated_frame_no_packet (ext : Externals) (pk : List Packet) (cap : EthernetWaveform)
    (dst src ety payload trailer starts ends : List Nat) (k : Nat) (hk : k ≤ 26)
    (hcut : k < (frame dst src ety payload trailer).length) :
    (BytesToFrames ext pk ((frame dst src ety payload trailer).take k) (starts.take k)
      (ends.take k) cap false).m_packets = pk := by
  generalize hB : (frame dst src ety payload trailer).take k = bytes
  have hlenk : bytes.length = k := by
    rw [← hB, List.length_take]; omega
  have hlen : bytes.length ≤ 26 := by omega
  have hlt : bytes.length < 2 ^ 64 := by omega
  by_cases h21 : bytes.length < 21
  · obtain ⟨s1, h1, h2⟩ := loop_short ext bytes (starts.take k) (ends.take k) hlt bytes.length 0
      (initState ext pk cap false) trivial (by omega)
      (by show bytes.length < 0 + 16 + 5; omega)
    simp only [BytesToFrames, h1, Flow.state, h2]
    rfl
  · have hk8 : 8 ≤ k := by
      rw [← hB, List.length_take] at h21; omega
    have hg : ∀ j, j < 8 → bytes.getD j 0 = if j < 7 then 0x55 else 0xd5 := by
      intro j hj; rw [← hB]; exact frame_take_getD dst src ety payload trailer k j hj hk8
    obtain ⟨n, hn⟩ : ∃ n, bytes.length = n + 8 := ⟨bytes.length - 8, by omega⟩
    obtain ⟨s1, h1, h2⟩ := loop_short ext bytes (starts.take k) (ends.take k) hlt n (0 + 8)
      (afterPreamble (starts.take k) (ends.take k) 0 (initState ext pk cap false))
      (by simp [beforeFcs, afterPreamble]) (by omega)
      (by simp only [need, afterPreamble, List.length_nil]; omega)
    have hrun := loop_preamble ext false bytes (starts.take k) (ends.take k) n 0
      (initState ext pk cap false) rfl (hg 0 (by omega)) (hg 1 (by omega)) (hg 2 (by omega))
      (hg 3 (by omega)) (hg 4 (by omega)) (hg 5 (by omega)) (hg 6 (by omega)) (hg 7 (by omega))
    simp only [BytesToFrames, hn, hrun, h1, Flow.state, h2]
    rfl

/-- Witness for C7 (amended): the example frame cut after 26 of its 28 bytes. -/
theorem truncated_frame_no_packet_witness :
    (BytesToFrames stdExt [] ((frame exDst exSrc [0x08, 0x00] exPayload exTrailer).take 26)
      ((exStarts 28).take 26) ((exEnds 28).take 26) emptyCap false).m_packets = [] :=
  truncated_frame_no_packet stdExt [] emptyCap exDst exSrc [0x08, 0x00] exPayload exTrailer
    (exStarts 28) (exEnds 28) 26 (by decide) (by decide)

set_option maxRecDepth 100000 in
/-- C7 (counterexample): the example frame is well-formed (its trailer is the checksum of
its bytes 8 to 23) and has 28 bytes; its first 27 bytes, decoded with the first 27
timestamps and an empty packet list, publish a packet. -/
theorem truncated_frame_publishes :
    be32 exTrailer = CRC32 (frame exDst exSrc [0x08, 0x00] exPayload exTrailer) 8 23 ∧
    (frame exDst exSrc [0x08, 0x00] exPayload exTrailer).length = 28 ∧
    (BytesToFrames stdExt [] ((frame exDst exSrc [0x08, 0x00] exPayload exTrailer).take 27)
      ((exStarts 28).take 27) ((exEnds 28).take 27) emptyCap false).m_packets.length = 1 := by
  decide

/-! ## Two frames in one call -/

theorem frame_append_frame (dst1 src1 pay1 tr1 dst2 src2 pay2 tr2 : List Nat) :
    frame dst1 src1 [0x08, 0x00] pay1 tr1 ++ frame dst2 src2 [0x08, 0x00] pay2 tr2 =
      frame dst1 src1 [0x08, 0x00] (pay1 ++ tr1 ++ frame dst2 src2 [0x08, 0x00] pay2 []) tr2 := by
  simp [frame]

/-- C10 (amended): on the concatenation of two frames the call publishes exactly one
packet.  It carries the destination and source of the first frame; its payload is the
payload of the first frame followed by the first trailer and by every byte of the second
frame except the last four, which are read as the checksum.  The call returns there, and
the second frame is not decoded as a frame of its own. -/
theorem concatenated_frames_one_packet (ext : Externals) (ts : Nat)
    (dst1 src1 pay1 tr1 dst2 src2 pay2 tr2 starts ends : List Nat)
    (hdst : dst1.length = 6) (hsrc : src1.length = 6) (htr : tr2.length = 4)
    (hbyte : ∀ b ∈ dst1 ++ src1, b < 256)
    (hlen : (frame dst1 src1 [0x08, 0x00] pay1 tr1 ++
      frame dst2 src2 [0x08, 0x00] pay2 tr2).length < 2 ^ 64) :
    (BytesToFrames ext []
        (frame dst1 src1 [0x08, 0x00] pay1 tr1 ++ frame dst2 src2 [0x08, 0x00] pay2 tr2)
        starts ends ⟨ts, [], [], []⟩ false).m_packets.map (fun p => (p.m_headers, p.m_data)) =
      [([("Dest MAC", colonHex dst1), ("Ethertype", "IPv4"), ("Src MAC", colonHex src1)],
        pay1 ++ tr1 ++ frame dst2 src2 [0x08, 0x00] pay2 [])] ∧
    (BytesToFrames ext []
        (frame dst1 src1 [0x08, 0x00] pay1 tr1 ++ frame dst2 src2 [0x08, 0x00] pay2 tr2)
        starts ends ⟨ts, [], [], []⟩ false).cap.m_samples.getLast?.map
          EthernetFrameSegment.m_data = some tr2 := by
  rw [frame_append_frame] at hlen ⊢
  have hpay : 1 ≤ (pay1 ++ tr1 ++ frame dst2 src2 [0x08, 0x00] pay2 []).length := by
    simp [frame]; omega
  rw [frame_ipv4_packets ext [] _ dst1 src1 _ tr2 starts ends hdst hsrc hpay htr hlen,
    frame_ipv4_samples ext [] _ dst1 src1 _ tr2 starts ends hdst hsrc hpay htr hlen,
    List.getLast?_concat]
  obtain ⟨a, b, c, d, e, f, rfl⟩ := length_eq_six hdst
  obtain ⟨a1, b1, c1, d1, e1, f1, rfl⟩ := length_eq_six hsrc
  rw [formatMAC_eq_colonHex a b c d e f (fun v hv => hbyte v (List.mem_append_left _ hv)),
    formatMAC_eq_colonHex a1 b1 c1 d1 e1 f1 (fun v hv => hbyte v (List.mem_append_right _ hv))]
  simp

set_option maxRecDepth 100000 in
/-- Witness for C10 (amended): the example frame twice. -/
theorem concatenated_frames_one_packet_witness :
    (BytesToFrames stdExt []
        (frame exDst exSrc [0x08, 0x00] exPayload exTrailer ++
          frame exDst exSrc [0x08, 0x00] exPayload exTrailer)
        (exStarts 56) (exEnds 56) ⟨1, [], [], []⟩ false).m_packets.map
          (fun p => (p.m_headers, p.m_data)) =
      [([("Dest MAC", colonHex exDst), ("Ethertype", "IPv4"), ("Src MAC", colonHex exSrc)],
        exPayload ++ exTrailer ++ frame exDst exSrc [0x08, 0x00] exPayload [])] :=
  (concatenated_frames_one_packet stdExt 1 exDst exSrc exPayload exTrailer exDst exSrc exPayload
    exTrailer (exStarts 56) (exEnds 56) (by decide) (by decide) (by decide) (by decide)
    (by decide)).1

set_option maxRecDepth 100000 in
/-- C10 (counterexample): the example frame is well-formed, and the call on two copies of
it, one after the other, publishes one packet, not two. -/
theorem concatenated_frames_not_two :
    be32 exTrailer = CRC32 (frame exDst exSrc [0x08, 0x00] exPayload exTrailer) 8 23 ∧
    (BytesToFrames stdExt []
        (frame exDst exSrc [0x08, 0x00] exPayload exTrailer ++
          frame exDst exSrc [0x08, 0x00] exPayload exTrailer)
        (exStarts 56) (exEnds 56) emptyCap false).m_packets.length = 1 := by
  decide

/-! ## Frames with an 802.1q tag -/

theorem mapFind_mapSet_self (m : List (String × String)) (k v : String) :
    mapFind (mapSet m k v) k = some v := by
  induction m with
  | nil => simp [mapSet, mapFind]
  | cons kv rest ih =>
    obtain ⟨k1, v1⟩ := kv
    simp only [mapSet]
    split_ifs with h1 h2
    · simp [mapFind]
    · simp [mapFind]
    · have : (k1 == k) = false := by simpa using fun e => h1 e.symm
      simp only [mapFind, List.find?_cons, this] at ih ⊢
      exact ih

theorem mapFind_mapSet_ne (m : List (String × String)) (k v k1 : String) (h : k1 ≠ k) :
    mapFind (mapSet m k v) k1 = mapFind m k1 := by
  have hk : (k == k1) = false := by simpa using fun e => h e.symm
  induction m with
  | nil => simp [mapSet, mapFind, hk]
  | cons kv rest ih =>
    obtain ⟨k2, v2⟩ := kv
    simp only [mapSet]
    split_ifs with h1 h2
    · subst h1
      simp [mapFind, List.find?_cons, hk]
    · simp [mapFind, List.find?_cons, hk]
    · simp only [mapFind, List.find?_cons] at ih ⊢
      cases h3 : (k2 == k1) with
      | true => rfl
      | false => simpa [h3] using ih

theorem classify_vlan (bytes : List Nat) (i : Nat) (d : List Nat) (s : LoopState) :
    mapFind (classify bytes i d s).pack.m_headers "VLAN" = mapFind s.pack.m_headers "VLAN" := by
  have hne : "VLAN" ≠ "Ethertype" := by decide
  unfold classify
  simp only [setColors, setHeader]
  split_ifs <;> simp only [mapFind_mapSet_ne _ _ _ _ hne]

theorem word16_eq (a b : Nat) (ha : a < 256) (hb : b < 256) : word16 [a, b] = a * 256 + b := by
  simp only [word16, List.getD_cons_zero, List.getD_cons_succ]
  rw [Nat.shiftLeft_eq, Nat.mul_comm a (2 ^ 8), ← Nat.mul_add_lt_is_or (by omega) a,
    Nat.mod_eq_of_lt (by omega)]

theorem loop_tagged (ext : Externals) (m_packets : List Packet) (bytes starts ends : List Nat)
    (cap : EthernetWaveform) (m : Nat) (hlen : bytes.length = 31 + m) (hlt : bytes.length < 2 ^ 64)
    (h0 : bytes.getD 0 0 = 0x55) (h1 : bytes.getD 1 0 = 0x55)
    (h2 : bytes.getD 2 0 = 0x55) (h3 : bytes.getD 3 0 = 0x55)
    (h4 : bytes.getD 4 0 = 0x55) (h5 : bytes.getD 5 0 = 0x55)
    (h6 : bytes.getD 6 0 = 0x55) (h7 : bytes.getD 7 0 = 0xd5)
    (hty : word16 [bytes.getD 20 0, bytes.getD 21 0] = 0x8100)
    (hin : word16 [bytes.getD 24 0, bytes.getD 25 0] ≠ 0x8100) :
    loop ext false bytes starts ends bytes.length 0 (initState ext m_packets cap false) =
      Flow.ret (taggedFinal ext m_packets bytes starts ends cap m) := by
  have e1 : bytes.length = (((((((4 + (m + 1)) + 2) + 2) + 2) + 6) + 6) + 8) := by omega
  have hsub : sub64 bytes.length 5 = 26 + m := by
    rw [sub64_of_le _ _ (by omega) hlt]; omega
  rw [e1, loop_preamble ext false bytes starts ends _ 0 _ rfl h0 h1 h2 h3 h4 h5 h6 h7,
    loop_dstMac ext false bytes starts ends _ _ _ rfl,
    loop_srcMac ext false bytes starts ends _ _ _ rfl,
    loop_ethertype ext false bytes starts ends _ _ _ rfl,
    loop_vlanTag ext false bytes starts ends _ _ _
      (by rw [afterEthertype_segment, if_pos hty]),
    loop_ethertype ext false bytes starts ends _ _ _ rfl,
    loop_payload_fcs ext bytes starts ends m 4 _ _
      (by rw [afterEthertype_segment, if_neg hin])
      (by intro j hj; rw [hsub]; omega) (by rw [hsub]),
    loop_fcs ext false bytes starts ends 0 _ _ rfl,
    show 0 + 8 + 6 + 6 + 2 + 2 + 2 + (m + 1) = 27 + m by omega]
  rfl

theorem taggedFinal_vlan (ext : Externals) (m_packets : List Packet)
    (bytes starts ends : List Nat) (cap : EthernetWaveform) (m : Nat) :
    (taggedFinal ext m_packets bytes starts ends cap m).m_packets.map
        (fun p => mapFind p.m_headers "VLAN") =
      m_packets.map (fun p => mapFind p.m_headers "VLAN") ++
        [some (fmtd (word16 [bytes.getD 22 0, bytes.getD 23 0] &&& 0xfff))] := by
  have hp : (afterEthertype bytes starts ends 24
      (afterVlanTag bytes starts ends 22
        (afterEthertype bytes starts ends 20
          (afterMac SegmentType.TYPE_SRC_MAC SegmentType.TYPE_ETHERTYPE "Src MAC" bytes
            starts ends 14
            (afterMac SegmentType.TYPE_DST_MAC SegmentType.TYPE_SRC_MAC "Dest MAC" bytes
              starts ends 8
              (afterPreamble starts ends 0 (initState ext m_packets cap false))))))).m_packets =
      m_packets := by
    simp only [afterEthertype, resetSegment, classify_m_packets, afterVlanTag, afterMac,
      afterPreamble, initState]
  simp only [taggedFinal, afterFcs, resetSegment, afterPayload, List.map_append, List.map_cons,
    List.map_nil, hp]
  congr 2
  split_ifs <;>
    simp only [afterEthertype, resetSegment, classify_vlan, afterVlanTag, mapFind_mapSet_self]

theorem taggedFinal_samples (ext : Externals) (m_packets : List Packet)
    (bytes starts ends : List Nat) (cap : EthernetWaveform) (m : Nat) (hlt : 27 + m < 2 ^ 64) :
    (taggedFinal ext m_packets bytes starts ends cap m).cap.m_samples =
      cap.m_samples ++
        [⟨SegmentType.TYPE_PREAMBLE, [0x55, 0x55, 0x55, 0x55, 0x55, 0x55, 0x55]⟩,
          ⟨SegmentType.TYPE_SFD, [0xd5]⟩,
          ⟨SegmentType.TYPE_DST_MAC, six bytes 8⟩,
          ⟨SegmentType.TYPE_SRC_MAC, six bytes 14⟩,
          ⟨SegmentType.TYPE_ETHERTYPE, [bytes.getD 20 0, bytes.getD 21 0]⟩,
          ⟨SegmentType.TYPE_VLAN_TAG, [bytes.getD 22 0, bytes.getD 23 0]⟩,
          ⟨SegmentType.TYPE_ETHERTYPE, [bytes.getD 24 0, bytes.getD 25 0]⟩] ++
        (List.range (m + 1)).map
          (fun j => (⟨SegmentType.TYPE_PAYLOAD, [bytes.getD (26 + j) 0]⟩ : EthernetFrameSegment)) ++
        [⟨if shiftIn 0 (four bytes (27 + m)) ≠ ext.CRC32 bytes 8 (26 + m) then
            SegmentType.TYPE_FCS_BAD else SegmentType.TYPE_FCS_GOOD, four bytes (27 + m)⟩] := by
  have hsub : sub64 (27 + m) 1 = 26 + m := by
    rw [sub64_of_le _ _ (by omega) hlt]; omega
  simp [-List.getD_eq_getElem?_getD, taggedFinal, afterFcs, afterPayload, afterEthertype,
    afterVlanTag, afterMac, afterPreamble, initState, resetSegment, pushSample, pushDuration,
    pushOffset, classify_cap, classify_crc, hsub]

/-- Facts about the bytes of a frame with one tag: a six-byte type field. -/
theorem frame_facts_tagged (a b c d e f a1 b1 c1 d1 e1 f1 t0 t1 t2 t3 t4 t5 : Nat)
    (payload trailer : List Nat) :
    let bytes := frame [a, b, c, d, e, f] [a1, b1, c1, d1, e1, f1] [t0, t1, t2, t3, t4, t5]
      payload trailer
    bytes.length = 26 + payload.length + trailer.length ∧
    bytes.getD 0 0 = 0x55 ∧ bytes.getD 1 0 = 0x55 ∧ bytes.getD 2 0 = 0x55 ∧
    bytes.getD 3 0 = 0x55 ∧ bytes.getD 4 0 = 0x55 ∧ bytes.getD 5 0 = 0x55 ∧
    bytes.getD 6 0 = 0x55 ∧ bytes.getD 7 0 = 0xd5 ∧
    bytes.getD 20 0 = t0 ∧ bytes.getD 21 0 = t1 ∧ bytes.getD 22 0 = t2 ∧
    bytes.getD 23 0 = t3 ∧ bytes.getD 24 0 = t4 ∧ bytes.getD 25 0 = t5 := by
  refine ⟨?_, ?_, ?_, ?_, ?_, ?_, ?_, ?_, ?_, ?_, ?_, ?_, ?_, ?_, ?_⟩ <;>
    try (simp [frame, List.replicate]; done)
  simp [frame]; omega

theorem and_fff (x : Nat) : x &&& 0xfff = x % 4096 :=
  Nat.and_pow_two_sub_one_eq_mod x 12

theorem and_1000 (x : Nat) : (x &&& 0x1000 ≠ 0) ↔ x.testBit 12 = true := by
  have h : x &&& 0x1000 = 2 ^ 12 * (x.testBit 12).toNat := by
    apply Nat.eq_of_testBit_eq
    intro i
    rw [Nat.testBit_and, show (0x1000 : Nat) = 2 ^ 12 by norm_num, Nat.testBit_two_pow]
    cases hx : x.testBit 12
    · simp only [Bool.toNat_false, Nat.mul_zero, Nat.zero_testBit]
      by_cases hi : 12 = i
      · subst hi; simp [hx]
      · simp [hi]
    · simp only [Bool.toNat_true, Nat.mul_one, Nat.testBit_two_pow]
      by_cases hi : 12 = i
      · subst hi; simp [hx]
      · simp [hi]
  rw [h]
  cases x.testBit 12 <;> simp

/-- C5: a frame with one 802.1q tag `t0 t1`, an inner type other than `81 00`, at least one
payload byte and four trailer bytes gives a packet whose header "VLAN" is the decimal
rendering of the low twelve bits of the tag; the sixth emitted segment is the tag segment,
and its text is "VLAN id, PCP priority", with ", DE" appended exactly when bit 12 of the
tag is set.  For the tag `60 64` that is "100" and "VLAN 100, PCP 3". -/
theorem vlan_tag_decoded (ext : Externals) (ts : Nat)
    (dst src payload trailer starts ends : List Nat) (t0 t1 e0 e1 : Nat)
    (hdst : dst.length = 6) (hsrc : src.length = 6) (hpay : 1 ≤ payload.length)
    (htr : trailer.length = 4) (ht0 : t0 < 256) (ht1 : t1 < 256) (he0 : e0 < 256)
    (he1 : e1 < 256) (hin : e0 * 256 + e1 ≠ 0x8100)
    (hlen : (frame dst src [0x81, 0x00, t0, t1, e0, e1] payload trailer).length < 2 ^ 64) :
    (BytesToFrames ext [] (frame dst src [0x81, 0x00, t0, t1, e0, e1] payload trailer) starts ends
        ⟨ts, [], [], []⟩ false).m_packets.map (fun p => mapFind p.m_headers "VLAN") =
      [some (toString ((t0 * 256 + t1) % 4096))] ∧
    (BytesToFrames ext [] (frame dst src [0x81, 0x00, t0, t1, e0, e1] payload trailer) starts ends
        ⟨ts, [], [], []⟩ false).cap.m_samples[5]? = some ⟨SegmentType.TYPE_VLAN_TAG, [t0, t1]⟩ ∧
    GetText (BytesToFrames ext [] (frame dst src [0x81, 0x00, t0, t1, e0, e1] payload trailer)
        starts ends ⟨ts, [], [], []⟩ false).cap.m_samples 5 =
      "VLAN " ++ toString ((t0 * 256 + t1) % 4096) ++ ", PCP " ++
        toString ((t0 * 256 + t1) / 8192) ++
        (if (t0 * 256 + t1).testBit 12 then ", DE" else "") ∧
    (t0 = 0x60 → t1 = 0x64 →
      (BytesToFrames ext [] (frame dst src [0x81, 0x00, t0, t1, e0, e1] payload trailer) starts
          ends ⟨ts, [], [], []⟩ false).m_packets.map (fun p => mapFind p.m_headers "VLAN") =
        [some "100"] ∧
      GetText (BytesToFrames ext [] (frame dst src [0x81, 0x00, t0, t1, e0, e1] payload trailer)
          starts ends ⟨ts, [], [], []⟩ false).cap.m_samples 5 = "VLAN 100, PCP 3") := by
  obtain ⟨a, b, c, d, e, f, rfl⟩ := length_eq_six hdst
  obtain ⟨a1, b1, c1, d1, e1', f1, rfl⟩ := length_eq_six hsrc
  obtain ⟨m, hm⟩ : ∃ m, payload.length = m + 1 := ⟨payload.length - 1, by omega⟩
  obtain ⟨hl, h0, h1, h2, h3, h4, h5, h6, h7, h20, h21, h22, h23, h24, h25⟩ :=
    frame_facts_tagged a b c d e f a1 b1 c1 d1 e1' f1 0x81 0x00 t0 t1 e0 e1 payload trailer
  generalize frame [a, b, c, d, e, f] [a1, b1, c1, d1, e1', f1] [0x81, 0x00, t0, t1, e0, e1]
    payload trailer = bytes at *
  have hl2 : bytes.length = 31 + m := by omega
  have hrun := loop_tagged ext [] bytes starts ends ⟨ts, [], [], []⟩ m hl2 hlen
    h0 h1 h2 h3 h4 h5 h6 h7 (by rw [h20, h21]; decide)
    (by rw [h24, h25, word16_eq e0 e1 he0 he1]; exact hin)
  have hv : (BytesToFrames ext [] bytes starts ends ⟨ts, [], [], []⟩ false).m_packets.map
      (fun p => mapFind p.m_headers "VLAN") = [some (toString ((t0 * 256 + t1) % 4096))] := by
    simp only [BytesToFrames, hrun, Flow.state]
    rw [taggedFinal_vlan, h22, h23, word16_eq t0 t1 ht0 ht1, and_fff]
    rfl
  have hs : (BytesToFrames ext [] bytes starts ends ⟨ts, [], [], []⟩ false).cap.m_samples[5]? =
      some ⟨SegmentType.TYPE_VLAN_TAG, [t0, t1]⟩ := by
    simp only [BytesToFrames, hrun, Flow.state]
    rw [taggedFinal_samples ext [] bytes starts ends _ m (by omega), h22, h23]
    rfl
  have hg : GetText (BytesToFrames ext [] bytes starts ends ⟨ts, [], [], []⟩ false).cap.m_samples
      5 = "VLAN " ++ toString ((t0 * 256 + t1) % 4096) ++ ", PCP " ++
        toString ((t0 * 256 + t1) / 8192) ++
        (if (t0 * 256 + t1).testBit 12 then ", DE" else "") := by
    have hd : (BytesToFrames ext [] bytes starts ends ⟨ts, [], [], []⟩ false).cap.m_samples.getD 5
        ⟨SegmentType.TYPE_INVALID, []⟩ = ⟨SegmentType.TYPE_VLAN_TAG, [t0, t1]⟩ := by
      rw [List.getD_eq_getElem?_getD, hs]; rfl
    simp only [GetText, hd, word16_eq t0 t1 ht0 ht1, and_fff, and_1000,
      Nat.shiftRight_eq_div_pow]
    by_cases hb : (t0 * 256 + t1).testBit 12 = true
    · simp only [hb, if_true]; rfl
    · have hf : (t0 * 256 + t1).testBit 12 = false := by simpa using hb
      simp only [hf, Bool.false_eq_true, if_false]
      rw [String.append_empty]; rfl
  refine ⟨hv, hs, hg, ?_⟩
  intro e0' e1'
  subst e0' e1'
  rw [hv, hg]
  decide

set_option maxRecDepth 100000 in
/-- Witness for C5: the example addresses, tag `60 64` (id 100, priority 3), inner type
IPv4, the example payload and four zero trailer bytes. -/
theorem vlan_tag_decoded_witness :
    (BytesToFrames stdExt []
        (frame exDst exSrc [0x81, 0x00, 0x60, 0x64, 0x08, 0x00] exPayload [0, 0, 0, 0])
        (exStarts 32) (exEnds 32) ⟨1, [], [], []⟩ false).m_packets.map
          (fun p => mapFind p.m_headers "VLAN") = [some "100"] ∧
    GetText (BytesToFrames stdExt []
        (frame exDst exSrc [0x81, 0x00, 0x60, 0x64, 0x08, 0x00] exPayload [0, 0, 0, 0])
        (exStarts 32) (exEnds 32) ⟨1, [], [], []⟩ false).cap.m_samples 5 = "VLAN 100, PCP 3" :=
  (vlan_tag_decoded stdExt 1 exDst exSrc exPayload [0, 0, 0, 0] (exStarts 32) (exEnds 32)
    0x60 0x64 0x08 0x00 (by decide) (by decide) (by decide) (by decide) (by decide) (by decide)
    (by decide) (by decide) (by decide) (by decide)).2.2.2 rfl rfl

/-! ## The checksum segment on arbitrary input -/

theorem findIdx_eq_of_getD (l : List Nat) (x i : Nat) (hx : x ≠ 0) (hi : l.getD i 0 = x)
    (hlt : ∀ j, j < i → l.getD j 0 ≠ x) : l.findIdx (fun b => b == x) = i := by
  have hil : i < l.length := by
    by_contra h
    rw [List.getD_eq_default _ _ (by omega)] at hi
    exact hx hi.symm
  rw [List.findIdx_eq hil]
  constructor
  · rw [List.getD_eq_getElem _ _ hil] at hi
    simp [hi]
  · intro j hj
    have := hlt j hj
    rw [List.getD_eq_getElem _ _ (by omega)] at this
    simpa using this

theorem sfdEnd_eq (bytes : List Nat) (p i : Nat) (hp : p < i) (h55 : bytes.getD p 0 = 0x55)
    (hno : ∀ j, j < p → bytes.getD j 0 ≠ 0x55) (hd5 : bytes.getD i 0 = 0xd5)
    (hnd : ∀ j, p < j → j < i → bytes.getD j 0 ≠ 0xd5) : sfdEnd bytes = i + 1 := by
  have h1 := findIdx_eq_of_getD bytes 0x55 p (by decide) h55 hno
  have hg : ∀ j, (bytes.drop (p + 1)).getD j 0 = bytes.getD (p + 1 + j) 0 := by
    intro j
    simp [List.getD_eq_getElem?_getD, List.getElem?_drop]
  have h2 := findIdx_eq_of_getD (bytes.drop (p + 1)) 0xd5 (i - (p + 1)) (by decide)
    (by rw [hg, show p + 1 + (i - (p + 1)) = i by omega]; exact hd5)
    (by intro j hj; rw [hg]; exact hnd _ (by omega) (by omega))
  simp only [sfdEnd, h1, h2]
  omega

theorem sub64_five (len i : Nat) (hi : i < len) (hlt : len < 2 ^ 64) :
    i = sub64 len 5 ↔ i + 5 = len := by
  unfold sub64
  by_cases h : 5 ≤ len
  · have : len + 2 ^ 64 - 5 = (len - 5) + 2 ^ 64 := by omega
    rw [this, Nat.add_mod_right, Nat.mod_eq_of_lt (by omega)]
    omega
  · rw [Nat.mod_eq_of_lt (by omega)]
    omega

/-- One iteration from a state before the checksum either stays before the checksum or,
at the fifth byte from the end in the payload state, opens the checksum field. -/
theorem step_beforeChecksum (ext : Externals) (pk : List Packet) (bytes starts ends : List Nat)
    (i : Nat) (s : LoopState) (hinv : beforeChecksum pk bytes i s) (hi : i < bytes.length)
    (hlt : bytes.length < 2 ^ 64) :
    ∃ s1, step ext false bytes starts ends i s = Flow.next s1 ∧
      (beforeChecksum pk bytes (i + 1) s1 ∨
        (i + 5 = bytes.length ∧ s1.segment = ⟨SegmentType.TYPE_FCS_GOOD, []⟩ ∧
          s1.m_packets = pk ∧ s1.crc_actual = 0 ∧ s1.crcstart = sfdEnd bytes)) := by
  obtain ⟨⟨ty, d⟩, start, crcstart, ce, ca, pack, cap, pk0⟩ := s
  obtain ⟨hpk, hca, hrest⟩ := hinv
  simp only at hpk hca
  subst hpk hca
  cases ty <;> simp only at hrest
  case TYPE_INVALID =>
    refine ⟨_, rfl, Or.inl ?_⟩
    by_cases hb : bytes.getD i 0 = 0x55
    · simp only [caseInvalid, hb, ne_eq, not_true_eq_false, if_false]
      exact ⟨rfl, rfl, i, by omega, hb, hrest, fun j h1 h2 => by omega⟩
    · simp only [caseInvalid, ne_eq, hb, not_false_eq_true, if_true]
      refine ⟨rfl, rfl, ?_⟩
      intro j hj
      by_cases hji : j = i
      · subst hji; exact hb
      · exact hrest j (by omega)
  case TYPE_PREAMBLE =>
    obtain ⟨p, hp, h55, hno, hnd⟩ := hrest
    refine ⟨_, rfl, Or.inl ?_⟩
    by_cases hb : bytes.getD i 0 = 0xd5
    · simp only [casePreamble, hb, if_true]
      exact ⟨rfl, rfl, (sfdEnd_eq bytes p i hp h55 hno hb hnd).symm⟩
    · have hstay : ∀ j, p < j → j < i + 1 → bytes.getD j 0 ≠ 0xd5 := by
        intro j h1 h2
        by_cases hji : j = i
        · subst hji; exact hb
        · exact hnd j h1 (by omega)
      simp only [casePreamble, hb, if_false]
      split_ifs
      · exact ⟨rfl, rfl, p, by omega, h55, hno, hstay⟩
      · exact ⟨rfl, rfl, p, by omega, h55, hno, hstay⟩
  case TYPE_DST_MAC =>
    refine ⟨_, rfl, Or.inl ?_⟩
    simp only [caseDstMac, openField, addByte, closeField, setHeader, resetSegment]
    split_ifs <;> exact ⟨rfl, rfl, hrest⟩
  case TYPE_SRC_MAC =>
    refine ⟨_, rfl, Or.inl ?_⟩
    simp only [caseSrcMac, openField, addByte, closeField, setHeader, resetSegment]
    split_ifs <;> exact ⟨rfl, rfl, hrest⟩
  case TYPE_ETHERTYPE =>
    refine ⟨_, rfl, Or.inl ?_⟩
    simp only [caseEthertype, resetSegment]
    split_ifs
    · refine ⟨?_, ?_, ?_⟩
      · simp only [classify_m_packets, closeField, addByte, openField]
        split_ifs <;> rfl
      · simp only [(classify_crc _ _ _ _).2, closeField, addByte, openField]
        split_ifs <;> rfl
      · simp only [(classify_crc _ _ _ _).1, closeField, addByte, openField]
        split_ifs <;> exact hrest
    · refine ⟨?_, ?_, ?_⟩
      · simp only [classify_m_packets, closeField, addByte, openField]
        split_ifs <;> rfl
      · simp only [(classify_crc _ _ _ _).2, closeField, addByte, openField]
        split_ifs <;> rfl
      · simp only [(classify_crc _ _ _ _).1, closeField, addByte, openField]
        split_ifs <;> exact hrest
    · simp only [addByte, openField]
      split_ifs <;> exact ⟨rfl, rfl, hrest⟩
  case TYPE_VLAN_TAG =>
    refine ⟨_, rfl, Or.inl ?_⟩
    simp only [caseVlanTag, openField, addByte, closeField, setHeader, resetSegment]
    split_ifs <;> exact ⟨rfl, rfl, hrest⟩
  case TYPE_PAYLOAD =>
    by_cases h5 : i = sub64 bytes.length 5
    · rw [step_payload_eq ext bytes starts ends i _ rfl h5]
      exact ⟨_, rfl, Or.inr ⟨(sub64_five _ _ hi hlt).1 h5, rfl, rfl, rfl, hrest⟩⟩
    · rw [step_payload_ne ext bytes starts ends i _ rfl h5]
      exact ⟨_, rfl, Or.inl ⟨rfl, rfl, hrest⟩⟩

theorem loop_beforeChecksum (ext : Externals) (pk : List Packet) (bytes starts ends : List Nat)
    (hlt : bytes.length < 2 ^ 64) :
    ∀ (n i : Nat) (s : LoopState), beforeChecksum pk bytes i s → i + n = bytes.length →
      (∃ s1, loop ext false bytes starts ends n i s = Flow.next s1 ∧ s1.m_packets = pk) ∨
      (∃ s0, 5 ≤ bytes.length ∧ s0.segment = ⟨SegmentType.TYPE_FCS_GOOD, []⟩ ∧
        s0.m_packets = pk ∧ s0.crc_actual = 0 ∧ s0.crcstart = sfdEnd bytes ∧
        loop ext false bytes starts ends n i s =
          Flow.ret (afterFcs ext bytes starts ends (bytes.length - 4) s0)) := by
  intro n
  induction n with
  | zero => intro i s hinv _; exact Or.inl ⟨s, rfl, hinv.1⟩
  | succ n ih =>
    intro i s hinv hin
    obtain ⟨s1, h1, h2⟩ := step_beforeChecksum ext pk bytes starts ends i s hinv (by omega) hlt
    rw [loop_succ, h1]
    rcases h2 with h2 | ⟨h5, hseg, hpk, hca, hcs⟩
    · exact ih (i + 1) s1 h2 (by omega)
    · right
      have hn : n = 0 + 4 := by omega
      refine ⟨s1, by omega, hseg, hpk, hca, hcs, ?_⟩
      simp only
      rw [hn, loop_fcs ext false bytes starts ends 0 (i + 1) s1 hseg,
        show bytes.length - 4 = i + 1 by omega]

theorem four_eq_drop (bytes : List Nat) (h : 4 ≤ bytes.length) :
    four bytes (bytes.length - 4) = bytes.drop (bytes.length - 4) := by
  have hl : (bytes.drop (bytes.length - 4)).length = 4 := by
    rw [List.length_drop]; omega
  apply List.ext_getElem
  · rw [hl]; rfl
  · intro n h1 h2
    have hn : n < 4 := by simpa [four] using h1
    rw [List.getElem_drop]
    have e : ∀ k, k < 4 → bytes.getD (bytes.length - 4 + k) 0 =
        bytes[bytes.length - 4 + k]?.getD 0 := fun k _ => List.getD_eq_getElem?_getD _ _ _
    interval_cases n <;>
      simp only [four, List.getElem_cons_zero, List.getElem_cons_succ, Nat.add_zero] <;>
      rw [List.getD_eq_getElem _ _ (by omega)]

theorem four_lt (bytes : List Nat) (i : Nat) (hb : ∀ b ∈ bytes, b < 256) :
    ∀ x ∈ four bytes i, x < 256 := by
  have hg : ∀ j, bytes.getD j 0 < 256 := by
    intro j
    by_cases hj : j < bytes.length
    · rw [List.getD_eq_getElem _ _ hj]; exact hb _ (List.getElem_mem hj)
    · rw [List.getD_eq_default _ _ (by omega)]; omega
  intro x hx
  simp only [four, List.mem_cons, List.mem_singleton, List.not_mem_nil, or_false] at hx
  rcases hx with rfl | rfl | rfl | rfl <;> exact hg _

/-- C4: whenever a call (without suppression) publishes a packet, the last emitted segment
carries the last four input bytes; it is checksum-good exactly when their big-endian
value equals `CRC32(bytes, s, L-5)` with `s` the index after the start-frame delimiter,
and otherwise it is checksum-bad and the published packet has the error colour as
background and white as foreground. -/
theorem checksum_segment_decides (ext : Externals) (pk : List Packet) (cap : EthernetWaveform)
    (bytes starts ends : List Nat) (hlt : bytes.length < 2 ^ 64) (hb : ∀ b ∈ bytes, b < 256)
    (hpub : (BytesToFrames ext pk bytes starts ends cap false).m_packets ≠ pk) :
    (BytesToFrames ext pk bytes starts ends cap false).cap.m_samples.getLast?.map
        EthernetFrameSegment.m_data = some (bytes.drop (bytes.length - 4)) ∧
    ((BytesToFrames ext pk bytes starts ends cap false).cap.m_samples.getLast?.map
        EthernetFrameSegment.m_type = some SegmentType.TYPE_FCS_GOOD ↔
      be32 (bytes.drop (bytes.length - 4)) =
        ext.CRC32 bytes (sfdEnd bytes) (bytes.length - 5)) ∧
    ((BytesToFrames ext pk bytes starts ends cap false).cap.m_samples.getLast?.map
        EthernetFrameSegment.m_type ≠ some SegmentType.TYPE_FCS_GOOD →
      (BytesToFrames ext pk bytes starts ends cap false).cap.m_samples.getLast?.map
          EthernetFrameSegment.m_type = some SegmentType.TYPE_FCS_BAD ∧
      (BytesToFrames ext pk bytes starts ends cap false).m_packets.getLast?.map
          Packet.m_displayBackgroundColor = some ext.errorColor ∧
      (BytesToFrames ext pk bytes starts ends cap false).m_packets.getLast?.map
          Packet.m_displayForegroundColor = some "#ffffff") := by
  have hinit : beforeChecksum pk bytes 0 (initState ext pk cap false) :=
    ⟨rfl, rfl, fun j hj => by omega⟩
  rcases loop_beforeChecksum ext pk bytes starts ends hlt bytes.length 0 _ hinit (by omega) with
    ⟨s1, h1, h2⟩ | ⟨s0, h5, hseg, hpk, hca, hcs, hrun⟩
  · exfalso
    apply hpub
    simp only [BytesToFrames, h1, Flow.state, h2]
  · have hsub : sub64 (bytes.length - 4) 1 = bytes.length - 5 := by
      rw [sub64_of_le _ _ (by omega) (by omega)]; omega
    have hact : shiftIn 0 (four bytes (bytes.length - 4)) =
        be32 (bytes.drop (bytes.length - 4)) := by
      obtain ⟨x, y, z, w, hxyz⟩ := length_eq_four
        (show (four bytes (bytes.length - 4)).length = 4 from rfl)
      have h4 := four_lt bytes (bytes.length - 4) hb
      rw [← four_eq_drop bytes (by omega)]
      rw [hxyz] at h4 ⊢
      exact shiftIn_eq_be32 x y z w h4
    rw [four_eq_drop bytes (by omega)] at hact
    simp only [BytesToFrames, hrun, Flow.state, afterFcs, pushSample, pushDuration, pushOffset,
      List.getLast?_concat, Option.map_some', hca, hcs, hsub,
      four_eq_drop bytes (show 4 ≤ bytes.length by omega), hact]
    by_cases hc : be32 (bytes.drop (bytes.length - 4)) =
        ext.CRC32 bytes (sfdEnd bytes) (bytes.length - 5)
    · simp [hc]
    · simp [hc]

set_option maxRecDepth 100000 in
/-- Witness for C4: the example frame with its last trailer byte changed, so that the
checksum does not match. -/
theorem checksum_segment_decides_witness :
    (BytesToFrames stdExt [] (frame exDst exSrc [0x08, 0x00] exPayload [5, 111, 120, 0])
        (exStarts 28) (exEnds 28) emptyCap false).cap.m_samples.getLast?.map
          EthernetFrameSegment.m_type = some SegmentType.TYPE_FCS_BAD ∧
    (BytesToFrames stdExt [] (frame exDst exSrc [0x08, 0x00] exPayload [5, 111, 120, 0])
        (exStarts 28) (exEnds 28) emptyCap false).m_packets.getLast?.map
          Packet.m_displayBackgroundColor = some stdExt.errorColor :=
  have h := (checksum_segment_decides stdExt [] emptyCap
    (frame exDst exSrc [0x08, 0x00] exPayload [5, 111, 120, 0]) (exStarts 28) (exEnds 28)
    (by decide) (by decide) (by decide)).2.2 (by decide)
  ⟨h.1, h.2.1⟩

/-! ## The checksum detects a changed byte -/

theorem crcBit_zero (v : Nat) :
    crcBit v 0 0 = if v % 2 = 1 then (v / 2) ^^^ 0xedb88320 else v / 2 := by
  simp [crcBit, Nat.shiftRight_eq_div_pow]

theorem shiftRight_one_xor (a b : Nat) : (a ^^^ b) >>> 1 = (a >>> 1) ^^^ (b >>> 1) := by
  apply Nat.eq_of_testBit_eq
  intro i
  simp [Nat.testBit_shiftRight, Nat.testBit_xor]

/-- One bit step on the register and the remaining data bits is a step of the register
combined with the data. -/
theorem crcBit_combined (c d i : Nat) :
    crcBit c d i ^^^ (d >>> (i + 1)) = crcBit (c ^^^ (d >>> i)) 0 0 := by
  have h0 : ∀ v : Nat, v ^^^ (0 >>> 0) = v := by intro v; simp
  have hs : d >>> (i + 1) = (d >>> i) >>> 1 := Nat.shiftRight_add d i 1
  unfold crcBit
  rw [h0, shiftRight_one_xor, hs]
  split_ifs
  · rw [Nat.xor_assoc, Nat.xor_comm 0xedb88320, ← Nat.xor_assoc]
  · rfl

theorem crcFold_combined (c d : Nat) (n : Nat) :
    (List.range n).foldl (fun c i => crcBit c d i) c ^^^ (d >>> n) =
      (fun v => crcBit v 0 0)^[n] (c ^^^ d) := by
  induction n with
  | zero => simp
  | succ n ih =>
    rw [List.range_succ, List.foldl_append, List.foldl_cons, List.foldl_nil, crcBit_combined, ih,
      Function.iterate_succ_apply']

theorem crcByte_eq_iterate (c d : Nat) (hd : d < 256) :
    crcByte c d = (fun v => crcBit v 0 0)^[8] (c ^^^ d) := by
  have h := crcFold_combined c d 8
  have h8 : d >>> 8 = 0 := by
    rw [Nat.shiftRight_eq_div_pow]; exact Nat.div_eq_of_lt hd
  rw [h8, Nat.xor_zero] at h
  exact h

theorem crcBit_zero_lt (v : Nat) (hv : v < 2 ^ 32) : crcBit v 0 0 < 2 ^ 32 := by
  rw [crcBit_zero]
  split_ifs
  · exact Nat.xor_lt_two_pow (by omega) (by norm_num)
  · omega

theorem crcBit_zero_inj (v w : Nat) (hv : v < 2 ^ 32) (hw : w < 2 ^ 32)
    (h : crcBit v 0 0 = crcBit w 0 0) : v = w := by
  have htop : ∀ a : Nat, a < 2 ^ 31 → (a ^^^ 0xedb88320).testBit 31 = true := by
    intro a ha
    rw [Nat.testBit_xor, Nat.testBit_lt_two_pow ha]
    decide
  have hlow : ∀ a : Nat, a < 2 ^ 31 → a.testBit 31 = false :=
    fun a ha => Nat.testBit_lt_two_pow ha
  rw [crcBit_zero, crcBit_zero] at h
  split_ifs at h with h1 h2 h2
  · have := Nat.xor_left_injective h
    omega
  · have e := congrArg (fun x => x.testBit 31) h
    simp only [htop (v / 2) (by omega), hlow (w / 2) (by omega)] at e
    exact absurd e (by decide)
  · have e := congrArg (fun x => x.testBit 31) h
    simp only [htop (w / 2) (by omega), hlow (v / 2) (by omega)] at e
    exact absurd e (by decide)
  · omega

theorem iterate_lt (n : Nat) : ∀ v, v < 2 ^ 32 → (fun v => crcBit v 0 0)^[n] v < 2 ^ 32 := by
  induction n with
  | zero => intro v hv; exact hv
  | succ n ih =>
    intro v hv
    rw [Function.iterate_succ_apply]
    exact ih _ (crcBit_zero_lt v hv)

theorem iterate_inj (n : Nat) : ∀ v w, v < 2 ^ 32 → w < 2 ^ 32 →
    (fun v => crcBit v 0 0)^[n] v = (fun v => crcBit v 0 0)^[n] w → v = w := by
  induction n with
  | zero => intro v w _ _ h; exact h
  | succ n ih =>
    intro v w hv hw h
    rw [Function.iterate_succ_apply, Function.iterate_succ_apply] at h
    exact crcBit_zero_inj v w hv hw (ih _ _ (crcBit_zero_lt v hv) (crcBit_zero_lt w hw) h)

theorem xor_byte_lt (c d : Nat) (hc : c < 2 ^ 32) (hd : d < 256) : c ^^^ d < 2 ^ 32 :=
  Nat.xor_lt_two_pow hc (by omega)

theorem crcByte_lt (c d : Nat) (hc : c < 2 ^ 32) (hd : d < 256) : crcByte c d < 2 ^ 32 := by
  rw [crcByte_eq_iterate c d hd]
  exact iterate_lt 8 _ (xor_byte_lt c d hc hd)

/-- Equal registers after one byte come from equal combinations of register and byte. -/
theorem crcByte_inj (c1 c2 d1 d2 : Nat) (h1 : c1 < 2 ^ 32) (h2 : c2 < 2 ^ 32) (hd1 : d1 < 256)
    (hd2 : d2 < 256) (h : crcByte c1 d1 = crcByte c2 d2) : c1 ^^^ d1 = c2 ^^^ d2 := by
  rw [crcByte_eq_iterate c1 d1 hd1, crcByte_eq_iterate c2 d2 hd2] at h
  exact iterate_inj 8 _ _ (xor_byte_lt c1 d1 h1 hd1) (xor_byte_lt c2 d2 h2 hd2) h

theorem crcRun_lt (l : List Nat) : ∀ c, c < 2 ^ 32 → (∀ x ∈ l, x < 256) → crcRun c l < 2 ^ 32 := by
  induction l with
  | nil => intro c hc _; exact hc
  | cons x l ih =>
    intro c hc hl
    exact ih _ (crcByte_lt c x hc (hl x (List.mem_cons_self _ _)))
      (fun y hy => hl y (List.mem_cons_of_mem _ hy))

theorem crcRun_inj (l : List Nat) : ∀ c1 c2, c1 < 2 ^ 32 → c2 < 2 ^ 32 → (∀ x ∈ l, x < 256) →
    crcRun c1 l = crcRun c2 l → c1 = c2 := by
  induction l with
  | nil => intro c1 c2 _ _ _ h; exact h
  | cons x l ih =>
    intro c1 c2 h1 h2 hl h
    have hx := hl x (List.mem_cons_self _ _)
    have h3 := ih _ _ (crcByte_lt c1 x h1 hx) (crcByte_lt c2 x h2 hx)
      (fun y hy => hl y (List.mem_cons_of_mem _ hy)) h
    exact Nat.xor_left_injective (crcByte_inj c1 c2 x x h1 h2 hx hx h3)

/-- Two byte strings that differ in exactly one byte leave different registers. -/
theorem crcRun_single (c : Nat) (hc : c < 2 ^ 32) (l1 l2 : List Nat) (x y : Nat)
    (h1 : ∀ v ∈ l1, v < 256) (h2 : ∀ v ∈ l2, v < 256) (hx : x < 256) (hy : y < 256)
    (hxy : x ≠ y) : crcRun c (l1 ++ x :: l2) ≠ crcRun c (l1 ++ y :: l2) := by
  intro h
  simp only [crcRun, List.foldl_append, List.foldl_cons] at h
  have hc1 : crcRun c l1 < 2 ^ 32 := crcRun_lt l1 c hc h1
  have h3 := crcRun_inj l2 _ _ (crcByte_lt _ x hc1 hx) (crcByte_lt _ y hc1 hy) h2 h
  exact hxy (Nat.xor_right_injective (crcByte_inj _ _ x y hc1 hc1 hx hy h3))

/-- Bit `j` of the byte-swapped register is the bit of the register in the mirrored
byte. -/
theorem byteSwap_testBit (x : Nat) (hx : x < 2 ^ 32) (j : Nat) (hj : j < 32) :
    ((((x &&& 0x000000ff) <<< 24) ||| ((x &&& 0x0000ff00) <<< 8) |||
      ((x &&& 0x00ff0000) >>> 8) ||| (x >>> 24)) % 2 ^ 32).testBit j =
      x.testBit (if j < 8 then j + 24 else if j < 16 then j + 8 else if j < 24 then j - 8
        else j - 24) := by
  have h : ∀ k, 32 ≤ k → x.testBit k = false := by
    intro k hk
    exact Nat.testBit_lt_two_pow (Nat.lt_of_lt_of_le hx (Nat.pow_le_pow_right (by omega) hk))
  have m1 : ∀ k, Nat.testBit 255 k = decide (k < 8) :=
    fun k => Nat.testBit_two_pow_sub_one 8 k
  have m2 : ∀ k, Nat.testBit 65280 k = (decide (8 ≤ k) && decide (k - 8 < 8)) := by
    intro k
    rw [show (65280 : Nat) = 255 <<< 8 by decide, Nat.testBit_shiftLeft, m1]
  have m3 : ∀ k, Nat.testBit 16711680 k = (decide (16 ≤ k) && decide (k - 16 < 8)) := by
    intro k
    rw [show (16711680 : Nat) = 255 <<< 16 by decide, Nat.testBit_shiftLeft, m1]
  rw [Nat.testBit_mod_two_pow]
  interval_cases j <;>
    simp [Nat.testBit_or, Nat.testBit_and, Nat.testBit_shiftLeft,
      Nat.testBit_shiftRight, h, m1, m2, m3]

theorem crcFinish_inj (c1 c2 : Nat) (h1 : c1 < 2 ^ 32) (h2 : c2 < 2 ^ 32)
    (h : crcFinish c1 = crcFinish c2) : c1 = c2 := by
  have hx := Nat.xor_right_injective h
  apply Nat.eq_of_testBit_eq
  intro i
  by_cases hi : i < 32
  · have hj : (if i < 8 then i + 24 else if i < 16 then i + 8 else if i < 24 then i - 8
        else i - 24) < 32 := by split_ifs <;> omega
    have hinv : (if (if i < 8 then i + 24 else if i < 16 then i + 8 else if i < 24 then i - 8
        else i - 24) < 8 then (if i < 8 then i + 24 else if i < 16 then i + 8
          else if i < 24 then i - 8 else i - 24) + 24
        else if (if i < 8 then i + 24 else if i < 16 then i + 8 else if i < 24 then i - 8
          else i - 24) < 16 then (if i < 8 then i + 24 else if i < 16 then i + 8
            else if i < 24 then i - 8 else i - 24) + 8
        else if (if i < 8 then i + 24 else if i < 16 then i + 8 else if i < 24 then i - 8
          else i - 24) < 24 then (if i < 8 then i + 24 else if i < 16 then i + 8
            else if i < 24 then i - 8 else i - 24) - 8
        else (if i < 8 then i + 24 else if i < 16 then i + 8 else if i < 24 then i - 8
          else i - 24) - 24) = i := by
      split_ifs <;> omega
    have e1 := byteSwap_testBit c1 h1 _ hj
    have e2 := byteSwap_testBit c2 h2 _ hj
    rw [hinv] at e1 e2
    rw [← e1, ← e2, hx]
  · have hk : 2 ^ 32 ≤ 2 ^ i := Nat.pow_le_pow_right (by omega) (by omega)
    rw [Nat.testBit_lt_two_pow (Nat.lt_of_lt_of_le h1 hk),
      Nat.testBit_lt_two_pow (Nat.lt_of_lt_of_le h2 hk)]

theorem CRC32_eq_crcRun (bytes : List Nat) (s e : Nat) :
    CRC32 bytes s e =
      crcFinish (crcRun 0xffffffff ((List.range (e + 1 - s)).map (fun n => bytes.getD (s + n) 0))) := by
  simp only [CRC32, crcRun, List.foldl_map]

theorem map_range_getD_mid (p l r : List Nat) (k : Nat) (hk : k = l.length) :
    (List.range k).map (fun n => (p ++ (l ++ r)).getD (p.length + n) 0) = l := by
  have h : ∀ n, (p ++ (l ++ r)).getD (p.length + n) 0 = (l ++ r).getD n 0 := by
    intro n
    rw [List.getD_append_right _ _ _ _ (by omega), Nat.add_sub_cancel_left]
  simp only [h]
  exact map_range_getD_append l r k hk

/-- The checksum the decoder expects for a frame is the checksum of destination, source,
type and payload. -/
theorem CRC32_frame (dst src ety payload trailer : List Nat)
    (h14 : (dst ++ src ++ ety).length = 14) :
    CRC32 (frame dst src ety payload trailer) 8 (21 + payload.length) =
      crcFinish (crcRun 0xffffffff (dst ++ src ++ ety ++ payload)) := by
  have e : frame dst src ety payload trailer =
      [0x55, 0x55, 0x55, 0x55, 0x55, 0x55, 0x55, 0xd5] ++
        ((dst ++ src ++ ety ++ payload) ++ trailer) := by
    simp [frame, List.replicate]
  rw [CRC32_eq_crcRun, e]
  congr 2
  exact map_range_getD_mid [0x55, 0x55, 0x55, 0x55, 0x55, 0x55, 0x55, 0xd5] _ _ _
    (by simp only [List.length_append] at h14 ⊢; omega)

/-- Changing one payload byte of a frame changes the checksum the decoder expects. -/
theorem CRC32_frame_set (dst src payload trailer : List Nat) (k b : Nat)
    (hdst : dst.length = 6) (hsrc : src.length = 6) (hk : k < payload.length)
    (hbytes : ∀ v ∈ dst ++ src ++ payload, v < 256) (hb : b < 256)
    (hne : b ≠ payload.getD k 0) :
    CRC32 (frame dst src [0x08, 0x00] (payload.set k b) trailer) 8 (21 + payload.length) ≠
      CRC32 (frame dst src [0x08, 0x00] payload trailer) 8 (21 + payload.length) := by
  have h14 : (dst ++ src ++ [0x08, 0x00]).length = 14 := by simp [hdst, hsrc]
  have hset : payload.set k b = payload.take k ++ b :: payload.drop (k + 1) := by
    rw [List.set_eq_take_append_cons_drop, if_pos hk]
  have hpay : payload = payload.take k ++ payload.getD k 0 :: payload.drop (k + 1) := by
    rw [List.getD_eq_getElem _ _ hk, ← List.drop_eq_getElem_cons hk, List.take_append_drop]
  have hl1 : ∀ v ∈ dst ++ src ++ [0x08, 0x00] ++ payload.take k, v < 256 := by
    intro v hv
    rcases List.mem_append.1 hv with h | h
    · rcases List.mem_append.1 h with h | h
      · exact hbytes v (List.mem_append_left _ h)
      · simp only [List.mem_cons, List.mem_singleton, List.not_mem_nil, or_false] at h
        rcases h with rfl | rfl <;> omega
    · exact hbytes v (List.mem_append_right _ (List.mem_of_mem_take h))
  have hl2 : ∀ v ∈ payload.drop (k + 1), v < 256 :=
    fun v hv => hbytes v (List.mem_append_right _ (List.mem_of_mem_drop hv))
  have hx : payload.getD k 0 < 256 := by
    rw [List.getD_eq_getElem _ _ hk]
    exact hbytes _ (List.mem_append_right _ (List.getElem_mem hk))
  have e1 := CRC32_frame dst src [0x08, 0x00] (payload.set k b) trailer h14
  rw [List.length_set] at e1
  rw [e1, CRC32_frame dst src [0x08, 0x00] payload trailer h14, hset]
  conv_rhs => rw [hpay]
  rw [← List.append_assoc, ← List.append_assoc]
  intro h
  have hr := crcRun_single 0xffffffff (by norm_num) _ _ b (payload.getD k 0) hl1 hl2 hb hx hne
  exact hr (crcFinish_inj _ _
    (crcRun_lt _ _ (by norm_num) (by
      intro v hv
      rcases List.mem_append.1 hv with h | h
      · exact hl1 v h
      · rcases List.mem_cons.1 h with rfl | h
        · exact hb
        · exact hl2 v h))
    (crcRun_lt _ _ (by norm_num) (by
      intro v hv
      rcases List.mem_append.1 hv with h | h
      · exact hl1 v h
      · rcases List.mem_cons.1 h with rfl | h
        · exact hx
        · exact hl2 v h)) h)

/-- C2: with the standard CRC-32 as checksum function, a well-formed untagged IPv4 frame
ends in a checksum-good segment, and the same frame with one payload byte replaced by a
different byte and the trailer left as it was ends in a checksum-bad segment. -/
theorem corrupted_payload_detected (ext : Externals) (hext : ext.CRC32 = CRC32) (ts : Nat)
    (dst src payload trailer starts ends : List Nat) (k b : Nat)
    (hdst : dst.length = 6) (hsrc : src.length = 6) (hk : k < payload.length)
    (htr : trailer.length = 4) (hbytes : ∀ v ∈ dst ++ src ++ payload ++ trailer, v < 256)
    (hb : b < 256) (hne : b ≠ payload.getD k 0)
    (hlen : (frame dst src [0x08, 0x00] payload trailer).length < 2 ^ 64)
    (hcrc : be32 trailer =
      CRC32 (frame dst src [0x08, 0x00] payload trailer) 8 (21 + payload.length)) :
    (BytesToFrames ext [] (frame dst src [0x08, 0x00] payload trailer) starts ends
        ⟨ts, [], [], []⟩ false).cap.m_samples.getLast? =
      some ⟨SegmentType.TYPE_FCS_GOOD, trailer⟩ ∧
    (BytesToFrames ext [] (frame dst src [0x08, 0x00] (payload.set k b) trailer) starts ends
        ⟨ts, [], [], []⟩ false).cap.m_samples.getLast? =
      some ⟨SegmentType.TYPE_FCS_BAD, trailer⟩ := by
  have hpay : 1 ≤ payload.length := by omega
  have hlen2 : (frame dst src [0x08, 0x00] (payload.set k b) trailer).length < 2 ^ 64 := by
    simpa [frame] using hlen
  have hact : shiftIn 0 trailer = be32 trailer := by
    obtain ⟨x, y, z, w, rfl⟩ := length_eq_four htr
    exact shiftIn_eq_be32 x y z w (fun v hv => hbytes v (List.mem_append_right _ hv))
  have hdiff := CRC32_frame_set dst src payload trailer k b hdst hsrc hk
    (fun v hv => hbytes v (List.mem_append_left _ hv)) hb hne
  rw [frame_ipv4_samples ext [] _ dst src payload trailer starts ends hdst hsrc hpay htr hlen,
    frame_ipv4_samples ext [] _ dst src (payload.set k b) trailer starts ends hdst hsrc
      (by simpa using hpay) htr hlen2,
    List.getLast?_concat, List.getLast?_concat, hext, hact, List.length_set]
  constructor
  · rw [if_neg (fun h => h hcrc)]
  · rw [if_pos (fun h => hdiff (hcrc ▸ h).symm)]

set_option maxRecDepth 100000 in
/-- Witness for C2: the example frame, with its first payload byte `aa` replaced by `ab`. -/
theorem corrupted_payload_detected_witness :
    be32 exTrailer = CRC32 (frame exDst exSrc [0x08, 0x00] exPayload exTrailer) 8
      (21 + exPayload.length) ∧
    (BytesToFrames stdExt [] (frame exDst exSrc [0x08, 0x00] (exPayload.set 0 0xab) exTrailer)
        (exStarts 28) (exEnds 28) ⟨1, [], [], []⟩ false).cap.m_samples.getLast? =
      some ⟨SegmentType.TYPE_FCS_BAD, exTrailer⟩ :=
  ⟨by decide,
    (corrupted_payload_detected stdExt rfl 1 exDst exSrc exPayload exTrailer (exStarts 28)
      (exEnds 28) 0 0xab (by decide) (by decide) (by decide) (by decide) (by decide) (by decide)
      (by decide) (by decide) (by decide)).2⟩

/-! ## Suppressed preamble and checksum -/

theorem step_payload_supp_ne (ext : Externals) (bytes starts ends : List Nat) (i : Nat)
    (s : LoopState) (hs : s.segment.m_type = SegmentType.TYPE_PAYLOAD)
    (hi : i ≠ sub64 bytes.length 1) :
    step ext true bytes starts ends i s = Flow.next (afterPayload bytes starts ends i 0 s) := by
  obtain ⟨⟨ty, d⟩, start, crcstart, ce, ca, pack, cap, pk⟩ := s
  simp only at hs
  subst hs
  simp [-List.getD_eq_getElem?_getD, step, casePayload, afterPayload, pushOffset, pushDuration,
    pushSample, hi, show List.range 1 = [0] from rfl]

theorem step_payload_supp_eq (ext : Externals) (bytes starts ends : List Nat) (i : Nat)
    (s : LoopState) (hs : s.segment.m_type = SegmentType.TYPE_PAYLOAD)
    (hi : i = sub64 bytes.length 1) :
    step ext true bytes starts ends i s =
      Flow.ret (publish ends i (afterPayload bytes starts ends i 0 s)) := by
  obtain ⟨⟨ty, d⟩, start, crcstart, ce, ca, pack, cap, pk⟩ := s
  simp only at hs
  subst hs
  simp [-List.getD_eq_getElem?_getD, step, casePayload, afterPayload, publish, pushOffset,
    pushDuration, pushSample, ← hi, show List.range 1 = [0] from rfl]

/-- Suppressed payload iterations `i, ..., i + m` of which the last is the last byte of the
input publish the packet and return. -/
theorem loop_payload_supp (ext : Externals) (bytes starts ends : List Nat) (m : Nat) :
    ∀ (n i : Nat) (s : LoopState), s.segment.m_type = SegmentType.TYPE_PAYLOAD →
      (∀ j, j < m → i + j ≠ sub64 bytes.length 1) → i + m = sub64 bytes.length 1 →
      loop ext true bytes starts ends (n + (m + 1)) i s =
        Flow.ret (publish ends (i + m) (afterPayload bytes starts ends i m s)) := by
  induction m with
  | zero =>
    intro n i s hs _ he
    rw [Nat.add_zero] at he
    rw [loop_succ, step_payload_supp_eq ext bytes starts ends i s hs he]
    rfl
  | succ m ih =>
    intro n i s hs h he
    have h0 := h 0 (Nat.zero_lt_succ _)
    rw [Nat.add_zero] at h0
    have e : n + (m + 1 + 1) = (n + (m + 1)) + 1 := by omega
    rw [e, loop_succ, step_payload_supp_ne ext bytes starts ends i s hs h0]
    simp only
    rw [ih n (i + 1) _ (afterPayload_type _ _ _ _ _ _), afterPayload_succ]
    · congr 2; omega
    · intro j hj
      have := h (j + 1) (by omega)
      rwa [show i + 1 + j = i + (j + 1) by omega]
    · rw [← he]; omega

/-- A suppressed input of fourteen header bytes whose type field is not the 802.1q tag
type, followed by `m + 1` payload bytes, runs through the fields and returns at the last
byte. -/
theorem loop_suppressed (ext : Externals) (m_packets : List Packet) (bytes starts ends : List Nat)
    (cap : EthernetWaveform) (m : Nat) (hlen : bytes.length = 15 + m) (hlt : bytes.length < 2 ^ 64)
    (hty : word16 [bytes.getD 12 0, bytes.getD 13 0] ≠ 0x8100) :
    loop ext true bytes starts ends bytes.length 0 (initState ext m_packets cap true) =
      Flow.ret (suppressedFinal ext m_packets bytes starts ends cap m) := by
  have e1 : bytes.length = ((((0 + (m + 1)) + 2) + 6) + 6) := by omega
  have hsub : sub64 bytes.length 1 = 14 + m := by
    rw [sub64_of_le _ _ (by omega) hlt]; omega
  rw [e1, loop_dstMac ext true bytes starts ends _ 0 _ rfl,
    loop_srcMac ext true bytes starts ends _ _ _ rfl,
    loop_ethertype ext true bytes starts ends _ _ _ rfl,
    loop_payload_supp ext bytes starts ends m 0 _ _
      (by rw [afterEthertype_segment, if_neg hty])
      (by intro j hj; rw [hsub]; omega) (by rw [hsub])]
  rfl

theorem classify_mapFind (bytes : List Nat) (i : Nat) (d : List Nat) (s : LoopState) (k : String)
    (hk : k ≠ "Ethertype") :
    mapFind (classify bytes i d s).pack.m_headers k = mapFind s.pack.m_headers k := by
  unfold classify
  simp only [setColors, setHeader]
  split_ifs <;> simp only [mapFind_mapSet_ne _ _ _ _ hk]

/-- Facts about the bytes of a suppressed frame with a two-byte type field. -/
theorem bareFrame_facts (a b c d e f a1 b1 c1 d1 e1 f1 t0 t1 : Nat) (payload : List Nat) :
    (bareFrame [a, b, c, d, e, f] [a1, b1, c1, d1, e1, f1] [t0, t1] payload).length =
      14 + payload.length ∧
    six (bareFrame [a, b, c, d, e, f] [a1, b1, c1, d1, e1, f1] [t0, t1] payload) 0 =
      [a, b, c, d, e, f] ∧
    six (bareFrame [a, b, c, d, e, f] [a1, b1, c1, d1, e1, f1] [t0, t1] payload) 6 =
      [a1, b1, c1, d1, e1, f1] ∧
    (bareFrame [a, b, c, d, e, f] [a1, b1, c1, d1, e1, f1] [t0, t1] payload).getD 12 0 = t0 ∧
    (bareFrame [a, b, c, d, e, f] [a1, b1, c1, d1, e1, f1] [t0, t1] payload).getD 13 0 = t1 ∧
    (List.range payload.length).map (fun j =>
      (bareFrame [a, b, c, d, e, f] [a1, b1, c1, d1, e1, f1] [t0, t1] payload).getD (14 + j) 0) =
      payload := by
  refine ⟨?_, ?_, ?_, ?_, ?_, ?_⟩ <;> try (simp [bareFrame, six]; done)
  · simp [bareFrame]; omega
  · have hq : bareFrame [a, b, c, d, e, f] [a1, b1, c1, d1, e1, f1] [t0, t1] payload =
        [a, b, c, d, e, f, a1, b1, c1, d1, e1, f1, t0, t1] ++ (payload ++ []) := by
      simp [bareFrame]
    rw [hq]
    exact map_range_getD_mid [a, b, c, d, e, f, a1, b1, c1, d1, e1, f1, t0, t1] payload []
      payload.length rfl

theorem suppressedFinal_samples (ext : Externals) (m_packets : List Packet)
    (bytes starts ends : List Nat) (cap : EthernetWaveform) (m : Nat) :
    (suppressedFinal ext m_packets bytes starts ends cap m).cap.m_samples =
      cap.m_samples ++
        [⟨SegmentType.TYPE_DST_MAC, six bytes 0⟩,
          ⟨SegmentType.TYPE_SRC_MAC, six bytes 6⟩,
          ⟨SegmentType.TYPE_ETHERTYPE, [bytes.getD 12 0, bytes.getD 13 0]⟩] ++
        (List.range (m + 1)).map
          (fun j => (⟨SegmentType.TYPE_PAYLOAD, [bytes.getD (14 + j) 0]⟩ : EthernetFrameSegment)) := by
  simp [-List.getD_eq_getElem?_getD, suppressedFinal, publish, afterPayload, afterEthertype,
    afterMac, initState, resetSegment, pushSample, pushDuration, pushOffset, classify_cap]

theorem suppressedFinal_packets (ext : Externals) (m_packets : List Packet)
    (bytes starts ends : List Nat) (cap : EthernetWaveform) (m : Nat) :
    (suppressedFinal ext m_packets bytes starts ends cap m).m_packets.map
        (fun p => (mapFind p.m_headers "Dest MAC", mapFind p.m_headers "Src MAC", p.m_data,
          p.m_offset, p.m_len)) =
      m_packets.map (fun p => (mapFind p.m_headers "Dest MAC", mapFind p.m_headers "Src MAC",
          p.m_data, p.m_offset, p.m_len)) ++
        [(some (formatMAC (six bytes 0)), some (formatMAC (six bytes 6)),
          (List.range (m + 1)).map (fun j => bytes.getD (14 + j) 0), ext.newOffset,
          sub64 (ends.getD (14 + m) 0) ext.newOffset)] := by
  have h1 : "Dest MAC" ≠ "Ethertype" := by decide
  have h2 : "Src MAC" ≠ "Ethertype" := by decide
  have h3 : "Dest MAC" ≠ "Src MAC" := by decide
  simp [-List.getD_eq_getElem?_getD, suppressedFinal, publish, afterPayload, afterEthertype,
    afterMac, initState, resetSegment, classify_m_packets, classify_pack,
    classify_mapFind _ _ _ _ _ h1, classify_mapFind _ _ _ _ _ h2, mapFind_mapSet_self,
    mapFind_mapSet_ne _ _ _ _ h3]

/-- C12: with the preamble and checksum suppressed, an input of destination, source, a
type field other than `81 00` and `N >= 1` payload bytes publishes exactly one packet,
finalized at the last input byte, with the payload bytes as data and both addresses in
colon-hex; the emitted segments are exactly destination, source, type and one one-byte
segment per payload byte (`3 + N`, none of them preamble, delimiter or checksum), and the
result does not depend on the checksum function. -/
theorem suppressed_frame_decodes (ext : Externals) (ts : Nat)
    (dst src payload starts ends : List Nat) (e0 e1 : Nat)
    (hdst : dst.length = 6) (hsrc : src.length = 6) (hpay : 1 ≤ payload.length)
    (hbyte : ∀ b ∈ dst ++ src, b < 256) (he0 : e0 < 256) (he1 : e1 < 256)
    (hty : e0 * 256 + e1 ≠ 0x8100)
    (hlen : (bareFrame dst src [e0, e1] payload).length < 2 ^ 64) :
    (BytesToFrames ext [] (bareFrame dst src [e0, e1] payload) starts ends ⟨ts, [], [], []⟩
        true).m_packets.map
          (fun p => (mapFind p.m_headers "Dest MAC", mapFind p.m_headers "Src MAC", p.m_data)) =
      [(some (colonHex dst), some (colonHex src), payload)] ∧
    (BytesToFrames ext [] (bareFrame dst src [e0, e1] payload) starts ends ⟨ts, [], [], []⟩
        true).m_packets.map (fun p => sub64 (ends.getD (13 + payload.length) 0) p.m_offset) =
      (BytesToFrames ext [] (bareFrame dst src [e0, e1] payload) starts ends ⟨ts, [], [], []⟩
        true).m_packets.map Packet.m_len ∧
    (BytesToFrames ext [] (bareFrame dst src [e0, e1] payload) starts ends ⟨ts, [], [], []⟩
        true).cap.m_samples =
      [⟨SegmentType.TYPE_DST_MAC, dst⟩, ⟨SegmentType.TYPE_SRC_MAC, src⟩,
        ⟨SegmentType.TYPE_ETHERTYPE, [e0, e1]⟩] ++
        payload.map (fun b => (⟨SegmentType.TYPE_PAYLOAD, [b]⟩ : EthernetFrameSegment)) ∧
    (BytesToFrames ext [] (bareFrame dst src [e0, e1] payload) starts ends ⟨ts, [], [], []⟩
        true).cap.m_samples.length = 3 + payload.length ∧
    (∀ crc : List Nat → Nat → Nat → Nat,
      BytesToFrames { ext with CRC32 := crc } [] (bareFrame dst src [e0, e1] payload) starts ends
          ⟨ts, [], [], []⟩ true =
        BytesToFrames ext [] (bareFrame dst src [e0, e1] payload) starts ends ⟨ts, [], [], []⟩
          true) := by
  obtain ⟨a, b, c, d, e, f, rfl⟩ := length_eq_six hdst
  obtain ⟨a1, b1, c1, d1, e1', f1, rfl⟩ := length_eq_six hsrc
  obtain ⟨m, hm⟩ : ∃ m, payload.length = m + 1 := ⟨payload.length - 1, by omega⟩
  obtain ⟨hl, hd, hs, h12, h13, hp⟩ :=
    bareFrame_facts a b c d e f a1 b1 c1 d1 e1' f1 e0 e1 payload
  generalize bareFrame [a, b, c, d, e, f] [a1, b1, c1, d1, e1', f1] [e0, e1] payload = bytes at *
  have hl2 : bytes.length = 15 + m := by omega
  have hw : word16 [bytes.getD 12 0, bytes.getD 13 0] ≠ 0x8100 := by
    rw [h12, h13, word16_eq e0 e1 he0 he1]; exact hty
  have hrun : ∀ x : Externals, loop x true bytes starts ends bytes.length 0
      (initState x [] ⟨ts, [], [], []⟩ true) =
      Flow.ret (suppressedFinal x [] bytes starts ends ⟨ts, [], [], []⟩ m) :=
    fun x => loop_suppressed x [] bytes starts ends ⟨ts, [], [], []⟩ m hl2 hlen hw
  have hb1 : ∀ v ∈ [a, b, c, d, e, f], v < 256 :=
    fun v hv => hbyte v (List.mem_append_left _ hv)
  have hb2 : ∀ v ∈ [a1, b1, c1, d1, e1', f1], v < 256 :=
    fun v hv => hbyte v (List.mem_append_right _ hv)
  have hpk := suppressedFinal_packets ext [] bytes starts ends ⟨ts, [], [], []⟩ m
  have hsm := suppressedFinal_samples ext [] bytes starts ends ⟨ts, [], [], []⟩ m
  rw [hm] at hp
  have hpm : (List.range (m + 1)).map
      (fun j => (⟨SegmentType.TYPE_PAYLOAD, [bytes.getD (14 + j) 0]⟩ : EthernetFrameSegment)) =
      payload.map (fun b => (⟨SegmentType.TYPE_PAYLOAD, [b]⟩ : EthernetFrameSegment)) := by
    rw [← hp, List.map_map]
    rfl
  rw [hd, hs, hp, formatMAC_eq_colonHex a b c d e f hb1,
    formatMAC_eq_colonHex a1 b1 c1 d1 e1' f1 hb2] at hpk
  rw [hd, hs, hpm, h12, h13] at hsm
  simp only [BytesToFrames, hrun, Flow.state]
  refine ⟨?_, ?_, ?_, ?_, ?_⟩
  · have := congrArg (List.map (fun t : Option String × Option String × List Nat × Nat × Nat =>
      (t.1, t.2.1, t.2.2.1))) hpk
    simpa [List.map_map, Function.comp_def] using this
  · have h1 := congrArg (List.map (fun t : Option String × Option String × List Nat × Nat × Nat =>
      sub64 (ends.getD (13 + payload.length) 0) t.2.2.2.1)) hpk
    have h2 := congrArg (List.map (fun t : Option String × Option String × List Nat × Nat × Nat =>
      t.2.2.2.2)) hpk
    simp only [List.map_map, Function.comp_def, List.map_nil, List.nil_append, List.map_cons]
      at h1 h2
    rw [h1, h2, hm, show 13 + (m + 1) = 14 + m by omega]
  · simpa using hsm
  · rw [hsm]; simp [hm]; omega
  · intro crc; rfl

set_option maxRecDepth 100000 in
/-- Witness for C12: the example addresses, type IPv4 and the example payload. -/
theorem suppressed_frame_decodes_witness :
    (BytesToFrames stdExt [] (bareFrame exDst exSrc [0x08, 0x00] exPayload) (exStarts 16)
        (exEnds 16) ⟨1, [], [], []⟩ true).m_packets.map
          (fun p => (mapFind p.m_headers "Dest MAC", mapFind p.m_headers "Src MAC", p.m_data)) =
      [(some (colonHex exDst), some (colonHex exSrc), exPayload)] ∧
    (BytesToFrames stdExt [] (bareFrame exDst exSrc [0x08, 0x00] exPayload) (exStarts 16)
        (exEnds 16) ⟨1, [], [], []⟩ true).cap.m_samples.length = 3 + exPayload.length :=
  have h := suppressed_frame_decodes stdExt 1 exDst exSrc exPayload (exStarts 16) (exEnds 16)
    0x08 0x00 (by decide) (by decide) (by decide) (by decide) (by decide) (by decide)
    (by decide) (by decide)
  ⟨h.1, h.2.2.2.1⟩

set_option maxRecDepth 100000 in
/-- C14 (the code at a failing input): a suppressed frame whose first byte starts at time
100 and whose last byte ends at time 228.  The published packet keeps the offset of the
freshly constructed packet (0, or 7 when the constructor leaves 7 there), not 100, and its
length is measured from that value, not the 128 time units from 100 to 228. -/
theorem suppressed_offset_not_set :
    (lateStarts 16).getD 0 0 = 100 ∧ (lateEnds 16).getD 15 0 = 228 ∧
    (BytesToFrames stdExt [] (bareFrame exDst exSrc [0x08, 0x00] exPayload) (lateStarts 16)
        (lateEnds 16) emptyCap true).m_packets.map (fun p => (p.m_offset, p.m_len)) =
      [(0, 228)] ∧
    (BytesToFrames { stdExt with newOffset := 7 } [] (bareFrame exDst exSrc [0x08, 0x00] exPayload)
        (lateStarts 16) (lateEnds 16) emptyCap true).m_packets.map
          (fun p => (p.m_offset, p.m_len)) =
      [(7, 221)] := by
  decide

set_option maxRecDepth 100000 in
/-- C15 (the code at a failing input): the 26-byte frame with no payload whose trailer is
the checksum of destination, source and type.  No packet is published and no checksum
segment is emitted: the four trailer bytes come out as payload segments. -/
theorem empty_payload_not_decoded :
    be32 exTrailerEmpty = CRC32 (frame exDst exSrc [0x08, 0x00] [] exTrailerEmpty) 8 21 ∧
    (frame exDst exSrc [0x08, 0x00] [] exTrailerEmpty).length = 26 ∧
    (BytesToFrames stdExt [] (frame exDst exSrc [0x08, 0x00] [] exTrailerEmpty) (exStarts 26)
        (exEnds 26) emptyCap false).m_packets = [] ∧
    (BytesToFrames stdExt [] (frame exDst exSrc [0x08, 0x00] [] exTrailerEmpty) (exStarts 26)
        (exEnds 26) emptyCap false).cap.m_samples.map EthernetFrameSegment.m_type =
      [SegmentType.TYPE_PREAMBLE, SegmentType.TYPE_SFD, SegmentType.TYPE_DST_MAC,
        SegmentType.TYPE_SRC_MAC, SegmentType.TYPE_ETHERTYPE, SegmentType.TYPE_PAYLOAD,
        SegmentType.TYPE_PAYLOAD, SegmentType.TYPE_PAYLOAD, SegmentType.TYPE_PAYLOAD] := by
  decide

/-! ## Invariants of the loop -/

/-- A property that every iteration carries to the next index, and that every returning
iteration turns into `Q`, holds along the whole loop. -/
theorem loop_invariant (ext : Externals) (supp : Bool) (bytes starts ends : List Nat)
    (P : Nat → LoopState → Prop) (Q : LoopState → Prop)
    (hstep : ∀ i s, i < bytes.length → P i s →
      (∀ s1, step ext supp bytes starts ends i s = Flow.next s1 → P (i + 1) s1) ∧
      (∀ s1, step ext supp bytes starts ends i s = Flow.ret s1 → Q s1)) :
    ∀ (n i : Nat) (s : LoopState), i + n ≤ bytes.length → P i s →
      (∀ s1, loop ext supp bytes starts ends n i s = Flow.next s1 → P (i + n) s1) ∧
      (∀ s1, loop ext supp bytes starts ends n i s = Flow.ret s1 → Q s1) := by
  intro n
  induction n with
  | zero =>
    intro i s _ hP
    refine ⟨fun s1 h => ?_, fun s1 h => ?_⟩
    · cases h; exact hP
    · cases h
  | succ n ih =>
    intro i s hin hP
    obtain ⟨h1, h2⟩ := hstep i s (by omega) hP
    rw [loop_succ]
    cases hs : step ext supp bytes starts ends i s with
    | next s2 =>
      have := ih (i + 1) s2 (by omega) (h1 s2 hs)
      rw [show i + 1 + n = i + (n + 1) by omega] at this
      exact this
    | ret s2 =>
      refine ⟨fun s1 h => ?_, fun s1 h => ?_⟩
      · cases h
      · cases h; exact h2 s2 hs

/-- Each iteration (without suppression) keeps `offsetSet`, and a returning iteration
leaves the packet offset at the start time of the first `0x55`. -/
theorem step_offsetSet (ext : Externals) (bytes starts ends : List Nat) (i : Nat) (s : LoopState)
    (hP : offsetSet bytes starts i s) :
    (∀ s1, step ext false bytes starts ends i s = Flow.next s1 → offsetSet bytes starts (i + 1) s1) ∧
    (∀ s1, step ext false bytes starts ends i s = Flow.ret s1 →
      s1.pack.m_offset = starts.getD (bytes.findIdx (fun b => b == 0x55)) 0) := by
  obtain ⟨⟨ty, d⟩, start, crcstart, ce, ca, pack, cap, pk0⟩ := s
  cases ty <;> simp only [offsetSet] at hP
  case TYPE_INVALID =>
    refine ⟨fun s1 h => ?_, fun s1 h => by cases h⟩
    cases h
    by_cases hb : bytes.getD i 0 = 0x55
    · simp only [caseInvalid, hb, ne_eq, not_true_eq_false, if_false, offsetSet]
      rw [findIdx_eq_of_getD bytes 0x55 i (by decide) hb hP]
    · simp only [caseInvalid, ne_eq, hb, not_false_eq_true, if_true, offsetSet]
      intro j hj
      by_cases hji : j = i
      · subst hji; exact hb
      · exact hP j (by omega)
  case TYPE_PREAMBLE =>
    refine ⟨fun s1 h => ?_, fun s1 h => by cases h⟩
    cases h
    simp only [casePreamble]
    split_ifs <;> exact hP
  case TYPE_DST_MAC =>
    refine ⟨fun s1 h => ?_, fun s1 h => by cases h⟩
    cases h
    simp only [caseDstMac, openField, addByte, closeField, setHeader, resetSegment]
    split_ifs <;> exact hP
  case TYPE_SRC_MAC =>
    refine ⟨fun s1 h => ?_, fun s1 h => by cases h⟩
    cases h
    simp only [caseSrcMac, openField, addByte, closeField, setHeader, resetSegment]
    split_ifs <;> exact hP
  case TYPE_ETHERTYPE =>
    refine ⟨fun s1 h => ?_, fun s1 h => by cases h⟩
    cases h
    simp only [caseEthertype, resetSegment]
    split_ifs
    · simp only [offsetSet, (classify_pack _ _ _ _).1, closeField, addByte, openField]
      split_ifs <;> exact hP
    · simp only [offsetSet, (classify_pack _ _ _ _).1, closeField, addByte, openField]
      split_ifs <;> exact hP
    · simp only [addByte, openField]
      split_ifs <;> exact hP
  case TYPE_VLAN_TAG =>
    refine ⟨fun s1 h => ?_, fun s1 h => by cases h⟩
    cases h
    simp only [caseVlanTag, openField, addByte, closeField, setHeader, resetSegment]
    split_ifs <;> exact hP
  case TYPE_PAYLOAD =>
    by_cases h5 : i = sub64 bytes.length 5
    · rw [step_payload_eq ext bytes starts ends i _ rfl h5]
      refine ⟨fun s1 h => ?_, fun s1 h => by cases h⟩
      cases h; exact hP
    · rw [step_payload_ne ext bytes starts ends i _ rfl h5]
      refine ⟨fun s1 h => ?_, fun s1 h => by cases h⟩
      cases h; exact hP
  case TYPE_FCS_GOOD =>
    simp only [step, caseFcs, addByte, closeField, setColors]
    split_ifs <;>
      refine ⟨fun s1 h => ?_, fun s1 h => ?_⟩ <;> cases h <;> exact hP
  all_goals
    refine ⟨fun s1 h => ?_, fun s1 h => by cases h⟩
    cases h; exact hP

theorem afterFcs_pack (ext : Externals) (bytes starts ends : List Nat) (i : Nat) (s : LoopState) :
    (afterFcs ext bytes starts ends i s).m_packets =
        s.m_packets ++ [(afterFcs ext bytes starts ends i s).pack] ∧
      (afterFcs ext bytes starts ends i s).pack.m_len =
        sub64 (ends.getD (i + 3) 0) (afterFcs ext bytes starts ends i s).pack.m_offset := by
  exact ⟨rfl, rfl⟩

/-- C13: when a call without suppression publishes, it publishes one packet; its offset
is the start time of the first input byte equal to `0x55`, and its length is the end time
of the last input byte minus that offset, computed in 64 bits (the plain difference when
the end time is not before the offset).  Nothing here depends on the checksum. -/
theorem packet_offset_and_length (ext : Externals) (pk : List Packet) (cap : EthernetWaveform)
    (bytes starts ends : List Nat) (hlt : bytes.length < 2 ^ 64)
    (hpub : (BytesToFrames ext pk bytes starts ends cap false).m_packets ≠ pk) :
    ∃ p, (BytesToFrames ext pk bytes starts ends cap false).m_packets = pk ++ [p] ∧
      p.m_offset = starts.getD (bytes.findIdx (fun b => b == 0x55)) 0 ∧
      p.m_len = sub64 (ends.getD (bytes.length - 1) 0)
        (starts.getD (bytes.findIdx (fun b => b == 0x55)) 0) ∧
      (starts.getD (bytes.findIdx (fun b => b == 0x55)) 0 ≤ ends.getD (bytes.length - 1) 0 →
        ends.getD (bytes.length - 1) 0 < 2 ^ 64 →
        p.m_len = ends.getD (bytes.length - 1) 0 -
          starts.getD (bytes.findIdx (fun b => b == 0x55)) 0) := by
  have hinit : beforeChecksum pk bytes 0 (initState ext pk cap false) :=
    ⟨rfl, rfl, fun j hj => by omega⟩
  have hoff : offsetSet bytes starts 0 (initState ext pk cap false) := by
    simp only [offsetSet, initState]
    intro j hj; omega
  rcases loop_beforeChecksum ext pk bytes starts ends hlt bytes.length 0 _ hinit (by omega) with
    ⟨s1, h1, h2⟩ | ⟨s0, h5, hseg, hpk, hca, hcs, hrun⟩
  · exfalso
    apply hpub
    simp only [BytesToFrames, h1, Flow.state, h2]
  · have hQ := (loop_invariant ext false bytes starts ends (offsetSet bytes starts)
      (fun s => s.pack.m_offset = starts.getD (bytes.findIdx (fun b => b == 0x55)) 0)
      (fun i s _ hP => step_offsetSet ext bytes starts ends i s hP)
      bytes.length 0 _ (by omega) hoff).2 _ hrun
    obtain ⟨hp1, hp2⟩ := afterFcs_pack ext bytes starts ends (bytes.length - 4) s0
    simp only at hQ
    rw [hQ, show bytes.length - 4 + 3 = bytes.length - 1 by omega] at hp2
    refine ⟨(afterFcs ext bytes starts ends (bytes.length - 4) s0).pack, ?_, hQ, hp2, ?_⟩
    · simp only [BytesToFrames, hrun, Flow.state]
      rw [hp1, hpk]
    · intro hle hlt2
      rw [hp2, sub64_of_le _ _ hle hlt2]

set_option maxRecDepth 100000 in
/-- Witness for C13: the example frame sampled from time 100 on; its first `0x55` starts
at 100 and its last byte ends at 324. -/
theorem packet_offset_and_length_witness :
    (frame exDst exSrc [0x08, 0x00] exPayload exTrailer).length < 2 ^ 64 ∧
    ∃ p, (BytesToFrames stdExt [] (frame exDst exSrc [0x08, 0x00] exPayload exTrailer)
        (lateStarts 28) (lateEnds 28) emptyCap false).m_packets = [] ++ [p] ∧
      p.m_offset = 100 ∧ p.m_len = 224 :=
  ⟨by decide,
    (packet_offset_and_length stdExt [] emptyCap
      (frame exDst exSrc [0x08, 0x00] exPayload exTrailer) (lateStarts 28) (lateEnds 28)
      (by decide) (by decide)).imp
      (fun _ h => ⟨h.1, h.2.1.trans (by decide), h.2.2.1.trans (by decide)⟩)⟩

/-! ## The Ethertype header -/

theorem lastTypeField_append_type (l : List EthernetFrameSegment) (d : List Nat) :
    lastTypeField (l ++ [⟨SegmentType.TYPE_ETHERTYPE, d⟩]) = some d := by
  simp [lastTypeField, List.filter_append]

theorem lastTypeField_append_other (l : List EthernetFrameSegment) (x : EthernetFrameSegment)
    (hx : x.m_type ≠ SegmentType.TYPE_ETHERTYPE) :
    lastTypeField (l ++ [x]) = lastTypeField l := by
  simp [lastTypeField, List.filter_append, hx]

theorem typeNamed_congr (bytes : List Nat) (l1 l2 : List EthernetFrameSegment) (p q : Packet)
    (j : Nat) (hl : lastTypeField l2 = lastTypeField l1) (hh : q.m_headers = p.m_headers)
    (hd : q.m_data = p.m_data) (h : typeNamed bytes l1 p j) : typeNamed bytes l2 q j := by
  obtain ⟨h1, h2, h3, h4, h5⟩ := h
  exact ⟨h1, hl.trans h2, h3, hh ▸ h4, hd ▸ h5⟩

/-- The header written by the classification, in the words of `ethertypeName`. -/
theorem classify_header (bytes : List Nat) (i b0 b1 : Nat) (h0 : b0 < 256) (h1 : b1 < 256)
    (s : LoopState) :
    mapFind (classify bytes i [b0, b1] s).pack.m_headers "Ethertype" =
      some (if b0 * 256 + b1 = 0x8100 then "802.1q"
        else ethertypeName (b0 * 256 + b1)
          (if i + 1 < bytes.length then some (bytes.getD (i + 1) 0) else none)) := by
  unfold classify
  rw [word16_eq b0 b1 h0 h1]
  simp only [setColors, setHeader, ethertypeName, List.getD_cons_zero, List.getD_cons_succ]
  have hq : (b0 * 256 + b1) / 256 = b0 := by omega
  have hr : (b0 * 256 + b1) % 256 = b1 := by omega
  split_ifs <;>
    simp_all [-List.getD_eq_getElem?_getD, mapFind_mapSet_self, fmt02x_eq_hexPair]

/-- A payload iteration keeps the named type field and makes the byte after it the first
payload byte. -/
theorem payload_typeNamed (bytes starts ends : List Nat) (i : Nat) (s : LoopState)
    (hi : i < bytes.length)
    (h : ∃ j, j + 2 ≤ i ∧
      lastTypeField s.cap.m_samples = some [bytes.getD j 0, bytes.getD (j + 1) 0] ∧
      bytes.getD j 0 * 256 + bytes.getD (j + 1) 0 ≠ 0x8100 ∧
      mapFind s.pack.m_headers "Ethertype" =
        some (ethertypeName (bytes.getD j 0 * 256 + bytes.getD (j + 1) 0)
          (if j + 2 < bytes.length then some (bytes.getD (j + 2) 0) else none)) ∧
      ((s.pack.m_data = [] ∧ i = j + 2) ∨ s.pack.m_data.head? = some (bytes.getD (j + 2) 0))) :
    ∃ j, j + 2 ≤ i ∧ typeNamed bytes (afterPayload bytes starts ends i 0 s).cap.m_samples
      (afterPayload bytes starts ends i 0 s).pack j := by
  obtain ⟨j, hj, hl, hv, hh, hd⟩ := h
  refine ⟨j, hj, by omega, ?_, hv, ?_, ?_⟩
  · simp only [afterPayload, show List.range (0 + 1) = [0] from rfl, List.map_cons, List.map_nil]
    rw [lastTypeField_append_other _ _ (by simp)]
    exact hl
  · rw [if_pos (by omega)] at hh
    exact hh
  · simp only [afterPayload, show List.range (0 + 1) = [0] from rfl, List.map_cons, List.map_nil,
      Nat.add_zero]
    rcases hd with ⟨hd, hij⟩ | hd
    · rw [hd, hij]; rfl
    · cases hm : s.pack.m_data with
      | nil => rw [hm] at hd; simp at hd
      | cons a r => rw [hm] at hd; simpa using hd

/-- Each iteration keeps `typeKnown`, and a returning iteration publishes the packet under
construction with its type field named. -/
theorem step_typeKnown (ext : Externals) (supp : Bool) (pk : List Packet)
    (bytes starts ends : List Nat) (hb : ∀ b ∈ bytes, b < 256) (i : Nat) (s : LoopState)
    (hi : i < bytes.length) (hP : typeKnown pk bytes i s) :
    (∀ s1, step ext supp bytes starts ends i s = Flow.next s1 → typeKnown pk bytes (i + 1) s1) ∧
    (∀ s1, step ext supp bytes starts ends i s = Flow.ret s1 →
      s1.m_packets = pk ++ [s1.pack] ∧ ∃ j, typeNamed bytes s1.cap.m_samples s1.pack j) := by
  have hget : ∀ k, bytes.getD k 0 < 256 := by
    intro k
    rw [List.getD_eq_getElem?_getD]
    by_cases hk : k < bytes.length
    · rw [List.getElem?_eq_getElem hk]
      exact hb _ (List.getElem_mem hk)
    · rw [List.getElem?_eq_none (by omega)]
      simp
  obtain ⟨⟨ty, d⟩, start, crcstart, ce, ca, pack, cap, pk0⟩ := s
  obtain ⟨hpk, hP⟩ := hP
  simp only at hpk
  subst hpk
  cases ty <;> simp only at hP
  case TYPE_INVALID =>
    refine ⟨fun s1 h => ?_, fun s1 h => by cases h⟩
    cases h
    simp only [caseInvalid, typeKnown]
    split_ifs <;> exact ⟨rfl, hP⟩
  case TYPE_PREAMBLE =>
    refine ⟨fun s1 h => ?_, fun s1 h => by cases h⟩
    cases h
    simp only [casePreamble, typeKnown]
    split_ifs <;> exact ⟨rfl, hP⟩
  case TYPE_DST_MAC =>
    refine ⟨fun s1 h => ?_, fun s1 h => by cases h⟩
    cases h
    simp only [caseDstMac, openField, addByte, closeField, setHeader, resetSegment, typeKnown]
    split_ifs <;> exact ⟨rfl, hP⟩
  case TYPE_SRC_MAC =>
    refine ⟨fun s1 h => ?_, fun s1 h => by cases h⟩
    cases h
    simp only [caseSrcMac, openField, addByte, closeField, setHeader, resetSegment, typeKnown]
    split_ifs <;> first | exact ⟨rfl, hP, Or.inl rfl⟩ | exact ⟨rfl, hP⟩
  case TYPE_VLAN_TAG =>
    refine ⟨fun s1 h => ?_, fun s1 h => by cases h⟩
    cases h
    simp only [caseVlanTag, openField, addByte, closeField, setHeader, resetSegment, typeKnown]
    split_ifs <;> first | exact ⟨rfl, hP, Or.inl rfl⟩ | exact ⟨rfl, hP⟩
  case TYPE_ETHERTYPE =>
    refine ⟨fun s1 h => ?_, fun s1 h => by cases h⟩
    cases h
    obtain ⟨hd0, hd⟩ := hP
    rcases hd with hd | ⟨h1i, hd⟩
    · subst hd
      simp only [caseEthertype, openField, addByte, List.isEmpty_nil, if_true, List.nil_append,
        List.length_singleton, OfNat.one_ne_ofNat, if_false, typeKnown]
      exact ⟨trivial, hd0, Or.inr ⟨by omega, by simp⟩⟩
    · subst hd
      have hw : word16 [bytes.getD (i - 1) 0, bytes.getD i 0] =
          bytes.getD (i - 1) 0 * 256 + bytes.getD i 0 := word16_eq _ _ (hget _) (hget _)
      have hhd := fun s => classify_header bytes i _ _ (hget (i - 1)) (hget i) s
      simp only [caseEthertype, openField, addByte, List.isEmpty_cons, Bool.false_eq_true,
        if_false, List.singleton_append, List.length_cons, List.length_nil, if_true, hw,
        resetSegment]
      by_cases hv : bytes.getD (i - 1) 0 * 256 + bytes.getD i 0 = 0x8100
      · rw [if_pos hv]
        exact ⟨classify_m_packets _ _ _ _, (classify_pack _ _ _ _).2.trans hd0⟩
      · rw [if_neg hv]
        refine ⟨classify_m_packets _ _ _ _, i - 1, by omega, ?_, ?_, ?_, ?_⟩
        · simp only [classify_cap, closeField, pushSample, pushDuration]
          rw [lastTypeField_append_type, show i - 1 + 1 = i by omega]
        · rw [show i - 1 + 1 = i by omega]; exact hv
        · simp only
          rw [hhd, if_neg hv, show i - 1 + 1 = i by omega, show i - 1 + 2 = i + 1 by omega]
        · left
          exact ⟨(classify_pack _ _ _ _).2.trans hd0, by omega⟩
  case TYPE_PAYLOAD =>
    obtain ⟨j, hj, hn⟩ := payload_typeNamed bytes starts ends i
      ⟨⟨SegmentType.TYPE_PAYLOAD, d⟩, start, crcstart, ce, ca, pack, cap, pk0⟩ hi hP
    cases supp
    · by_cases h5 : i = sub64 bytes.length 5
      · rw [step_payload_eq ext bytes starts ends i _ rfl h5]
        refine ⟨fun s1 h => ?_, fun s1 h => by cases h⟩
        cases h
        exact ⟨rfl, j, hn⟩
      · rw [step_payload_ne ext bytes starts ends i _ rfl h5]
        refine ⟨fun s1 h => ?_, fun s1 h => by cases h⟩
        cases h
        obtain ⟨h1, h2, h3, h4, h5⟩ := hn
        refine ⟨rfl, j, by omega, h2, h3, ?_, Or.inr h5⟩
        rw [if_pos h1]; exact h4
    · by_cases h1 : i = sub64 bytes.length 1
      · rw [step_payload_supp_eq ext bytes starts ends i _ rfl h1]
        refine ⟨fun s1 h => (by cases h), fun s1 h => ?_⟩
        cases h
        exact ⟨rfl, j, typeNamed_congr bytes _ _ _ _ j rfl rfl rfl hn⟩
      · rw [step_payload_supp_ne ext bytes starts ends i _ rfl h1]
        refine ⟨fun s1 h => ?_, fun s1 h => by cases h⟩
        cases h
        obtain ⟨h1, h2, h3, h4, h5⟩ := hn
        refine ⟨rfl, j, by omega, h2, h3, ?_, Or.inr h5⟩
        rw [if_pos h1]; exact h4
  case TYPE_FCS_GOOD =>
    obtain ⟨j, hn⟩ := hP
    simp only [step, caseFcs, addByte, closeField, setColors, pushOffset, pushSample, pushDuration]
    split_ifs <;>
      refine ⟨fun s1 h => ?_, fun s1 h => ?_⟩ <;> cases h <;>
      first
        | exact ⟨rfl, j, hn⟩
        | exact ⟨rfl, j, typeNamed_congr bytes _ _ _ _ j
            (lastTypeField_append_other _ _ (by simp)) rfl rfl hn⟩
  all_goals
    refine ⟨fun s1 h => ?_, fun s1 h => by cases h⟩
    cases h; exact ⟨rfl, hP⟩

/-- C11: in either mode, every packet a call publishes has its Ethertype header named by
the last type/length field emitted, `b0 = bytes[j]`, `b1 = bytes[j+1]`, and by the input
byte after it (which is the first payload byte of the packet), as `ethertypeName` says;
that field is never the tag type `0x8100`.  The classification itself writes that name
for every value other than `0x8100`, with the following byte taken only when the input
has one; the value 1500 is named "05dc"; and the decoder goes to the tag state exactly
when the value is `0x8100` and to the payload state otherwise. -/
theorem ethertype_header_named (ext : Externals) (pk : List Packet) (cap : EthernetWaveform)
    (bytes starts ends : List Nat) (supp : Bool) (hb : ∀ b ∈ bytes, b < 256) :
    (∀ p ∈ (BytesToFrames ext pk bytes starts ends cap supp).m_packets.drop pk.length,
      ∃ j, typeNamed bytes (BytesToFrames ext pk bytes starts ends cap supp).cap.m_samples p j) ∧
    (∀ (i b0 b1 : Nat) (s : LoopState), b0 < 256 → b1 < 256 → b0 * 256 + b1 ≠ 0x8100 →
      mapFind (classify bytes i [b0, b1] s).pack.m_headers "Ethertype" =
        some (ethertypeName (b0 * 256 + b1)
          (if i + 1 < bytes.length then some (bytes.getD (i + 1) 0) else none))) ∧
    (∀ next, ethertypeName 1500 next = "05dc") ∧
    (∀ (i b0 : Nat) (s : LoopState), s.segment = ⟨SegmentType.TYPE_ETHERTYPE, [b0]⟩ → b0 < 256 →
      (caseEthertype bytes starts ends i s).segment =
        ⟨if b0 * 256 + bytes.getD i 0 = 0x8100 then SegmentType.TYPE_VLAN_TAG
          else SegmentType.TYPE_PAYLOAD, []⟩) := by
  have hget : ∀ k, bytes.getD k 0 < 256 := by
    intro k
    rw [List.getD_eq_getElem?_getD]
    by_cases hk : k < bytes.length
    · rw [List.getElem?_eq_getElem hk]
      exact hb _ (List.getElem_mem hk)
    · rw [List.getElem?_eq_none (by omega)]
      simp
  refine ⟨?_, ?_, ?_, ?_⟩
  · have hinit : typeKnown pk bytes 0 (initState ext pk cap supp) := by
      refine ⟨rfl, ?_⟩
      cases supp <;> rfl
    have hinv := loop_invariant ext supp bytes starts ends (typeKnown pk bytes)
      (fun s => s.m_packets = pk ++ [s.pack] ∧ ∃ j, typeNamed bytes s.cap.m_samples s.pack j)
      (fun i s hi hP => step_typeKnown ext supp pk bytes starts ends hb i s hi hP)
      bytes.length 0 _ (by omega) hinit
    intro p hp
    simp only [BytesToFrames] at hp ⊢
    cases hrun : loop ext supp bytes starts ends bytes.length 0 (initState ext pk cap supp) with
    | next s1 =>
      rw [hrun] at hp
      have h1 := (hinv.1 s1 hrun).1
      simp only [Flow.state, h1, List.drop_length, List.not_mem_nil] at hp
    | ret s1 =>
      rw [hrun] at hp
      obtain ⟨h1, j, h2⟩ := hinv.2 s1 hrun
      simp only [Flow.state, h1, List.drop_left, List.mem_singleton] at hp
      subst hp
      exact ⟨j, h2⟩
  · intro i b0 b1 s h0 h1 hv
    rw [classify_header bytes i b0 b1 h0 h1 s, if_neg hv]
  · intro next
    simp only [ethertypeName, Nat.lt_irrefl, if_false]
    decide
  · intro i b0 s hs h0
    obtain ⟨seg, start, crcstart, ce, ca, pack, cap0, pk0⟩ := s
    simp only at hs
    subst hs
    simp only [caseEthertype, openField, addByte, List.isEmpty_cons, Bool.false_eq_true,
      if_false, List.singleton_append, List.length_cons, List.length_nil, if_true,
      word16_eq b0 _ h0 (hget i), resetSegment]
    split_ifs <;> rfl

set_option maxRecDepth 100000 in
/-- Witness for C11: the example frame, whose only type field is `0x0800`. -/
theorem ethertype_header_named_witness :
    (∀ b ∈ frame exDst exSrc [0x08, 0x00] exPayload exTrailer, b < 256) ∧
    (BytesToFrames stdExt [] (frame exDst exSrc [0x08, 0x00] exPayload exTrailer)
        (exStarts 28) (exEnds 28) emptyCap false).m_packets.map
          (fun p => mapFind p.m_headers "Ethertype") = [some "IPv4"] ∧
    ∀ p ∈ (BytesToFrames stdExt [] (frame exDst exSrc [0x08, 0x00] exPayload exTrailer)
        (exStarts 28) (exEnds 28) emptyCap false).m_packets.drop ([] : List Packet).length,
      ∃ j, typeNamed (frame exDst exSrc [0x08, 0x00] exPayload exTrailer)
        (BytesToFrames stdExt [] (frame exDst exSrc [0x08, 0x00] exPayload exTrailer)
          (exStarts 28) (exEnds 28) emptyCap false).cap.m_samples p j :=
  ⟨by decide, by decide,
    (ethertype_header_named stdExt [] emptyCap
      (frame exDst exSrc [0x08, 0x00] exPayload exTrailer) (exStarts 28) (exEnds 28) false
      (by decide)).1⟩

/-! ## Inputs of flow graph nodes -/

/-- C16: for a declared input index, `GetInputWaveform` returns without fault: the null
pointer when the bound descriptor has a null channel, and otherwise what `GetData` of that
channel gives for the bound stream index. -/
theorem input_waveform_of_bound_descriptor (node : FlowGraphNode) (i : Nat)
    (hi : i < node.m_inputs.length) :
    (∃ d, node.m_inputs[i]? = some d ∧
      (d.m_channel = none → node.GetInputWaveform i = some none) ∧
      (∀ c, d.m_channel = some c → node.GetInputWaveform i = some (c.GetData d.m_stream))) ∧
    node.GetInputWaveform i ≠ none := by
  have hd : node.m_inputs[i]? = some (node.m_inputs[i]) := List.getElem?_eq_getElem hi
  refine ⟨⟨node.m_inputs[i], hd, ?_, ?_⟩, ?_⟩
  · intro hc
    simp [FlowGraphNode.GetInputWaveform, hd, hc]
  · intro c hc
    simp [FlowGraphNode.GetInputWaveform, hd, hc]
  · simp only [FlowGraphNode.GetInputWaveform, hd]
    cases hc : (node.m_inputs[i]).m_channel <;> simp

/-- Witness for C16: a node with an unbound first input and a bound second one. -/
theorem input_waveform_of_bound_descriptor_witness :
    (⟨["a", "b"], [⟨none, 0⟩, ⟨some exScopeChannel, 0⟩]⟩ : FlowGraphNode).GetInputWaveform 0 =
        some none ∧
    (⟨["a", "b"], [⟨none, 0⟩, ⟨some exScopeChannel, 0⟩]⟩ : FlowGraphNode).GetInputWaveform 1 =
        some (some 7) ∧
    (⟨["a", "b"], [⟨none, 0⟩, ⟨some exScopeChannel, 0⟩]⟩ : FlowGraphNode).GetInputWaveform 0 ≠
        none :=
  ⟨rfl, rfl,
    (input_waveform_of_bound_descriptor ⟨["a", "b"], [⟨none, 0⟩, ⟨some exScopeChannel, 0⟩]⟩ 0
      (by decide)).2⟩

/-- C17: each of the three triggers rejects every index other than 0, every stream with
a null channel, and every channel that is not of the trigger's scope, where the edge
trigger reads the owner with `GetInstrument()` and the other two with `GetScope()`; when
`GetScope()` is the owning instrument or null and the trigger has a scope, a channel owned
by another instrument is rejected by these two as well.  Each constructor declares the one
input "din". -/
theorem triggers_reject_foreign_input (m_scope : Option Nat) (i : Nat)
    (stream : StreamDescriptor) :
    ((i ≠ 0 ∨ stream.m_channel = none ∨
        (∃ c, stream.m_channel = some c ∧ c.GetInstrument ≠ m_scope)) →
      EdgeTrigger.ValidateChannel m_scope i stream = false) ∧
    ((i ≠ 0 ∨ stream.m_channel = none ∨
        (∃ c, stream.m_channel = some c ∧ c.GetScope ≠ m_scope)) →
      WindowTrigger.ValidateChannel m_scope i stream = false ∧
      NthEdgeBurstTrigger.ValidateChannel m_scope i stream = false) ∧
    (∀ c, stream.m_channel = some c → m_scope ≠ none →
      (c.GetScope = c.GetInstrument ∨ c.GetScope = none) → c.GetInstrument ≠ m_scope →
      WindowTrigger.ValidateChannel m_scope i stream = false ∧
      NthEdgeBurstTrigger.ValidateChannel m_scope i stream = false) ∧
    (EdgeTrigger.ctor.m_signalNames = ["din"] ∧ EdgeTrigger.ctor.m_inputs.length = 1) ∧
    (WindowTrigger.ctor.m_signalNames = ["din"] ∧ WindowTrigger.ctor.m_inputs.length = 1) ∧
    (NthEdgeBurstTrigger.ctor.m_signalNames = ["din"] ∧
      NthEdgeBurstTrigger.ctor.m_inputs.length = 1) := by
  obtain ⟨ch, m_stream⟩ := stream
  have hwn : ∀ c, ch = some c → c.GetScope ≠ m_scope →
      WindowTrigger.ValidateChannel m_scope i ⟨ch, m_stream⟩ = false ∧
      NthEdgeBurstTrigger.ValidateChannel m_scope i ⟨ch, m_stream⟩ = false := by
    intro c hc hne
    subst hc
    obtain ⟨o, di, dio, gi, gs, gt, gd⟩ := c
    simp only at hne
    simp only [WindowTrigger.ValidateChannel, NthEdgeBurstTrigger.ValidateChannel,
      asOscilloscopeChannel, Option.filter]
    by_cases hi : i > 0
    · simp [hi]
    · cases o <;> simp [hi, hne]
  refine ⟨?_, ?_, ?_, ⟨rfl, rfl⟩, ⟨rfl, rfl⟩, ⟨rfl, rfl⟩⟩
  · rintro (hi | hc | ⟨c, hc, hne⟩)
    · simp [EdgeTrigger.ValidateChannel, Nat.pos_of_ne_zero hi]
    · simp only at hc
      subst hc
      simp [EdgeTrigger.ValidateChannel]
    · simp only at hc
      subst hc
      simp only [EdgeTrigger.ValidateChannel]
      split_ifs <;> rfl
  · rintro (hi | hc | ⟨c, hc, hne⟩)
    · simp [WindowTrigger.ValidateChannel, NthEdgeBurstTrigger.ValidateChannel,
        Nat.pos_of_ne_zero hi]
    · simp only at hc
      subst hc
      simp [WindowTrigger.ValidateChannel, NthEdgeBurstTrigger.ValidateChannel,
        asOscilloscopeChannel]
    · exact hwn c hc hne
  · intro c hc hs hlink hne
    apply hwn c hc
    rcases hlink with h | h
    · rw [h]; exact hne
    · rw [h]; exact fun e => hs e.symm

/-- Counterexample to C18: a channel that is neither an oscilloscope channel nor a digital
input nor a digital I/O channel (an RF generator channel) is rejected by the edge trigger
although it belongs to the trigger's instrument. -/
theorem edge_rejects_generator_channel :
    exGeneratorChannel.GetInstrument = some 1 ∧
    EdgeTrigger.ValidateChannel (some 1) 0 ⟨some exGeneratorChannel, 0⟩ = false := by
  decide

/-- C18, amended: for a channel of the trigger's instrument, the edge trigger accepts
index 0 exactly when the channel is an oscilloscope channel, a digital input channel or a
digital I/O channel. -/
theorem edge_accepts_scope_and_digital_inputs (m_scope : Option Nat) (c : Channel)
    (m_stream : Nat) (hown : c.GetInstrument = m_scope) :
    EdgeTrigger.ValidateChannel m_scope 0 ⟨some c, m_stream⟩ =
      (c.isOscilloscopeChannel || c.isDigitalInputChannel || c.isDigitalIOChannel) := by
  obtain ⟨o, di, dio, gi, gs, gt, gd⟩ := c
  simp only at hown
  subst hown
  simp only [EdgeTrigger.ValidateChannel, asOscilloscopeChannel, asDigitalInputChannel,
    asDigitalIOChannel, Option.filter]
  cases o <;> cases di <;> cases dio <;> simp

/-- Witness for the amended C18: an oscilloscope channel of the trigger's instrument. -/
theorem edge_accepts_scope_and_digital_inputs_witness :
    exScopeChannel.GetInstrument = some 1 ∧
    EdgeTrigger.ValidateChannel (some 1) 0 ⟨some exScopeChannel, 0⟩ = true :=
  ⟨rfl, edge_accepts_scope_and_digital_inputs (some 1) exScopeChannel 0 rfl⟩

/-- C19: the window trigger accepts exactly index 0 with an oscilloscope channel whose
scope is the trigger's scope and whose stream is analog or external trigger; every stream
of another type, digital ones among them, is rejected; and whatever the window trigger
accepts the Nth-edge-burst trigger of the same scope accepts. -/
theorem window_accepts_iff (m_scope : Option Nat) (i : Nat) (stream : StreamDescriptor) :
    (WindowTrigger.ValidateChannel m_scope i stream = true ↔
      i = 0 ∧ (∃ c, stream.m_channel = some c ∧ c.isOscilloscopeChannel = true ∧
        c.GetScope = m_scope) ∧
      (stream.GetType = StreamType.STREAM_TYPE_ANALOG ∨
        stream.GetType = StreamType.STREAM_TYPE_TRIGGER)) ∧
    (stream.GetType = StreamType.STREAM_TYPE_DIGITAL ∨
        stream.GetType = StreamType.STREAM_TYPE_DIGITAL_BUS →
      WindowTrigger.ValidateChannel m_scope i stream = false) ∧
    (WindowTrigger.ValidateChannel m_scope i stream = true →
      NthEdgeBurstTrigger.ValidateChannel m_scope i stream = true) := by
  obtain ⟨ch, m_stream⟩ := stream
  have key : WindowTrigger.ValidateChannel m_scope i ⟨ch, m_stream⟩ = true ↔
      i = 0 ∧ (∃ c, ch = some c ∧ c.isOscilloscopeChannel = true ∧ c.GetScope = m_scope) ∧
      ((⟨ch, m_stream⟩ : StreamDescriptor).GetType = StreamType.STREAM_TYPE_ANALOG ∨
        (⟨ch, m_stream⟩ : StreamDescriptor).GetType = StreamType.STREAM_TYPE_TRIGGER) := by
    simp only [WindowTrigger.ValidateChannel, asOscilloscopeChannel]
    by_cases hi : i > 0
    · simp [hi]; omega
    · have hi0 : i = 0 := by omega
      cases ch with
      | none => simp [hi0]
      | some c =>
        cases ho : c.isOscilloscopeChannel
        · simp [Option.filter, ho, hi0]
        · by_cases hs : c.GetScope = m_scope
          · by_cases ht : (⟨some c, m_stream⟩ : StreamDescriptor).GetType =
                StreamType.STREAM_TYPE_ANALOG
            · simp [Option.filter, ho, hi0, hs, ht]
            · by_cases ht2 : (⟨some c, m_stream⟩ : StreamDescriptor).GetType =
                  StreamType.STREAM_TYPE_TRIGGER
              · simp [Option.filter, ho, hi0, hs, ht2]
              · simp [Option.filter, ho, hi0, hs, ht, ht2]
          · simp [Option.filter, ho, hi0, hs]
  refine ⟨key, ?_, ?_⟩
  · intro hd
    cases hv : WindowTrigger.ValidateChannel m_scope i ⟨ch, m_stream⟩
    · rfl
    · obtain ⟨_, _, ht⟩ := key.1 hv
      rcases hd with hd | hd <;> rcases ht with ht | ht <;> rw [hd] at ht <;> cases ht
  · intro hv
    obtain ⟨hi0, ⟨c, hc, ho, hs⟩, _⟩ := key.1 hv
    subst hc
    simp [NthEdgeBurstTrigger.ValidateChannel, asOscilloscopeChannel, Option.filter, ho, hi0, hs]

/-- C20: the Ethernet decoder accepts exactly index 0 with a non-null channel and an
analog stream; it rejects the null descriptor although `GetType` reports analog for it;
and it agrees with `RMSMeasurement::ValidateChannel` on every index and stream. -/
theorem ethernet_validate_iff (i : Nat) (stream : StreamDescriptor) :
    (EthernetProtocolDecoder.ValidateChannel i stream = true ↔
      stream.m_channel ≠ none ∧ i = 0 ∧ stream.GetType = StreamType.STREAM_TYPE_ANALOG) ∧
    ((⟨none, stream.m_stream⟩ : StreamDescriptor).GetType = StreamType.STREAM_TYPE_ANALOG ∧
      EthernetProtocolDecoder.ValidateChannel i ⟨none, stream.m_stream⟩ = false) ∧
    EthernetProtocolDecoder.ValidateChannel i stream = RMSMeasurement.ValidateChannel i stream := by
  obtain ⟨ch, m_stream⟩ := stream
  refine ⟨?_, ⟨rfl, rfl⟩, ?_⟩
  · cases ch with
    | none => simp [EthernetProtocolDecoder.ValidateChannel]
    | some c => simp [EthernetProtocolDecoder.ValidateChannel]
  · cases ch with
    | none => rfl
    | some c =>
      simp only [EthernetProtocolDecoder.ValidateChannel, RMSMeasurement.ValidateChannel,
        Option.isNone_some, Bool.false_eq_true, if_false]
      by_cases hi : i = 0
      · subst hi; simp
      · have : i > 0 := Nat.pos_of_ne_zero hi
        simp [hi, this]

/-! ## Pattern names of the bit error rate tester -/

/-- C23: each of the ten patterns is given back by `GetPatternOfName` from its name, so
the ten names are pairwise distinct; a string that is none of the ten names maps to
`PATTERN_PRBS7`, and so does "invalid", the name of every out-of-range value. -/
theorem pattern_names_round_trip :
    (∀ p ∈ tenPatterns, BERT.GetPatternOfName (BERT.GetPatternName p) = p) ∧
    (tenPatterns.map BERT.GetPatternName).Nodup ∧
    (∀ name, name ∉ tenPatterns.map BERT.GetPatternName →
      BERT.GetPatternOfName name = Pattern.PATTERN_PRBS7) ∧
    (∀ v, BERT.GetPatternName (Pattern.outOfRange v) = "invalid" ∧
      BERT.GetPatternOfName (BERT.GetPatternName (Pattern.outOfRange v)) =
        Pattern.PATTERN_PRBS7) ∧
    (∀ p, p ∈ tenPatterns ↔ ∀ v, p ≠ Pattern.outOfRange v) := by
  refine ⟨by decide, by decide, ?_, fun _ => ⟨rfl, (by decide : BERT.GetPatternOfName "invalid" = Pattern.PATTERN_PRBS7)⟩, ?_⟩
  · intro name hn
    simp only [tenPatterns, BERT.GetPatternName, List.map_cons, List.map_nil, List.mem_cons,
      List.mem_singleton, List.not_mem_nil, or_false, not_or] at hn
    obtain ⟨h1, h2, h3, h4, h5, h6, h7, h8, h9, h10⟩ := hn
    simp only [BERT.GetPatternOfName, h1, h2, h3, h4, h5, h6, h7, h8, h9, h10, if_false]
  · intro p
    cases p <;> simp [tenPatterns]

/-! ## Saved configuration of the bit error rate tester -/

/-- C30 (the code at a failing input): a tester with integration length 1000000 and
reference clock output selector 2 is serialized and the result loaded.  The saved node
holds `refclkOut.muxsel = 2`, but the load calls `SetRefclkOutMux(1000000)`: it passes the
saved integration length, not the saved selector. -/
theorem load_sets_mux_to_integration_length :
    exBert.GetRefclkOutMux = 2 ∧ exBert.GetBERIntegrationLength = 1000000 ∧
    (((exBert.DoSerializeConfiguration Yaml.undefined).get "refclkOut").get "muxsel").asNat =
      some 2 ∧
    (exBert.DoLoadConfiguration (exBert.DoSerializeConfiguration Yaml.undefined)).map
        (fun calls => calls.take 4) =
      some [Call.SetGlobalCustomPattern 0xff00, Call.SetBERIntegrationLength 1000000,
        Call.SetRefclkOutMux 1000000, Call.SetUseExternalRefclk true] := by
  refine ⟨rfl, rfl, rfl, ?_⟩
  rfl

/-- C21: `Refresh` returns without fault and leaves null on output stream 0 whenever the
data input or the enable input is unbound, and whenever the data input has no waveform or
one that is not uniform analog.  The mode and the previous output are arbitrary. -/
theorem gate_publishes_null (setup : Waveform → Option Waveform → Waveform) (f : GateFilter)
    (h : f.GetInput 0 = none ∨ f.GetInput 1 = none ∨
      (∃ d, f.GetInput 0 = some d ∧
        (d.GetData = none ∨ ∃ w, d.GetData = some w ∧ w.isUniformAnalog = false))) :
    GateFilter.Refresh setup f = some { f with out := none } := by
  unfold GateFilter.Refresh
  rcases h with h | h | ⟨d, h, hw⟩
  · simp [h, GateFilter.SetData]
  · simp [h, GateFilter.SetData]
  · cases he : f.GetInput 1 with
    | none => simp [GateFilter.SetData]
    | some e =>
      rcases hw with hw | ⟨w, hw, hu⟩
      · simp [h, hw, asUniformAnalogWaveform, GateFilter.SetData]
      · simp [h, hw, hu, asUniformAnalogWaveform, Option.filter, GateFilter.SetData]

/-- Witness for C21: a filter in latch mode that holds a waveform from before and whose
inputs are unbound. -/
theorem gate_publishes_null_witness :
    ({ GateFilter.ctor with out := some exWaveform } : GateFilter).GetInput 0 = none ∧
    GateFilter.Refresh exSetup { GateFilter.ctor with out := some exWaveform } =
      some GateFilter.ctor :=
  ⟨rfl, gate_publishes_null exSetup { GateFilter.ctor with out := some exWaveform }
    (Or.inl rfl)⟩

/-- C22: with both inputs bound and a uniform analog waveform on the data input, a zero
enable scalar gives null in gate mode and leaves the filter as it was in latch mode; a
non-zero enable scalar gives, in either mode, an output waveform with the samples,
timescale, start timestamp, start femtoseconds, trigger phase and flags of the input.  A
new filter is in latch mode. -/
theorem gate_or_latch (setup : Waveform → Option Waveform → Waveform) (f : GateFilter)
    (d e : BoundStream) (w : Waveform) (hd : f.GetInput 0 = some d) (he : f.GetInput 1 = some e)
    (hw : d.GetData = some w) (hu : w.isUniformAnalog = true) :
    (e.GetScalarValue = 0 → f.mode = GateMode.MODE_GATE →
      GateFilter.Refresh setup f = some { f with out := none }) ∧
    (e.GetScalarValue = 0 → f.mode = GateMode.MODE_LATCH →
      GateFilter.Refresh setup f = some f) ∧
    (e.GetScalarValue ≠ 0 →
      ∃ cap, GateFilter.Refresh setup f = some { f with out := some cap } ∧
        cap.m_samples = w.m_samples ∧ cap.m_timescale = w.m_timescale ∧
        cap.m_startTimestamp = w.m_startTimestamp ∧
        cap.m_startFemtoseconds = w.m_startFemtoseconds ∧
        cap.m_triggerPhase = w.m_triggerPhase ∧ cap.m_flags = w.m_flags) ∧
    GateFilter.ctor.mode = GateMode.MODE_LATCH := by
  have hu1 : asUniformAnalogWaveform (some w) = some w := by
    simp [asUniformAnalogWaveform, Option.filter, hu]
  refine ⟨?_, ?_, ?_, rfl⟩
  · intro h0 hm
    simp [GateFilter.Refresh, hd, he, hw, hu1, h0, hm, GateFilter.SetData]
  · intro h0 hm
    simp [GateFilter.Refresh, hd, he, hw, hu1, h0, hm]
  · intro h1
    refine ⟨{ setup w f.out with
      m_timescale := w.m_timescale
      m_startTimestamp := w.m_startTimestamp
      m_startFemtoseconds := w.m_startFemtoseconds
      m_triggerPhase := w.m_triggerPhase
      m_flags := w.m_flags
      m_revision := (setup w f.out).m_revision + 1
      m_samples := w.m_samples }, ?_, rfl, rfl, rfl, rfl, rfl, rfl⟩
    simp only [GateFilter.Refresh, hd, he, hw, hu1, h1, Option.isNone_some, Bool.or_self,
      Bool.false_eq_true, if_false, Option.some_bind]

/-- Witness for C22: a filter in latch mode with the example waveform on its data input
and enable scalar 1. -/
theorem gate_or_latch_witness :
    GateFilter.ctor.mode = GateMode.MODE_LATCH ∧
    ∃ cap, GateFilter.Refresh exSetup
        { GateFilter.ctor with m_inputs := [some ⟨some exWaveform, 0⟩, some ⟨none, 1⟩] } =
        some { GateFilter.ctor with
          m_inputs := [some ⟨some exWaveform, 0⟩, some ⟨none, 1⟩], out := some cap } ∧
      cap.m_samples = [1, 2, 3] :=
  have h := (gate_or_latch exSetup
    { GateFilter.ctor with m_inputs := [some ⟨some exWaveform, 0⟩, some ⟨none, 1⟩] }
    ⟨some exWaveform, 0⟩ ⟨none, 1⟩ exWaveform rfl rfl rfl rfl).2.2.1 (by decide)
  ⟨rfl, h.imp (fun _ hc => ⟨hc.1, hc.2.1⟩)⟩

/-! ## The RMS measurement -/

/-- The loop on five samples with timescale 1 and zero crossings at 0, 1, 2, 3, 4, in any
division ring and for any square root function. -/
theorem trend_five {α : Type} [DivisionRing α] (sqrt : α → α) (a b c d e : α) :
    (RMSMeasurement.trend sqrt [a, b, c, d, e] 1 [0, 1, 2, 3, 4]).m_samples =
      [sqrt ((0 + a * a + b * b + c * c) / ((2 : Int) : α)),
        sqrt ((sqrt ((0 + a * a + b * b + c * c) / ((2 : Int) : α)) + c * c + d * d + e * e) /
          ((2 : Int) : α))] ∧
    (RMSMeasurement.trend sqrt [a, b, c, d, e] 1 [0, 1, 2, 3, 4]).m_durations = [2, 2] ∧
    (RMSMeasurement.trend sqrt [a, b, c, d, e] 1 [0, 1, 2, 3, 4]).m_offsets = [0, 2] ∧
    cycleSamples [a, b, c, d, e] 1 [0, 1, 2, 3, 4] 0 = [a, b, c] ∧
    cycleSamples [a, b, c, d, e] 1 [0, 1, 2, 3, 4] 1 = [c, d, e] :=
  ⟨rfl, rfl, rfl, rfl, rfl⟩

theorem sqrt_nine : Real.sqrt 9 = 3 := by
  rw [show (9 : ℝ) = 3 ^ 2 by norm_num, Real.sqrt_sq (by norm_num)]

theorem sqrt_sixteen : Real.sqrt 16 = 4 := by
  rw [show (16 : ℝ) = 4 ^ 2 by norm_num, Real.sqrt_sq (by norm_num)]

/-- C26 (the code at a failing input): samples 1, 1, 4, 2, 3 with timescale 1 and zero
crossings at 0, 1, 2, 3, 4, over the exact reals.  Each cycle has three samples, with sums
of squares 18 and 29, so the claim gives the square roots of 6 and of 29/3.  The loop
pushes 3 and 4: it divides by `delta = 2`, one less than the number of samples summed, and
the second cycle starts from the first result 3 instead of 0. -/
theorem trend_mixes_cycles :
    (RMSMeasurement.trend Real.sqrt [1, 1, 4, 2, 3] 1 [0, 1, 2, 3, 4]).m_samples = [3, 4] ∧
    (RMSMeasurement.trend Real.sqrt [1, 1, 4, 2, 3] 1 [0, 1, 2, 3, 4]).m_durations = [2, 2] ∧
    (cycleSamples [(1 : ℝ), 1, 4, 2, 3] 1 [0, 1, 2, 3, 4] 0).length = 3 ∧
    (cycleSamples [(1 : ℝ), 1, 4, 2, 3] 1 [0, 1, 2, 3, 4] 1).length = 3 ∧
    cycleRMS Real.sqrt [1, 1, 4, 2, 3] 1 [0, 1, 2, 3, 4] 0 = Real.sqrt 6 ∧
    cycleRMS Real.sqrt [1, 1, 4, 2, 3] 1 [0, 1, 2, 3, 4] 1 = Real.sqrt (29 / 3) ∧
    (3 : ℝ) ≠ Real.sqrt 6 ∧ (4 : ℝ) ≠ Real.sqrt (29 / 3) := by
  obtain ⟨h1, h2, _, h4, h5⟩ := trend_five Real.sqrt 1 1 4 2 3
  have e1 : ((0 : ℝ) + 1 * 1 + 1 * 1 + 4 * 4) / ((2 : Int) : ℝ) = 9 := by norm_num
  have e2 : ((3 : ℝ) + 4 * 4 + 2 * 2 + 3 * 3) / ((2 : Int) : ℝ) = 16 := by norm_num
  refine ⟨?_, h2, ?_, ?_, ?_, ?_, ?_, ?_⟩
  · rw [h1, e1, sqrt_nine, e2, sqrt_sixteen]
  · rw [h4]; rfl
  · rw [h5]; rfl
  · unfold cycleRMS
    rw [h4]
    norm_num
  · unfold cycleRMS
    rw [h5]
    norm_num
  · intro h
    have h6 : Real.sqrt 6 * Real.sqrt 6 = 6 := Real.mul_self_sqrt (by norm_num)
    rw [← h] at h6
    norm_num at h6
  · intro h
    have h6 : Real.sqrt (29 / 3) * Real.sqrt (29 / 3) = 29 / 3 := Real.mul_self_sqrt (by norm_num)
    rw [← h] at h6
    norm_num at h6

/-! ## Shape of the decoder output -/

/-- A property that every iteration carries to the next index, and that every returning
iteration at index `j` turns into `Q j`, holds along the whole loop. -/
theorem loop_invariant_at (ext : Externals) (supp : Bool) (bytes starts ends : List Nat)
    (P Q : Nat → LoopState → Prop)
    (hstep : ∀ i s, i < bytes.length → P i s →
      (∀ s1, step ext supp bytes starts ends i s = Flow.next s1 → P (i + 1) s1) ∧
      (∀ s1, step ext supp bytes starts ends i s = Flow.ret s1 → Q i s1)) :
    ∀ (n i : Nat) (s : LoopState), i + n ≤ bytes.length → P i s →
      (∀ s1, loop ext supp bytes starts ends n i s = Flow.next s1 → P (i + n) s1) ∧
      (∀ s1, loop ext supp bytes starts ends n i s = Flow.ret s1 →
        ∃ j, i ≤ j ∧ j < i + n ∧ Q j s1) := by
  intro n
  induction n with
  | zero =>
    intro i s _ hP
    refine ⟨fun s1 h => ?_, fun s1 h => ?_⟩
    · cases h; exact hP
    · cases h
  | succ n ih =>
    intro i s hin hP
    obtain ⟨h1, h2⟩ := hstep i s (by omega) hP
    rw [loop_succ]
    cases hs : step ext supp bytes starts ends i s with
    | next s2 =>
      obtain ⟨a, b⟩ := ih (i + 1) s2 (by omega) (h1 s2 hs)
      refine ⟨fun s1 h => ?_, fun s1 h => ?_⟩
      · have := a s1 h
        rw [show i + 1 + n = i + (n + 1) by omega] at this
        exact this
      · obtain ⟨j, hj1, hj2, hq⟩ := b s1 h
        exact ⟨j, by omega, by omega, hq⟩
    | ret s2 =>
      refine ⟨fun s1 h => ?_, fun s1 h => ?_⟩
      · cases h
      · cases h
        exact ⟨i, le_refl i, by omega, h2 s2 hs⟩

/-- The loop over `n + m` iterations is the loop over `n` followed by the loop over `m`. -/
theorem loop_add (ext : Externals) (supp : Bool) (bytes starts ends : List Nat) (m : Nat) :
    ∀ (n i : Nat) (s : LoopState),
      loop ext supp bytes starts ends (n + m) i s =
        match loop ext supp bytes starts ends n i s with
        | Flow.next s1 => loop ext supp bytes starts ends m (i + n) s1
        | Flow.ret s1 => Flow.ret s1 := by
  intro n
  induction n with
  | zero => intro i s; simp [loop]
  | succ n ih =>
    intro i s
    rw [show n + 1 + m = (n + m) + 1 by omega, loop_succ, loop_succ]
    cases hs : step ext supp bytes starts ends i s with
    | next s2 =>
      simp only
      rw [ih (i + 1) s2, show i + 1 + n = i + (n + 1) by omega]
    | ret s2 => rfl

theorem sub64_one (len i : Nat) (hi : i < len) (hlt : len < 2 ^ 64) :
    i = sub64 len 1 ↔ i + 1 = len := by
  unfold sub64
  have : len + 2 ^ 64 - 1 = (len - 1) + 2 ^ 64 := by omega
  rw [this, Nat.add_mod_right, Nat.mod_eq_of_lt (by omega)]
  omega

theorem filter_isFcs_of_none (app : List EthernetFrameSegment)
    (h : ∀ x ∈ app, segmentOk x ∧ isFcs x = false) : app.filter isFcs = [] := by
  rw [List.filter_eq_nil_iff]
  intro x hx
  rw [(h x hx).2]
  exact Bool.false_ne_true

theorem openField_segment (starts : List Nat) (i : Nat) (s : LoopState) :
    (openField starts i s).segment = s.segment := by
  unfold openField
  split_ifs <;> rfl

/-- Each iteration keeps `wellFormed`, and a returning iteration gives `publishedAt`. -/
theorem step_wellFormed (ext : Externals) (supp : Bool) (pk : List Packet)
    (samples0 : List EthernetFrameSegment) (bytes starts ends : List Nat)
    (hlt : bytes.length < 2 ^ 64) (i : Nat) (s : LoopState) (hi : i < bytes.length)
    (hP : wellFormed pk samples0 bytes.length i s) :
    (∀ s1, step ext supp bytes starts ends i s = Flow.next s1 →
      wellFormed pk samples0 bytes.length (i + 1) s1) ∧
    (∀ s1, step ext supp bytes starts ends i s = Flow.ret s1 →
      publishedAt pk samples0 bytes.length i s1) := by
  obtain ⟨⟨ty, d⟩, start, crcstart, ce, ca, pack, cap, pk0⟩ := s
  obtain ⟨hpk, ⟨app, happ, hok⟩, hseg⟩ := hP
  simp only at hpk happ
  subst hpk
  have push1 : ∀ x, segmentOk x → isFcs x = false →
      ∃ app1, cap.m_samples ++ [x] = samples0 ++ app1 ∧
        ∀ y ∈ app1, segmentOk y ∧ isFcs y = false := by
    intro x hx hf
    refine ⟨app ++ [x], by rw [happ, List.append_assoc], ?_⟩
    intro y hy
    rcases List.mem_append.1 hy with hy | hy
    · exact hok y hy
    · rw [List.mem_singleton] at hy; subst hy; exact ⟨hx, hf⟩
  cases ty <;> simp only at hseg
  case TYPE_INVALID =>
    refine ⟨fun s1 h => ?_, fun s1 h => by cases h⟩
    cases h
    simp only [caseInvalid, wellFormed]
    split_ifs
    · exact ⟨rfl, ⟨app, happ, hok⟩, trivial⟩
    · exact ⟨rfl, ⟨app, happ, hok⟩, by simp, by simp⟩
  case TYPE_PREAMBLE =>
    refine ⟨fun s1 h => ?_, fun s1 h => by cases h⟩
    cases h
    simp only [casePreamble, wellFormed, pushSample, pushDuration, pushOffset]
    split_ifs
    · refine ⟨rfl, ⟨app ++ [⟨SegmentType.TYPE_PREAMBLE, d⟩, ⟨SegmentType.TYPE_SFD, [0xd5]⟩],
        by rw [happ]; simp, ?_⟩, by simp⟩
      intro y hy
      simp only [List.mem_append, List.mem_cons, List.mem_singleton, List.not_mem_nil,
        or_false] at hy
      rcases hy with hy | rfl | rfl
      · exact hok y hy
      · exact ⟨hseg, rfl⟩
      · exact ⟨rfl, rfl⟩
    · refine ⟨rfl, ⟨app, happ, hok⟩, by simp, ?_⟩
      intro b hb
      rcases List.mem_append.1 hb with hb | hb
      · exact hseg.2 b hb
      · simpa using hb
    · exact ⟨rfl, ⟨app, happ, hok⟩, hseg⟩
  case TYPE_DST_MAC =>
    refine ⟨fun s1 h => ?_, fun s1 h => by cases h⟩
    cases h
    simp only [caseDstMac, openField, addByte, closeField, setHeader, resetSegment, wellFormed,
      pushSample, pushDuration, pushOffset]
    split_ifs with h1 h2 h2
    all_goals simp only [List.length_append, List.length_singleton] at h2 ⊢
    · exact ⟨trivial, push1 _ (by simpa [segmentOk] using h2) rfl, by simp⟩
    · exact ⟨trivial, ⟨app, happ, hok⟩, by omega⟩
    · exact ⟨trivial, push1 _ (by simpa [segmentOk] using h2) rfl, by simp⟩
    · exact ⟨trivial, ⟨app, happ, hok⟩, by omega⟩
  case TYPE_SRC_MAC =>
    refine ⟨fun s1 h => ?_, fun s1 h => by cases h⟩
    cases h
    simp only [caseSrcMac, openField, addByte, closeField, setHeader, resetSegment, wellFormed,
      pushSample, pushDuration, pushOffset]
    split_ifs with h1 h2 h2
    all_goals simp only [List.length_append, List.length_singleton] at h2 ⊢
    · exact ⟨trivial, push1 _ (by simpa [segmentOk] using h2) rfl, by simp⟩
    · exact ⟨trivial, ⟨app, happ, hok⟩, by omega⟩
    · exact ⟨trivial, push1 _ (by simpa [segmentOk] using h2) rfl, by simp⟩
    · exact ⟨trivial, ⟨app, happ, hok⟩, by omega⟩
  case TYPE_VLAN_TAG =>
    refine ⟨fun s1 h => ?_, fun s1 h => by cases h⟩
    cases h
    simp only [caseVlanTag, openField, addByte, closeField, setHeader, resetSegment, wellFormed,
      pushSample, pushDuration, pushOffset]
    split_ifs with h1 h2 h2
    all_goals simp only [List.length_append, List.length_singleton] at h2 ⊢
    · exact ⟨trivial, push1 _ (by simpa [segmentOk] using h2) rfl, by simp⟩
    · exact ⟨trivial, ⟨app, happ, hok⟩, by omega⟩
    · exact ⟨trivial, push1 _ (by simpa [segmentOk] using h2) rfl, by simp⟩
    · exact ⟨trivial, ⟨app, happ, hok⟩, by omega⟩
  case TYPE_ETHERTYPE =>
    refine ⟨fun s1 h => ?_, fun s1 h => by cases h⟩
    cases h
    simp only [caseEthertype, resetSegment, wellFormed]
    split_ifs with h2 hv
    · simp only [addByte, openField_segment, List.length_append, List.length_singleton] at h2
      refine ⟨?_, ?_, by simp⟩
      · rw [classify_m_packets]
        simp only [closeField, addByte, openField]
        split_ifs <;> rfl
      · rw [classify_cap]
        simp only [closeField, addByte, openField, pushSample, pushDuration, pushOffset]
        split_ifs <;> exact push1 _ (by simpa [segmentOk] using h2) rfl
    · simp only [addByte, openField_segment, List.length_append, List.length_singleton] at h2
      refine ⟨?_, ?_, trivial⟩
      · rw [classify_m_packets]
        simp only [closeField, addByte, openField]
        split_ifs <;> rfl
      · rw [classify_cap]
        simp only [closeField, addByte, openField, pushSample, pushDuration, pushOffset]
        split_ifs <;> exact push1 _ (by simpa [segmentOk] using h2) rfl
    · simp only [addByte, openField_segment, List.length_append, List.length_singleton] at h2
      simp only [addByte, openField, pushOffset]
      split_ifs
      · exact ⟨rfl, ⟨app, happ, hok⟩, by simp only [List.length_append, List.length_singleton]; omega⟩
      · exact ⟨rfl, ⟨app, happ, hok⟩, by simp only [List.length_append, List.length_singleton]; omega⟩
  case TYPE_PAYLOAD =>
    have hpay : ∃ app1, (afterPayload bytes starts ends i 0
          ⟨⟨SegmentType.TYPE_PAYLOAD, d⟩, start, crcstart, ce, ca, pack, cap, pk0⟩).cap.m_samples =
          samples0 ++ app1 ∧ ∀ y ∈ app1, segmentOk y ∧ isFcs y = false := by
      simp only [afterPayload, show List.range (0 + 1) = [0] from rfl, List.map_cons,
        List.map_nil]
      exact push1 _ rfl rfl
    cases supp
    · by_cases h5 : i = sub64 bytes.length 5
      · rw [step_payload_eq ext bytes starts ends i _ rfl h5]
        refine ⟨fun s1 h => ?_, fun s1 h => by cases h⟩
        cases h
        have := (sub64_five bytes.length i hi hlt).1 h5
        exact ⟨rfl, hpay, by simp [resetSegment], by simp only [resetSegment, List.length_nil]; omega⟩
      · rw [step_payload_ne ext bytes starts ends i _ rfl h5]
        refine ⟨fun s1 h => ?_, fun s1 h => by cases h⟩
        cases h
        exact ⟨rfl, hpay, trivial⟩
    · by_cases h1 : i = sub64 bytes.length 1
      · rw [step_payload_supp_eq ext bytes starts ends i _ rfl h1]
        refine ⟨fun s1 h => (by cases h), fun s1 h => ?_⟩
        cases h
        obtain ⟨app1, ha, hb⟩ := hpay
        refine ⟨(sub64_one bytes.length i hi hlt).1 h1, rfl, app1, ha, fun x hx => (hb x hx).1, ?_⟩
        rw [filter_isFcs_of_none app1 hb]
        simp
      · rw [step_payload_supp_ne ext bytes starts ends i _ rfl h1]
        refine ⟨fun s1 h => ?_, fun s1 h => by cases h⟩
        cases h
        exact ⟨rfl, hpay, trivial⟩
  case TYPE_FCS_GOOD =>
    obtain ⟨hl, hidx⟩ := hseg
    simp only [step, caseFcs, addByte, closeField, setColors, pushOffset, pushSample, pushDuration]
    have pushf : ∀ x, segmentOk x →
        ∃ app1, cap.m_samples ++ [x] = samples0 ++ app1 ∧ (∀ y ∈ app1, segmentOk y) ∧
          (app1.filter isFcs).length ≤ 1 := by
      intro x hx
      refine ⟨app ++ [x], by rw [happ, List.append_assoc], ?_, ?_⟩
      · intro y hy
        rcases List.mem_append.1 hy with hy | hy
        · exact (hok y hy).1
        · rw [List.mem_singleton] at hy; subst hy; exact hx
      · rw [List.filter_append, filter_isFcs_of_none app hok]
        simp only [List.nil_append]
        exact (List.length_filter_le _ _).trans (by simp)
    split_ifs with h1 h2 h3 h2 h3
    all_goals simp only [List.length_append, List.length_singleton] at *
    all_goals refine ⟨fun s1 h => ?_, fun s1 h => ?_⟩ <;> cases h
    · exact ⟨by omega, rfl, pushf _ (by simpa [segmentOk] using h2)⟩
    · exact ⟨by omega, rfl, pushf _ (by simpa [segmentOk] using h2)⟩
    · exact ⟨rfl, ⟨app, happ, hok⟩, by
        simp only [List.length_append, List.length_singleton]; omega⟩
    · exact ⟨by omega, rfl, pushf _ (by simpa [segmentOk] using h2)⟩
    · exact ⟨by omega, rfl, pushf _ (by simpa [segmentOk] using h2)⟩
    · exact ⟨rfl, ⟨app, happ, hok⟩, by
        simp only [List.length_append, List.length_singleton]; omega⟩
  all_goals
    refine ⟨fun s1 h => ?_, fun s1 h => by cases h⟩
    cases h; exact ⟨rfl, ⟨app, happ, hok⟩, trivial⟩

/-- The whole loop keeps `wellFormed` and returns only in its last iteration. -/
theorem loop_wellFormed (ext : Externals) (supp : Bool) (pk : List Packet)
    (cap : EthernetWaveform) (bytes starts ends : List Nat) (hlt : bytes.length < 2 ^ 64)
    (n : Nat) (hn : n ≤ bytes.length) :
    (∀ s1, loop ext supp bytes starts ends n 0 (initState ext pk cap supp) = Flow.next s1 →
      wellFormed pk cap.m_samples bytes.length n s1) ∧
    (∀ s1, loop ext supp bytes starts ends n 0 (initState ext pk cap supp) = Flow.ret s1 →
      n = bytes.length ∧ publishedAt pk cap.m_samples bytes.length (bytes.length - 1) s1) := by
  have hinit : wellFormed pk cap.m_samples bytes.length 0 (initState ext pk cap supp) := by
    refine ⟨rfl, ⟨[], by simp [initState], by simp⟩, ?_⟩
    cases supp
    · trivial
    · show ([] : List Nat).length < 6
      simp
  obtain ⟨h1, h2⟩ := loop_invariant_at ext supp bytes starts ends
    (wellFormed pk cap.m_samples bytes.length) (publishedAt pk cap.m_samples bytes.length)
    (fun i s hi hP => step_wellFormed ext supp pk cap.m_samples bytes starts ends hlt i s hi hP)
    n 0 _ (by omega) hinit
  refine ⟨fun s1 h => ?_, fun s1 h => ?_⟩
  · have := h1 s1 h
    rwa [Nat.zero_add] at this
  · obtain ⟨j, _, hj, hq⟩ := h2 s1 h
    have hjl : j + 1 = bytes.length := hq.1
    refine ⟨by omega, ?_⟩
    rw [show bytes.length - 1 = j by omega]
    exact hq

/-- C29: for every input and either mode a call leaves the packet list as it was or adds
one packet to it; among the samples it appends there is at most one checksum segment; and
when a packet is published, the loop has run through all bytes but the last without
returning and returns in the iteration of the last byte. -/
theorem at_most_one_packet (ext : Externals) (pk : List Packet) (cap : EthernetWaveform)
    (bytes starts ends : List Nat) (supp : Bool) (hlt : bytes.length < 2 ^ 64) :
    ((BytesToFrames ext pk bytes starts ends cap supp).m_packets = pk ∨
      ∃ p, (BytesToFrames ext pk bytes starts ends cap supp).m_packets = pk ++ [p]) ∧
    (∃ app, (BytesToFrames ext pk bytes starts ends cap supp).cap.m_samples =
        cap.m_samples ++ app ∧ (app.filter isFcs).length ≤ 1) ∧
    ((BytesToFrames ext pk bytes starts ends cap supp).m_packets ≠ pk →
      0 < bytes.length ∧
      ∃ s0 s1, loop ext supp bytes starts ends (bytes.length - 1) 0
          (initState ext pk cap supp) = Flow.next s0 ∧
        step ext supp bytes starts ends (bytes.length - 1) s0 = Flow.ret s1 ∧
        BytesToFrames ext pk bytes starts ends cap supp = ⟨s1.cap, s1.m_packets⟩) := by
  obtain ⟨h1, h2⟩ := loop_wellFormed ext supp pk cap bytes starts ends hlt bytes.length
    (le_refl _)
  simp only [BytesToFrames]
  cases hrun : loop ext supp bytes starts ends bytes.length 0 (initState ext pk cap supp) with
  | next s1 =>
    obtain ⟨hpk, ⟨app, happ, hok⟩, _⟩ := h1 s1 hrun
    refine ⟨Or.inl hpk, ⟨app, happ, ?_⟩, fun hne => absurd hpk hne⟩
    rw [filter_isFcs_of_none app hok]
    simp
  | ret s1 =>
    obtain ⟨_, hj, hpk, app, happ, _, hf⟩ := h2 s1 hrun
    refine ⟨Or.inr ⟨s1.pack, hpk⟩, ⟨app, happ, hf⟩, fun _ => ⟨by omega, ?_⟩⟩
    have hsplit := loop_add ext supp bytes starts ends 1 (bytes.length - 1) 0
      (initState ext pk cap supp)
    rw [show bytes.length - 1 + 1 = bytes.length by omega, hrun] at hsplit
    cases hpre : loop ext supp bytes starts ends (bytes.length - 1) 0
        (initState ext pk cap supp) with
    | next s0 =>
      rw [hpre] at hsplit
      simp only [Nat.zero_add, loop_succ] at hsplit
      cases hst : step ext supp bytes starts ends (bytes.length - 1) s0 with
      | next s2 =>
        rw [hst] at hsplit
        simp only [loop] at hsplit
        cases hsplit
      | ret s2 =>
        rw [hst] at hsplit
        simp only at hsplit
        cases hsplit
        exact ⟨s0, _, rfl, hst, rfl⟩
    | ret s0 =>
      exfalso
      have := ((loop_wellFormed ext supp pk cap bytes starts ends hlt (bytes.length - 1)
        (by omega)).2 s0 hpre).1
      omega

set_option maxRecDepth 100000 in
/-- Witness for C29: the example frame gives exactly one packet. -/
theorem at_most_one_packet_witness :
    (frame exDst exSrc [0x08, 0x00] exPayload exTrailer).length < 2 ^ 64 ∧
    ((BytesToFrames stdExt [] (frame exDst exSrc [0x08, 0x00] exPayload exTrailer)
        (exStarts 28) (exEnds 28) emptyCap false).m_packets = [] ∨
      ∃ p, (BytesToFrames stdExt [] (frame exDst exSrc [0x08, 0x00] exPayload exTrailer)
        (exStarts 28) (exEnds 28) emptyCap false).m_packets = [] ++ [p]) :=
  ⟨by decide,
    (at_most_one_packet stdExt [] emptyCap (frame exDst exSrc [0x08, 0x00] exPayload exTrailer)
      (exStarts 28) (exEnds 28) false (by decide)).1⟩

theorem segmentOk_data (x : EthernetFrameSegment) (h : segmentOk x) :
    ∃ b rest, x.m_data = b :: rest := by
  obtain ⟨ty, d⟩ := x
  cases d with
  | cons b rest => exact ⟨b, rest, rfl⟩
  | nil => cases ty <;> simp [segmentOk] at h

/-- On a sample list whose segments all have the shape the decoder gives them, `GetText`
stays inside every vector and takes none of the wrong-length returns. -/
theorem GetTextTraced_of_segmentOk (samples : List EthernetFrameSegment)
    (h : ∀ x ∈ samples, segmentOk x) (i : Nat) (hi : i < samples.length) :
    GetTextTraced samples i = TextResult.text (GetText samples i) := by
  have hs : samples[i]? = some samples[i] := List.getElem?_eq_getElem hi
  have hg : samples.getD i ⟨SegmentType.TYPE_INVALID, []⟩ = samples[i] := by
    rw [List.getD_eq_getElem?_getD, hs]; rfl
  have hx := h samples[i] (List.getElem_mem hi)
  have hnext : i + 1 < samples.length →
      ∃ b rest, (samples.getD (i + 1) ⟨SegmentType.TYPE_INVALID, []⟩).m_data = b :: rest := by
    intro h1
    have h2 : samples.getD (i + 1) ⟨SegmentType.TYPE_INVALID, []⟩ = samples[i + 1] := by
      rw [List.getD_eq_getElem?_getD, List.getElem?_eq_getElem h1]; rfl
    rw [h2]
    exact segmentOk_data _ (h _ (List.getElem_mem h1))
  unfold GetTextTraced GetText
  rw [hs, hg]
  generalize samples[i] = x at hx
  obtain ⟨ty, d⟩ := x
  cases ty <;> simp only [segmentOk] at hx <;> simp only []
  case TYPE_DST_MAC => simp [hx]
  case TYPE_SRC_MAC => simp [hx]
  case TYPE_VLAN_TAG =>
    obtain ⟨a, b, rfl⟩ := length_eq_two hx
    simp
  case TYPE_ETHERTYPE =>
    simp only [hx, ne_eq, not_true_eq_false, if_false]
    by_cases hv : word16 d < 1500
    · simp only [hv, if_true]
      by_cases h1 : i + 1 < samples.length
      · obtain ⟨b, rest, hb⟩ := hnext h1
        simp only [h1, if_true, hb, List.getElem?_cons_zero, List.getD_cons_zero]
        split_ifs <;> rfl
      · simp only [h1, if_false]
    · simp only [hv, if_false]
      split_ifs <;> rfl
  case TYPE_FCS_GOOD => simp [hx]
  case TYPE_FCS_BAD => simp [hx]

/-- C27: every segment a call appends has one of the nine types with data of the length
that goes with it (`segmentOk`); and on a waveform whose earlier segments have that shape
too, `GetText` on any index stays inside `m_samples` and `m_data`, also in the unchecked
reads of the tag and of the next segment, and takes none of the wrong-length returns. -/
theorem segments_well_shaped (ext : Externals) (pk : List Packet) (cap : EthernetWaveform)
    (bytes starts ends : List Nat) (supp : Bool) (hlt : bytes.length < 2 ^ 64) :
    (∀ x ∈ (BytesToFrames ext pk bytes starts ends cap supp).cap.m_samples.drop
        cap.m_samples.length, segmentOk x) ∧
    ((∀ x ∈ cap.m_samples, segmentOk x) →
      ∀ i, i < (BytesToFrames ext pk bytes starts ends cap supp).cap.m_samples.length →
        GetTextTraced (BytesToFrames ext pk bytes starts ends cap supp).cap.m_samples i =
          TextResult.text
            (GetText (BytesToFrames ext pk bytes starts ends cap supp).cap.m_samples i)) := by
  obtain ⟨h1, h2⟩ := loop_wellFormed ext supp pk cap bytes starts ends hlt bytes.length
    (le_refl _)
  have key : ∃ app, (BytesToFrames ext pk bytes starts ends cap supp).cap.m_samples =
      cap.m_samples ++ app ∧ ∀ x ∈ app, segmentOk x := by
    simp only [BytesToFrames]
    cases hrun : loop ext supp bytes starts ends bytes.length 0 (initState ext pk cap supp) with
    | next s1 =>
      obtain ⟨_, ⟨app, happ, hok⟩, _⟩ := h1 s1 hrun
      exact ⟨app, happ, fun x hx => (hok x hx).1⟩
    | ret s1 =>
      obtain ⟨_, _, _, app, happ, hok, _⟩ := h2 s1 hrun
      exact ⟨app, happ, hok⟩
  obtain ⟨app, happ, hok⟩ := key
  refine ⟨?_, ?_⟩
  · rw [happ, List.drop_left]
    exact hok
  · intro hcap i hi
    apply GetTextTraced_of_segmentOk _ _ i hi
    rw [happ]
    intro x hx
    rcases List.mem_append.1 hx with hx | hx
    · exact hcap x hx
    · exact hok x hx

set_option maxRecDepth 100000 in
/-- Witness for C27: the texts of the eight segments of the example frame. -/
theorem segments_well_shaped_witness :
    (frame exDst exSrc [0x08, 0x00] exPayload exTrailer).length < 2 ^ 64 ∧
    (List.range 8).map (GetTextTraced
      (BytesToFrames stdExt [] (frame exDst exSrc [0x08, 0x00] exPayload exTrailer)
        (exStarts 28) (exEnds 28) emptyCap false).cap.m_samples) =
      (List.range 8).map (fun i => TextResult.text (GetText
        (BytesToFrames stdExt [] (frame exDst exSrc [0x08, 0x00] exPayload exTrailer)
          (exStarts 28) (exEnds 28) emptyCap false).cap.m_samples i)) ∧
    ∀ x ∈ (BytesToFrames stdExt [] (frame exDst exSrc [0x08, 0x00] exPayload exTrailer)
        (exStarts 28) (exEnds 28) emptyCap false).cap.m_samples.drop emptyCap.m_samples.length,
      segmentOk x :=
  ⟨by decide, by decide,
    (segments_well_shaped stdExt [] emptyCap (frame exDst exSrc [0x08, 0x00] exPayload exTrailer)
      (exStarts 28) (exEnds 28) false (by decide)).1⟩

/-! ## Bytes of the segments -/

theorem dataOf_append (a b : List EthernetFrameSegment) : dataOf (a ++ b) = dataOf a ++ dataOf b := by
  simp [dataOf]

theorem payloadOf_append (a b : List EthernetFrameSegment) :
    payloadOf (a ++ b) = payloadOf a ++ payloadOf b := by
  simp [payloadOf, dataOf_append]

theorem take_succ_getD (bytes : List Nat) (i : Nat) (hi : i < bytes.length) :
    bytes.take (i + 1) = bytes.take i ++ [bytes.getD i 0] := by
  rw [List.take_succ, List.getD_eq_getElem?_getD, List.getElem?_eq_getElem hi]
  rfl

/-- Appending a sample that is not a payload segment and carries the pending bytes and the
byte of this iteration. -/
theorem lossless_push (samples0 app : List EthernetFrameSegment) (samples : List EthernetFrameSegment)
    (bytes pend pdata : List Nat) (i : Nat) (hi : i < bytes.length) (t : SegmentType)
    (ht : t ≠ SegmentType.TYPE_PAYLOAD)
    (h1 : samples = samples0 ++ app) (h2 : dataOf app ++ pend = bytes.take i)
    (h3 : pdata = payloadOf app) :
    ∃ app1, samples ++ [⟨t, pend ++ [bytes.getD i 0]⟩] = samples0 ++ app1 ∧
      dataOf app1 ++ [] = bytes.take (i + 1) ∧ pdata = payloadOf app1 := by
  refine ⟨app ++ [⟨t, pend ++ [bytes.getD i 0]⟩], by rw [h1, List.append_assoc], ?_, ?_⟩
  · rw [dataOf_append, take_succ_getD bytes i hi, ← h2]
    simp [dataOf]
  · rw [payloadOf_append, h3]
    simp [payloadOf, dataOf, ht]

/-- Adding the byte of this iteration to the pending bytes. -/
theorem lossless_add (samples0 app : List EthernetFrameSegment) (samples : List EthernetFrameSegment)
    (bytes pend pdata : List Nat) (i : Nat) (hi : i < bytes.length)
    (h1 : samples = samples0 ++ app) (h2 : dataOf app ++ pend = bytes.take i)
    (h3 : pdata = payloadOf app) :
    ∃ app1, samples = samples0 ++ app1 ∧
      dataOf app1 ++ (pend ++ [bytes.getD i 0]) = bytes.take (i + 1) ∧
      pdata = payloadOf app1 :=
  ⟨app, h1, by rw [take_succ_getD bytes i hi, ← h2, List.append_assoc], h3⟩

/-- Each iteration keeps `lossless`, and a returning iteration gives `losslessAt`. -/
theorem step_lossless (ext : Externals) (supp : Bool) (samples0 : List EthernetFrameSegment)
    (bytes starts ends : List Nat) (k : Nat) (hk : supp = false → 0 < k)
    (hpre : supp = false → ∀ j, j < k → bytes.getD j 0 = 0x55)
    (hsfd : supp = false → bytes.getD k 0 = 0xd5)
    (i : Nat) (s : LoopState) (hi : i < bytes.length) (hP : lossless supp samples0 bytes k i s) :
    (∀ s1, step ext supp bytes starts ends i s = Flow.next s1 →
      lossless supp samples0 bytes k (i + 1) s1) ∧
    (∀ s1, step ext supp bytes starts ends i s = Flow.ret s1 →
      losslessAt samples0 bytes i s1) := by
  obtain ⟨⟨ty, d⟩, start, crcstart, ce, ca, pack, cap, pk0⟩ := s
  obtain ⟨⟨app, happ, hdata, hpay⟩, hseg⟩ := hP
  simp only at happ hpay
  cases ty <;> simp only [pending] at hdata hseg
  case TYPE_INVALID =>
    obtain ⟨hs, hi0⟩ := hseg
    subst hi0
    refine ⟨fun s1 h => ?_, fun s1 h => by cases h⟩
    cases h
    have hb : bytes.getD 0 0 = 0x55 := hpre hs 0 (hk hs)
    simp only [caseInvalid, hb, ne_eq, not_true_eq_false, if_false, lossless, pending]
    refine ⟨⟨app, happ, ?_, hpay⟩, hs, hk hs⟩
    rw [take_succ_getD bytes 0 hi, ← hdata, hb]
    simp
  case TYPE_PREAMBLE =>
    obtain ⟨hs, hik⟩ := hseg
    refine ⟨fun s1 h => ?_, fun s1 h => by cases h⟩
    cases h
    by_cases hlt : i < k
    · have hb : bytes.getD i 0 = 0x55 := hpre hs i hlt
      simp only [casePreamble, hb, lossless, pending]
      simp only [show ¬((0x55 : Nat) = 0xd5) by decide, if_false, if_true]
      refine ⟨⟨app, happ, ?_, hpay⟩, hs, hlt⟩
      rw [take_succ_getD bytes i hi, ← hdata, hb, List.append_assoc]
    · have hik2 : i = k := by omega
      subst hik2
      have hb : bytes.getD i 0 = 0xd5 := hsfd hs
      simp only [casePreamble, hb, if_true, lossless, pending, pushSample, pushDuration,
        pushOffset]
      refine ⟨⟨app ++ [⟨SegmentType.TYPE_PREAMBLE, d⟩, ⟨SegmentType.TYPE_SFD, [0xd5]⟩],
        by rw [happ]; simp, ?_, ?_⟩, trivial⟩
      · rw [dataOf_append, take_succ_getD bytes i hi, ← hdata, hb]
        simp [dataOf]
      · rw [payloadOf_append, hpay]
        simp [payloadOf, dataOf]
  case TYPE_DST_MAC =>
    refine ⟨fun s1 h => ?_, fun s1 h => by cases h⟩
    cases h
    simp only [caseDstMac, openField, addByte, closeField, setHeader, resetSegment, lossless,
      pending, pushSample, pushDuration, pushOffset]
    split_ifs
    all_goals first
      | exact ⟨lossless_push samples0 app _ bytes d _ i hi SegmentType.TYPE_DST_MAC (by decide) happ hdata hpay, trivial⟩
      | exact ⟨lossless_add samples0 app _ bytes d _ i hi happ hdata hpay, trivial⟩
  case TYPE_SRC_MAC =>
    refine ⟨fun s1 h => ?_, fun s1 h => by cases h⟩
    cases h
    simp only [caseSrcMac, openField, addByte, closeField, setHeader, resetSegment, lossless,
      pending, pushSample, pushDuration, pushOffset]
    split_ifs
    all_goals first
      | exact ⟨lossless_push samples0 app _ bytes d _ i hi SegmentType.TYPE_SRC_MAC (by decide) happ hdata hpay, trivial⟩
      | exact ⟨lossless_add samples0 app _ bytes d _ i hi happ hdata hpay, trivial⟩
  case TYPE_VLAN_TAG =>
    refine ⟨fun s1 h => ?_, fun s1 h => by cases h⟩
    cases h
    simp only [caseVlanTag, openField, addByte, closeField, setHeader, resetSegment, lossless,
      pending, pushSample, pushDuration, pushOffset]
    split_ifs
    all_goals first
      | exact ⟨lossless_push samples0 app _ bytes d _ i hi SegmentType.TYPE_VLAN_TAG (by decide) happ hdata hpay, trivial⟩
      | exact ⟨lossless_add samples0 app _ bytes d _ i hi happ hdata hpay, trivial⟩
  case TYPE_ETHERTYPE =>
    refine ⟨fun s1 h => ?_, fun s1 h => by cases h⟩
    cases h
    simp only [caseEthertype, resetSegment, lossless, pending]
    split_ifs
    · rw [classify_cap, (classify_pack _ _ _ _).2]
      simp only [closeField, addByte, openField, pushSample, pushDuration, pushOffset]
      split_ifs <;>
        exact ⟨lossless_push samples0 app _ bytes d _ i hi SegmentType.TYPE_ETHERTYPE (by decide) happ hdata hpay, trivial⟩
    · rw [classify_cap, (classify_pack _ _ _ _).2]
      simp only [closeField, addByte, openField, pushSample, pushDuration, pushOffset]
      split_ifs <;>
        exact ⟨lossless_push samples0 app _ bytes d _ i hi SegmentType.TYPE_ETHERTYPE (by decide) happ hdata hpay, trivial⟩
    · simp only [addByte, openField, pushOffset]
      split_ifs <;>
        exact ⟨lossless_add samples0 app _ bytes d _ i hi happ hdata hpay, trivial⟩
  case TYPE_PAYLOAD =>
    have hpl : ∃ app1, (afterPayload bytes starts ends i 0
          ⟨⟨SegmentType.TYPE_PAYLOAD, d⟩, start, crcstart, ce, ca, pack, cap, pk0⟩).cap.m_samples =
          samples0 ++ app1 ∧ dataOf app1 = bytes.take (i + 1) ∧
        (afterPayload bytes starts ends i 0
          ⟨⟨SegmentType.TYPE_PAYLOAD, d⟩, start, crcstart, ce, ca, pack, cap, pk0⟩).pack.m_data =
          payloadOf app1 := by
      simp only [afterPayload, show List.range (0 + 1) = [0] from rfl, List.map_cons,
        List.map_nil, Nat.add_zero]
      refine ⟨app ++ [⟨SegmentType.TYPE_PAYLOAD, [bytes.getD i 0]⟩],
        by rw [happ, List.append_assoc], ?_, ?_⟩
      · rw [dataOf_append, take_succ_getD bytes i hi, ← hdata]
        simp [dataOf]
      · rw [payloadOf_append, hpay]
        simp [payloadOf, dataOf]
    obtain ⟨app1, ha, hb, hc⟩ := hpl
    cases supp
    · by_cases h5 : i = sub64 bytes.length 5
      · rw [step_payload_eq ext bytes starts ends i _ rfl h5]
        refine ⟨fun s1 h => ?_, fun s1 h => by cases h⟩
        cases h
        exact ⟨⟨app1, ha, by simpa [pending, resetSegment] using hb, hc⟩, trivial⟩
      · rw [step_payload_ne ext bytes starts ends i _ rfl h5]
        refine ⟨fun s1 h => ?_, fun s1 h => by cases h⟩
        cases h
        exact ⟨⟨app1, ha, by simpa [pending, afterPayload] using hb, hc⟩, trivial⟩
    · by_cases h1 : i = sub64 bytes.length 1
      · rw [step_payload_supp_eq ext bytes starts ends i _ rfl h1]
        refine ⟨fun s1 h => (by cases h), fun s1 h => ?_⟩
        cases h
        exact ⟨app1, ha, hb, hc⟩
      · rw [step_payload_supp_ne ext bytes starts ends i _ rfl h1]
        refine ⟨fun s1 h => ?_, fun s1 h => by cases h⟩
        cases h
        exact ⟨⟨app1, ha, by simpa [pending, afterPayload] using hb, hc⟩, trivial⟩
  case TYPE_FCS_GOOD =>
    simp only [step, caseFcs, addByte, closeField, setColors, pushOffset, pushSample, pushDuration]
    have hp1 := lossless_push samples0 app _ bytes d _ i hi SegmentType.TYPE_FCS_GOOD
      (by decide) happ hdata hpay
    have hp2 := lossless_push samples0 app _ bytes d _ i hi SegmentType.TYPE_FCS_BAD
      (by decide) happ hdata hpay
    have hadd := lossless_add samples0 app _ bytes d _ i hi happ hdata hpay
    simp only [List.append_nil] at hp1 hp2
    split_ifs
    all_goals refine ⟨fun s1 h => ?_, fun s1 h => ?_⟩ <;> cases h
    all_goals first
      | exact hp1
      | exact hp2
      | exact ⟨hadd, trivial⟩

/-- C28: when a call publishes a packet, on any input if preamble and checksum are
suppressed and otherwise on an input that begins with `k ≥ 1` bytes `0x55` followed by
`0xd5`, the data of the segments appended, concatenated in the order of emission, is the
whole input, and the payload of the published packet is the concatenated data of the
payload segments appended. -/
theorem decoding_lossless (ext : Externals) (pk : List Packet) (cap : EthernetWaveform)
    (bytes starts ends : List Nat) (supp : Bool) (k : Nat) (rest : List Nat)
    (hlt : bytes.length < 2 ^ 64)
    (hform : supp = false → 0 < k ∧ bytes = List.replicate k 0x55 ++ 0xd5 :: rest)
    (hpub : (BytesToFrames ext pk bytes starts ends cap supp).m_packets ≠ pk) :
    dataOf ((BytesToFrames ext pk bytes starts ends cap supp).cap.m_samples.drop
      cap.m_samples.length) = bytes ∧
    ∃ p, (BytesToFrames ext pk bytes starts ends cap supp).m_packets = pk ++ [p] ∧
      p.m_data = payloadOf ((BytesToFrames ext pk bytes starts ends cap supp).cap.m_samples.drop
        cap.m_samples.length) := by
  have hk : supp = false → 0 < k := fun h => (hform h).1
  have hpre : supp = false → ∀ j, j < k → bytes.getD j 0 = 0x55 := by
    intro h j hj
    rw [(hform h).2, List.getD_eq_getElem?_getD,
      List.getElem?_append_left (by simpa using hj)]
    simp [hj]
  have hsfd : supp = false → bytes.getD k 0 = 0xd5 := by
    intro h
    rw [(hform h).2, List.getD_eq_getElem?_getD,
      List.getElem?_append_right (by simp)]
    simp
  have hinit : wellFormed pk cap.m_samples bytes.length 0 (initState ext pk cap supp) ∧
      lossless supp cap.m_samples bytes k 0 (initState ext pk cap supp) := by
    refine ⟨⟨rfl, ⟨[], by simp [initState], by simp⟩, ?_⟩, ⟨[], ?_, ?_, rfl⟩, ?_⟩
    · cases supp
      · trivial
      · show ([] : List Nat).length < 6
        simp
    · simp [initState]
    · cases supp <;> rfl
    · cases supp
      · exact ⟨rfl, rfl⟩
      · trivial
  obtain ⟨h1, h2⟩ := loop_invariant_at ext supp bytes starts ends
    (fun i s => wellFormed pk cap.m_samples bytes.length i s ∧
      lossless supp cap.m_samples bytes k i s)
    (fun j s => publishedAt pk cap.m_samples bytes.length j s ∧
      losslessAt cap.m_samples bytes j s)
    (fun i s hi hP =>
      ⟨fun s1 h => ⟨(step_wellFormed ext supp pk cap.m_samples bytes starts ends hlt i s hi
          hP.1).1 s1 h,
        (step_lossless ext supp cap.m_samples bytes starts ends k hk hpre hsfd i s hi hP.2).1 s1 h⟩,
      fun s1 h => ⟨(step_wellFormed ext supp pk cap.m_samples bytes starts ends hlt i s hi
          hP.1).2 s1 h,
        (step_lossless ext supp cap.m_samples bytes starts ends k hk hpre hsfd i s hi hP.2).2 s1 h⟩⟩)
    bytes.length 0 _ (by omega) hinit
  simp only [BytesToFrames] at hpub ⊢
  cases hrun : loop ext supp bytes starts ends bytes.length 0 (initState ext pk cap supp) with
  | next s1 =>
    exfalso
    rw [hrun] at hpub
    exact hpub (h1 s1 hrun).1.1
  | ret s1 =>
    obtain ⟨j, _, _, ⟨hj, hpk, _⟩, app, happ, hdata, hpay⟩ := h2 s1 hrun
    simp only [Flow.state]
    rw [happ, List.drop_left]
    refine ⟨?_, s1.pack, hpk, hpay⟩
    rw [hdata, hj, List.take_length]

set_option maxRecDepth 100000 in
/-- Witness for C28: the example frame, with its seven preamble bytes. -/
theorem decoding_lossless_witness :
    (frame exDst exSrc [0x08, 0x00] exPayload exTrailer).length < 2 ^ 64 ∧
    frame exDst exSrc [0x08, 0x00] exPayload exTrailer =
      List.replicate 7 0x55 ++ 0xd5 :: (exDst ++ exSrc ++ [0x08, 0x00] ++ exPayload ++ exTrailer) ∧
    dataOf ((BytesToFrames stdExt [] (frame exDst exSrc [0x08, 0x00] exPayload exTrailer)
        (exStarts 28) (exEnds 28) emptyCap false).cap.m_samples.drop emptyCap.m_samples.length) =
      frame exDst exSrc [0x08, 0x00] exPayload exTrailer :=
  ⟨by decide, by decide,
    (decoding_lossless stdExt [] emptyCap (frame exDst exSrc [0x08, 0x00] exPayload exTrailer)
      (exStarts 28) (exEnds 28) false 7
      (exDst ++ exSrc ++ [0x08, 0x00] ++ exPayload ++ exTrailer) (by decide)
      (fun _ => ⟨by decide, by decide⟩) (by decide)).1⟩

/-! ## Timing of the segments -/

end ScopeHal
